import Mathlib

set_option maxHeartbeats 2000000

/-
Verification development for the AGC compiler (ag-lang).

Shallow embedding of the relevant parts of the Rust implementation:
  - `Ag`        : the surface-language AST (crate ag-ast)
  - `AgChk`     : the type checker (crate ag-checker)
  - `AgServer`  : the server-DSL validator (crate ag-dsl-server)
  - `AgJs`      : the JavaScript AST fragment produced by code generation
  - `AgGen`     : the code generator (crate ag-codegen)
  - `AgParse`   : the recursive-descent parser (crate ag-parser)

Rust `HashMap`/`HashSet` values are modelled as association lists / lists with
insert-if-absent discipline; only order-insensitive facts (membership, lookup,
counts) are proved about them.  Stateful Rust methods become explicit
state-passing functions.  Recursive procedures whose termination is not
structural are given an explicit fuel parameter; fuel exhaustion is a
distinguished outcome that no Rust execution maps to, and theorems either
quantify over the fuel or instantiate it with a sufficiently large value.
The Rust per-node AST structs (`BinaryExpr`, `CallExpr`, ...) are flattened
into constructor fields of the corresponding Lean inductives; field order
follows the Rust struct declarations.
-/

namespace Ag

/-- Byte offset span in source code (ag-ast `Span`). -/
structure Span where
  start : Nat
  stop : Nat
deriving DecidableEq, Repr

/-- `Span::dummy()` is `(0,0)`. -/
def Span.dummy : Span := ⟨0, 0⟩

/-- A diagnostic record `(message, span)` (ag-ast `Diagnostic`). -/
structure Diagnostic where
  message : String
  span : Span
deriving DecidableEq, Repr

/-- Variable-declaration kind (ag-ast `VarKind`). -/
inductive VarKind where
  | letK | mutK | constK
deriving DecidableEq, Repr

/-- Binary operators (ag-ast `BinaryOp`). -/
inductive BinaryOp where
  | add | sub | mul | div | mod | pow
  | eq | ne | lt | gt | le | ge
  | and | or
deriving DecidableEq, Repr

/-- Unary operators (ag-ast `UnaryOp`). -/
inductive UnaryOp where
  | neg | not
deriving DecidableEq, Repr

/-- Assignment operators (ag-ast `AssignOp`). -/
inductive AssignOp where
  | assign | addAssign | subAssign | mulAssign | divAssign
deriving DecidableEq, Repr

/-- Identifier with span (ag-ast `Ident`). -/
structure Ident where
  name : String
  span : Span
deriving Repr

/-- Literals (ag-ast `Literal`).  The float payload carries the Rust `f64`. -/
inductive Literal where
  | int (v : Int) (s : Span)
  | float (v : Float) (s : Span)
  | str (v : String) (s : Span)
  | bool (v : Bool) (s : Span)
  | nil (s : Span)

def Literal.span : Literal → Span
  | .int _ s | .float _ s | .str _ s | .bool _ s | .nil s => s

/-- Type expressions (ag-ast `TypeExpr`, with `FunctionType`, `ObjectType`,
`TypeField` inlined). -/
inductive TypeExpr where
  | named (name : String) (s : Span)
  | array (inner : TypeExpr) (s : Span)
  | map (k v : TypeExpr) (s : Span)
  | nullable (inner : TypeExpr) (s : Span)
  | union (a b : TypeExpr) (s : Span)
  | function (params : List TypeExpr) (ret : TypeExpr) (s : Span)
  | object (fields : List (String × TypeExpr)) (s : Span)
  | promise (inner : TypeExpr) (s : Span)

/-- Host-binding annotation `@js(module, name?)` (ag-ast `JsAnnotation`;
renamed `JsAnnot` here). -/
structure JsAnnot where
  module : Option String
  jsName : Option String
  span : Span

/-- Struct destructuring pattern (ag-ast `StructPattern`). -/
structure StructPattern where
  fields : List String
  span : Span

/-- Enum destructuring pattern (ag-ast `EnumPattern`). -/
structure EnumPattern where
  enumName : String
  variant : String
  bindings : List String
  span : Span

set_option genInjectivity false

mutual

/-- Expressions (ag-ast `Expr`), with the per-node structs flattened into
constructor fields (in Rust field order, span last). -/
inductive Expr where
  | binary (op : BinaryOp) (left right : Expr) (span : Span)
  | unary (op : UnaryOp) (operand : Expr) (span : Span)
  | call (callee : Expr) (args : List Expr) (span : Span)
  | member (object : Expr) (field : String) (span : Span)
  | index (object : Expr) (idx : Expr) (span : Span)
  | ifE (condition : Expr) (thenBlock : Block) (elseBranch : Option ElseBranch) (span : Span)
  | matchE (subject : Expr) (arms : List MatchArm) (span : Span)
  | block (b : Block)
  | ident (i : Ident)
  | literal (l : Literal)
  | array (elements : List Expr) (span : Span)
  | object (fields : List ObjectField) (span : Span)
  | arrow (params : List Param) (body : ArrowBody) (isAsync : Bool) (span : Span)
  | pipe (left right : Expr) (span : Span)
  | optionalChain (object : Expr) (field : String) (span : Span)
  | nullishCoalesce (left right : Expr) (span : Span)
  | awaitE (expr : Expr) (span : Span)
  | errorPropagate (expr : Expr) (span : Span)
  | assign (target value : Expr) (op : AssignOp) (span : Span)
  | templateString (parts : List TemplatePart) (span : Span)
  | placeholder (s : Span)

/-- Else branch of an `if` (ag-ast `ElseBranch`); the nested `IfExpr` is
flattened. -/
inductive ElseBranch where
  | block (b : Block)
  | ifE (condition : Expr) (thenBlock : Block) (elseBranch : Option ElseBranch) (span : Span)

/-- Match arm (ag-ast `MatchArm`). -/
inductive MatchArm where
  | mk (pattern : Pattern) (guard : Option Expr) (body : Expr) (span : Span)

/-- Patterns (ag-ast `Pattern`). -/
inductive Pattern where
  | literal (l : Literal)
  | ident (name : String) (s : Span)
  | structP (p : StructPattern)
  | enumP (p : EnumPattern)
  | wildcard (s : Span)
  | range (lo hi : Expr) (s : Span)

/-- Object-literal field (ag-ast `ObjectField`). -/
inductive ObjectField where
  | mk (key : String) (value : Expr) (span : Span)

/-- Arrow-function body (ag-ast `ArrowBody`). -/
inductive ArrowBody where
  | expr (e : Expr)
  | block (b : Block)

/-- Template-string part (ag-ast `TemplatePart`). -/
inductive TemplatePart where
  | str (s : String)
  | expr (e : Expr)

/-- Statements (ag-ast `Stmt`); `Stmt::If` / `Stmt::Match` carry the flattened
`IfExpr` / `MatchExpr` fields. -/
inductive Stmt where
  | varDecl (v : VarDecl)
  | exprStmt (expr : Expr) (span : Span)
  | ret (value : Option Expr) (span : Span)
  | ifS (condition : Expr) (thenBlock : Block) (elseBranch : Option ElseBranch) (span : Span)
  | forS (binding : String) (iter : Expr) (body : Block) (span : Span)
  | whileS (condition : Expr) (body : Block) (span : Span)
  | matchS (subject : Expr) (arms : List MatchArm) (span : Span)
  | tryCatch (tryBlock : Block) (catchBinding : String) (catchBlock : Block) (span : Span)

/-- Block: statements plus optional tail expression (ag-ast `Block`). -/
inductive Block where
  | mk (stmts : List Stmt) (tailExpr : Option Expr) (span : Span)

/-- Variable declaration (ag-ast `VarDecl`). -/
inductive VarDecl where
  | mk (kind : VarKind) (name : String) (ty : Option TypeExpr) (init : Expr) (span : Span)

/-- Function / arrow parameter (ag-ast `Param`). -/
inductive Param where
  | mk (name : String) (ty : Option TypeExpr) (dflt : Option Expr) (isVariadic : Bool) (span : Span)

end

set_option genInjectivity true

def MatchArm.pattern : MatchArm → Pattern | .mk p _ _ _ => p
def MatchArm.guard : MatchArm → Option Expr | .mk _ g _ _ => g
def MatchArm.body : MatchArm → Expr | .mk _ _ b _ => b
def MatchArm.span : MatchArm → Span | .mk _ _ _ s => s

def ObjectField.key : ObjectField → String | .mk k _ _ => k
def ObjectField.value : ObjectField → Expr | .mk _ v _ => v
def ObjectField.span : ObjectField → Span | .mk _ _ s => s

def Block.stmts : Block → List Stmt | .mk s _ _ => s
def Block.tailExpr : Block → Option Expr | .mk _ t _ => t
def Block.span : Block → Span | .mk _ _ s => s

def VarDecl.kind : VarDecl → VarKind | .mk k _ _ _ _ => k
def VarDecl.name : VarDecl → String | .mk _ n _ _ _ => n
def VarDecl.ty : VarDecl → Option TypeExpr | .mk _ _ t _ _ => t
def VarDecl.init : VarDecl → Expr | .mk _ _ _ i _ => i
def VarDecl.span : VarDecl → Span | .mk _ _ _ _ s => s

def Param.name : Param → String | .mk n _ _ _ _ => n
def Param.ty : Param → Option TypeExpr | .mk _ t _ _ _ => t
def Param.dflt : Param → Option Expr | .mk _ _ d _ _ => d
def Param.isVariadic : Param → Bool | .mk _ _ _ v _ => v
def Param.span : Param → Span | .mk _ _ _ _ s => s

/-- Function declaration (ag-ast `FnDecl`). -/
structure FnDecl where
  name : String
  params : List Param
  returnType : Option TypeExpr
  body : Block
  isPub : Bool
  isAsync : Bool
  span : Span

/-- Struct field (ag-ast `Field`). -/
structure Field where
  name : String
  ty : TypeExpr
  dflt : Option Expr
  span : Span

/-- Struct declaration (ag-ast `StructDecl`). -/
structure StructDecl where
  name : String
  fields : List Field
  span : Span

/-- Enum variant (ag-ast `Variant`). -/
structure Variant where
  name : String
  fields : List Field
  span : Span

/-- Enum declaration (ag-ast `EnumDecl`). -/
structure EnumDecl where
  name : String
  variants : List Variant
  span : Span

/-- Type alias (ag-ast `TypeAlias`). -/
structure TypeAlias where
  name : String
  ty : TypeExpr
  span : Span

/-- Import name with optional alias (ag-ast `ImportName`). -/
structure ImportName where
  name : String
  aliasName : Option String
  span : Span

/-- Import item (ag-ast `Import`). -/
structure Import where
  names : List ImportName
  path : String
  namespaceAlias : Option String
  span : Span

/-- Extern function declaration (ag-ast `ExternFnDecl`). -/
structure ExternFnDecl where
  name : String
  params : List Param
  returnType : Option TypeExpr
  jsAnnot : Option JsAnnot
  variadic : Bool
  span : Span

/-- Extern struct method signature (ag-ast `MethodSignature`). -/
structure MethodSignature where
  name : String
  params : List Param
  returnType : Option TypeExpr
  span : Span

/-- Extern struct declaration (ag-ast `ExternStructDecl`). -/
structure ExternStructDecl where
  name : String
  fields : List Field
  methods : List MethodSignature
  jsAnnot : Option JsAnnot
  span : Span

/-- Extern opaque type declaration (ag-ast `ExternTypeDecl`). -/
structure ExternTypeDecl where
  name : String
  jsAnnot : Option JsAnnot
  span : Span

/-- DSL block part (ag-ast `DslPart`). -/
inductive DslPart where
  | text (s : String) (sp : Span)
  | capture (e : Expr) (sp : Span)

/-- DSL block content (ag-ast `DslContent`). -/
inductive DslContent where
  | inline (parts : List DslPart)
  | fileRef (path : String) (sp : Span)

/-- DSL block (ag-ast `DslBlock`). -/
structure DslBlock where
  kind : String
  name : Ident
  content : DslContent
  span : Span

/-- Expression statement at item level (ag-ast `ExprStmt`). -/
structure ExprStmt where
  expr : Expr
  span : Span

/-- Top-level items (ag-ast `Item`). -/
inductive Item where
  | fnDecl (f : FnDecl)
  | structDecl (s : StructDecl)
  | enumDecl (e : EnumDecl)
  | typeAlias (t : TypeAlias)
  | importI (i : Import)
  | varDecl (v : VarDecl)
  | exprStmt (e : ExprStmt)
  | dslBlock (d : DslBlock)
  | externFnDecl (e : ExternFnDecl)
  | externStructDecl (e : ExternStructDecl)
  | externTypeDecl (e : ExternTypeDecl)

/-- A module is an ordered sequence of items (ag-ast `Module`). -/
structure Module where
  items : List Item

end Ag

/-! ## Server DSL (crate ag-dsl-server: `ast.rs`, `validator.rs`) -/

namespace AgServer

/-- Path segment of a route (`PathSegment`). -/
inductive PathSegment where
  | literal (s : String)
  | param (s : String)
  | wildcard
deriving DecidableEq, Repr

/-- HTTP method (`HttpMethod`). -/
inductive HttpMethod where
  | get | post | put | delete | patch
deriving DecidableEq, Repr

/-- A route declaration (`Route`). -/
structure Route where
  method : HttpMethod
  path : List PathSegment
  handlerCapture : Nat
deriving DecidableEq, Repr

/-- A parsed server template (`ServerTemplate`).  The Rust `port` is a `u16`;
its value range is immaterial to the validator, which only compares with 0. -/
structure ServerTemplate where
  name : String
  port : Option Nat
  host : Option String
  middlewares : List Nat
  routes : List Route
deriving DecidableEq, Repr

/-- Diagnostic severity (`validator.rs` `Severity`). -/
inductive Severity where
  | error | warning
deriving DecidableEq, Repr

/-- Server-DSL diagnostic (`validator.rs` `Diagnostic`). -/
structure Diagnostic where
  message : String
  severity : Severity
deriving DecidableEq, Repr

/-- `method_name`. -/
def methodName : HttpMethod → String
  | .get => "GET"
  | .post => "POST"
  | .put => "PUT"
  | .delete => "DELETE"
  | .patch => "PATCH"

/-- Segment text appended after each `/` by `format_path`. -/
def segPiece : PathSegment → String
  | .literal s => s
  | .param s => ":" ++ s
  | .wildcard => "*"

/-- `format_path`. -/
def formatPath (segments : List PathSegment) : String :=
  if segments = [] then "/"
  else segments.foldl (fun path seg => path ++ "/" ++ segPiece seg) ""

/-- The message of a duplicate-route diagnostic for route `a`. -/
def dupMessage (a : Route) : String :=
  "duplicate route: " ++ methodName a.method ++ " " ++ formatPath a.path

/-- The message of a wildcard-position diagnostic for route `r`. -/
def wildcardMessage (r : Route) : String :=
  "wildcard must be the last path segment in " ++ methodName r.method ++ " " ++ formatPath r.path

/-- The duplicate-route double loop of `validate`: for each `i < j` with equal
method and equal path-segment list, one error diagnostic (worded from
`routes[i]`). -/
def dupDiagnostics : List Route → List Diagnostic
  | [] => []
  | a :: rest =>
      ((rest.filter fun b => a.method == b.method && a.path == b.path).map
        fun _b => Diagnostic.mk (dupMessage a) .error)
        ++ dupDiagnostics rest

/-- The wildcard-position loop of `validate`. -/
def wildcardDiagnostics (routes : List Route) : List Diagnostic :=
  routes.flatMap fun r =>
    ((r.path.enum.filter fun p => p.2 == PathSegment.wildcard && p.1 != r.path.length - 1).map
      fun _p => Diagnostic.mk (wildcardMessage r) .error)

/-- The empty-routes warning of `validate`. -/
def noRoutesDiagnostics (template : ServerTemplate) : List Diagnostic :=
  if template.routes.isEmpty then [⟨"no routes defined", .warning⟩] else []

/-- The zero-port check of `validate`. -/
def portDiagnostics (template : ServerTemplate) : List Diagnostic :=
  match template.port with
  | some port => if port = 0 then [⟨"port must not be 0", .error⟩] else []
  | none => []

/-- `validate` (validator.rs): empty-routes warning, zero-port error,
duplicate-route errors, wildcard-position errors, in that order. -/
def validate (template : ServerTemplate) : List Diagnostic :=
  noRoutesDiagnostics template ++ portDiagnostics template
    ++ dupDiagnostics template.routes ++ wildcardDiagnostics template.routes

lemma dup_mem_dupDiagnostics (l1 l2 l3 : List Route) (a b : Route)
    (hm : a.method = b.method) (hp : a.path = b.path) :
    Diagnostic.mk (dupMessage a) .error ∈ dupDiagnostics (l1 ++ a :: l2 ++ b :: l3) := by
  induction l1 with
  | nil =>
      simp only [List.nil_append, dupDiagnostics]
      apply List.mem_append_left
      apply List.mem_map.2
      refine ⟨b, List.mem_filter.2 ⟨by simp, ?_⟩, rfl⟩
      simp [hm, hp]
  | cons r l1 ih =>
      simp only [List.cons_append, dupDiagnostics]
      exact List.mem_append_right _ ih

lemma dupDiagnostics_eq_nil_of_pairwise (routes : List Route)
    (h : routes.Pairwise fun a b => ¬(a.method = b.method ∧ a.path = b.path)) :
    dupDiagnostics routes = [] := by
  induction routes with
  | nil => rfl
  | cons a rest ih =>
      rcases List.pairwise_cons.1 h with ⟨ha, hrest⟩
      have hfilter : rest.filter (fun b => a.method == b.method && a.path == b.path) = [] := by
        apply List.filter_eq_nil_iff.2
        intro b hb
        have := ha b hb
        simp only [Bool.and_eq_true, beq_iff_eq]
        intro hc
        exact this ⟨hc.1, hc.2⟩
      simp [dupDiagnostics, hfilter, ih hrest]

lemma message_ne_dup_of_mem_wildcard (tpl : ServerTemplate) (d : Diagnostic)
    (hd : d ∈ wildcardDiagnostics tpl.routes) (rest : String) :
    d.message ≠ "duplicate route: " ++ rest := by
  intro h
  rcases List.mem_flatMap.1 hd with ⟨r, _, hmem⟩
  rcases List.mem_map.1 hmem with ⟨p, _, hp⟩
  have hmsg : d.message = wildcardMessage r := by rw [← hp]
  rw [hmsg] at h
  have h2 := congrArg String.data h
  simp only [wildcardMessage, String.data_append] at h2
  simp at h2

/-- C7: for every server template, `validate` emits an error diagnostic
`duplicate route: <METHOD> <path>` for each pair of routes with the same HTTP
method and the same exact path-segment list; and when no two routes share both
method and segment list, the duplicate-route loop contributes nothing and no
emitted diagnostic has the duplicate-route message form (in particular, the
same path under different methods is accepted). -/
theorem validate_duplicate_route_pairs (tpl : ServerTemplate) :
    (∀ l1 a l2 b l3, tpl.routes = l1 ++ a :: l2 ++ b :: l3 →
      a.method = b.method → a.path = b.path →
      Diagnostic.mk ("duplicate route: " ++ methodName a.method ++ " " ++ formatPath a.path)
        .error ∈ validate tpl) ∧
    ((tpl.routes.Pairwise fun a b => ¬(a.method = b.method ∧ a.path = b.path)) →
      dupDiagnostics tpl.routes = [] ∧
      validate tpl = noRoutesDiagnostics tpl ++ portDiagnostics tpl
        ++ wildcardDiagnostics tpl.routes ∧
      ∀ d ∈ validate tpl, ∀ rest, d.message ≠ "duplicate route: " ++ rest) := by
  constructor
  · intro l1 a l2 b l3 hsplit hm hp
    have : Diagnostic.mk (dupMessage a) .error ∈ dupDiagnostics tpl.routes := by
      rw [hsplit]; exact dup_mem_dupDiagnostics l1 l2 l3 a b hm hp
    show Diagnostic.mk (dupMessage a) .error ∈ validate tpl
    unfold validate
    exact List.mem_append_left _ (List.mem_append_right _ this)
  · intro hpw
    have hnil := dupDiagnostics_eq_nil_of_pairwise tpl.routes hpw
    refine ⟨hnil, by simp [validate, hnil], ?_⟩
    intro d hd rest
    have hd' : d ∈ noRoutesDiagnostics tpl ++ portDiagnostics tpl
        ++ wildcardDiagnostics tpl.routes := by
      simpa [validate, hnil] using hd
    rcases List.mem_append.1 hd' with hd2 | hd2
    · rcases List.mem_append.1 hd2 with hd3 | hd3
      · have hmsg : d.message = "no routes defined" := by
          by_cases he : tpl.routes.isEmpty <;> simp [noRoutesDiagnostics, he] at hd3
          rw [hd3]
        rw [hmsg]
        intro h
        have h2 := congrArg String.data h
        simp only [String.data_append] at h2
        simp at h2
      · have hmsg : d.message = "port must not be 0" := by
          rcases hport : tpl.port with _ | p
          · simp [portDiagnostics, hport] at hd3
          · by_cases hz : p = 0 <;> simp [portDiagnostics, hport, hz] at hd3
            rw [hd3]
        rw [hmsg]
        intro h
        have h2 := congrArg String.data h
        simp only [String.data_append] at h2
        simp at h2
    · exact message_ne_dup_of_mem_wildcard tpl d hd2 rest

/-- C7 witness: a template with two `GET /users` routes gets the diagnostic the
spec scenario asks for, and a template with `GET /users` plus `POST /users`
gets no duplicate-route diagnostic. -/
theorem validate_duplicate_route_pairs_witness :
    (Diagnostic.mk ("duplicate route: " ++ methodName .get ++ " "
        ++ formatPath [PathSegment.literal "users"]) .error
      ∈ validate ⟨"api", some 3000, none, [],
          [⟨.get, [.literal "users"], 0⟩, ⟨.get, [.literal "users"], 1⟩]⟩) ∧
    (validate ⟨"api", some 3000, none, [],
        [⟨.get, [.literal "users"], 0⟩, ⟨.post, [.literal "users"], 1⟩]⟩
      = noRoutesDiagnostics ⟨"api", some 3000, none, [],
          [⟨.get, [.literal "users"], 0⟩, ⟨.post, [.literal "users"], 1⟩]⟩
        ++ portDiagnostics ⟨"api", some 3000, none, [],
          [⟨.get, [.literal "users"], 0⟩, ⟨.post, [.literal "users"], 1⟩]⟩
        ++ wildcardDiagnostics [⟨.get, [.literal "users"], 0⟩, ⟨.post, [.literal "users"], 1⟩]) ∧
    ("duplicate route: " ++ methodName .get ++ " " ++ formatPath [PathSegment.literal "users"]
      = "duplicate route: GET /users") := by
  refine ⟨?_, ?_, by decide⟩
  · exact (validate_duplicate_route_pairs
      ⟨"api", some 3000, none, [],
        [⟨.get, [.literal "users"], 0⟩, ⟨.get, [.literal "users"], 1⟩]⟩).1
      [] ⟨.get, [.literal "users"], 0⟩ [] ⟨.get, [.literal "users"], 1⟩ [] rfl rfl rfl
  · exact ((validate_duplicate_route_pairs
      ⟨"api", some 3000, none, [],
        [⟨.get, [.literal "users"], 0⟩, ⟨.post, [.literal "users"], 1⟩]⟩).2 (by decide)).2.1

end AgServer

/-! ## Type checker (crate ag-checker) -/

namespace AgChk
open Ag

/-- Checker-internal type representation (ag-checker `Type`). -/
inductive Ty where
  | str | num | int | bool | nil | any
  | array (t : Ty)
  | map (k v : Ty)
  | nullable (t : Ty)
  | union (a b : Ty)
  | function (params : List Ty) (ret : Ty)
  | structT (name : String) (fields : List (String × Ty))
  | enumT (name : String) (variants : List (String × List (String × Ty)))
  | promise (t : Ty)
  | variadicFunction (params : List Ty) (ret : Ty)
  | unknown

mutual

/-- A structural size on `Ty`, used only as an always-sufficient fuel budget
for the fueled equality and compatibility functions below. -/
def Ty.size : Ty → Nat
  | .str | .num | .int | .bool | .nil | .any | .unknown => 1
  | .array t => t.size + 1
  | .map k v => k.size + v.size + 1
  | .nullable t => t.size + 1
  | .union a b => a.size + b.size + 1
  | .function ps r => Ty.sizeList ps + r.size + 1
  | .structT _ fs => Ty.sizeFields fs + 1
  | .enumT _ vs => Ty.sizeVariants vs + 1
  | .promise t => t.size + 1
  | .variadicFunction ps r => Ty.sizeList ps + r.size + 1

def Ty.sizeList : List Ty → Nat
  | [] => 1
  | t :: ts => t.size + Ty.sizeList ts + 1

def Ty.sizeFields : List (String × Ty) → Nat
  | [] => 1
  | (_, t) :: fs => t.size + Ty.sizeFields fs + 1

def Ty.sizeVariants : List (String × List (String × Ty)) → Nat
  | [] => 1
  | (_, fs) :: vs => Ty.sizeFields fs + Ty.sizeVariants vs + 1

end

mutual

/-- Structural equality on `Ty` (the Rust derived `PartialEq`).  The fuel
argument is an explicit termination budget: `Ty.beq` below always supplies
`sizeOf a`, which bounds the recursion depth, so the `0` arms are never
reached and the `fuel+1` arms are an exact transcription of the derived
structural equality. -/
def Ty.beqF : Nat → Ty → Ty → Bool
  | 0, _, _ => false
  | fuel+1, a, b =>
    match a, b with
    | .str, .str => true
    | .num, .num => true
    | .int, .int => true
    | .bool, .bool => true
    | .nil, .nil => true
    | .any, .any => true
    | .array a1, .array b1 => Ty.beqF fuel a1 b1
    | .map ak av, .map bk bv => Ty.beqF fuel ak bk && Ty.beqF fuel av bv
    | .nullable a1, .nullable b1 => Ty.beqF fuel a1 b1
    | .union a1 a2, .union b1 b2 => Ty.beqF fuel a1 b1 && Ty.beqF fuel a2 b2
    | .function aps ar, .function bps br => Ty.beqListF fuel aps bps && Ty.beqF fuel ar br
    | .structT an afs, .structT bn bfs => an == bn && Ty.beqFieldsF fuel afs bfs
    | .enumT an avs, .enumT bn bvs => an == bn && Ty.beqVariantsF fuel avs bvs
    | .promise a1, .promise b1 => Ty.beqF fuel a1 b1
    | .variadicFunction aps ar, .variadicFunction bps br =>
        Ty.beqListF fuel aps bps && Ty.beqF fuel ar br
    | .unknown, .unknown => true
    | _, _ => false

def Ty.beqListF : Nat → List Ty → List Ty → Bool
  | 0, _, _ => false
  | _, [], [] => true
  | fuel+1, a :: as_, b :: bs => Ty.beqF fuel a b && Ty.beqListF fuel as_ bs
  | _, _, _ => false

def Ty.beqFieldsF : Nat → List (String × Ty) → List (String × Ty) → Bool
  | 0, _, _ => false
  | _, [], [] => true
  | fuel+1, (an, a) :: as_, (bn, b) :: bs =>
      an == bn && Ty.beqF fuel a b && Ty.beqFieldsF fuel as_ bs
  | _, _, _ => false

def Ty.beqVariantsF :
    Nat → List (String × List (String × Ty)) → List (String × List (String × Ty)) → Bool
  | 0, _, _ => false
  | _, [], [] => true
  | fuel+1, (an, a) :: as_, (bn, b) :: bs =>
      an == bn && Ty.beqFieldsF fuel a b && Ty.beqVariantsF fuel as_ bs
  | _, _, _ => false

end

/-- The Rust `==` on `Type` values. -/
def Ty.beq (a b : Ty) : Bool := Ty.beqF a.size a b

mutual

/-- `Display for Type` (used verbatim inside diagnostic messages). -/
def Ty.toStr : Ty → String
  | .str => "str"
  | .num => "num"
  | .int => "int"
  | .bool => "bool"
  | .nil => "nil"
  | .any => "any"
  | .array t => "[" ++ t.toStr ++ "]"
  | .map k v => "\x7b" ++ k.toStr ++ ": " ++ v.toStr ++ "\x7d"
  | .nullable t => t.toStr ++ "?"
  | .union a b => a.toStr ++ " | " ++ b.toStr
  | .function ps ret =>
      "(" ++ String.intercalate ", " (Ty.toStrList ps) ++ ") -> " ++ ret.toStr
  | .structT name _ => name
  | .enumT name _ => name
  | .promise t => "Promise<" ++ t.toStr ++ ">"
  | .variadicFunction ps ret =>
      "(" ++ String.intercalate ", " (Ty.toStrList ps) ++ ", ...) -> " ++ ret.toStr
  | .unknown => "unknown"

def Ty.toStrList : List Ty → List String
  | [] => []
  | t :: ts => t.toStr :: Ty.toStrList ts

end

/-- Symbol-table entry (ag-checker `Symbol`). -/
structure Symbol where
  ty : Ty
  mutableFlag : Bool

/-- Lexical scope (ag-checker `Scope`); the `HashMap` of symbols is an
association list, the boxed parent an `Option`. -/
inductive Scope where
  | mk (symbols : List (String × Symbol)) (parent : Option Scope)

def Scope.symbols : Scope → List (String × Symbol) | .mk s _ => s
def Scope.parent : Scope → Option Scope | .mk _ p => p

/-- `Scope::new`. -/
def Scope.new : Scope := .mk [] none

/-- `Scope::child`. -/
def Scope.child (parent : Scope) : Scope := .mk [] (some parent)

/-- `HashMap::contains_key` on the symbol map. -/
def Scope.containsKey (s : Scope) (name : String) : Bool :=
  s.symbols.any fun p => p.1 == name

/-- `Scope::define`: returns the updated scope and the Rust `bool`
(`false` on duplicate, in which case the map is left unchanged). -/
def Scope.define (s : Scope) (name : String) (sym : Symbol) : Scope × Bool :=
  if s.containsKey name then (s, false)
  else (.mk ((name, sym) :: s.symbols) s.parent, true)

mutual

/-- `Scope::lookup`: own symbols first, then the parent chain (the walk up
the `Option` parent is split into `lookupOpt` so that the equation lemmas
generate cleanly). -/
def Scope.lookup : Scope → String → Option Symbol
  | .mk syms parent, name =>
    match syms.lookup name with
    | some sym => some sym
    | none => Scope.lookupOpt parent name

def Scope.lookupOpt : Option Scope → String → Option Symbol
  | some p, name => p.lookup name
  | none, _ => none

end

/-- The Rust `*child.parent.unwrap()` used when popping a scope; the `unwrap`
is only ever reached on scopes built by `Scope::child`, which always have a
parent, so the `Scope.new` default is dead. -/
def Scope.parentOrNew : Scope → Scope
  | .mk _ (some p) => p
  | .mk _ none => Scope.new

/-- Checker state (ag-checker `Checker`); `type_aliases` is an association
list whose `insert` prepends (lookup sees the latest binding, matching
`HashMap::insert` overwrite semantics). -/
structure Checker where
  scope : Scope
  diagnostics : List Ag.Diagnostic
  typeAliases : List (String × Ty)
  inAsync : Bool

/-- `Checker::new`. -/
def Checker.new : Checker := ⟨Scope.new, [], [], false⟩

/-- `Checker::error`: push a diagnostic. -/
def Checker.error (st : Checker) (msg : String) (span : Span) : Checker :=
  { st with diagnostics := st.diagnostics ++ [⟨msg, span⟩] }

mutual

/-- `Checker::type_compatible` (pure: it reads no checker state).  The fuel
is an explicit termination budget: the `typeCompatible` wrapper below supplies
`sizeOf expected + sizeOf actual`, which bounds the recursion depth, so the
`0` arms are never reached and the `fuel+1` arms transcribe the Rust match
arms in order. -/
def typeCompatibleF : Nat → Ty → Ty → Bool
  | 0, _, _ => false
  | fuel+1, expected, actual =>
    if Ty.beq expected actual then true
    else
      match expected, actual with
      | .any, _ => true
      | _, .any => true
      | .unknown, _ => true
      | _, .unknown => true
      | .num, .int => true
      | .nullable inner, act =>
          typeCompatibleF fuel inner act || (match act with | .nil => true | _ => false)
      | .union a b, act => typeCompatibleF fuel a act || typeCompatibleF fuel b act
      | exp, .union a b => typeCompatibleF fuel exp a && typeCompatibleF fuel exp b
      | .array e, .array a => typeCompatibleF fuel e a
      | .map ek ev, .map ak av => typeCompatibleF fuel ek ak && typeCompatibleF fuel ev av
      | .function ep er, .function ap ar =>
          ep.length == ap.length && typeCompatibleListF fuel ep ap && typeCompatibleF fuel er ar
      | .promise e, .promise a => typeCompatibleF fuel e a
      | .structT _ expectedFields, .structT _ actualFields =>
          structFieldsCompatF fuel expectedFields actualFields
      | _, _ => false

/-- The zipped parameter comparison of the function-type case. -/
def typeCompatibleListF : Nat → List Ty → List Ty → Bool
  | 0, _, _ => false
  | fuel+1, e :: es, a :: as_ => typeCompatibleF fuel e a && typeCompatibleListF fuel es as_
  | _, _, _ => true

/-- Structural struct subtyping: every expected field exists in the actual
struct with a compatible type. -/
def structFieldsCompatF : Nat → List (String × Ty) → List (String × Ty) → Bool
  | 0, _, _ => false
  | _, [], _ => true
  | fuel+1, (n, t) :: rest, actualFields =>
      structFieldAnyCompatF fuel n t actualFields && structFieldsCompatF fuel rest actualFields

/-- `actual_fields.iter().any(|(n2, t2)| n2 == name && compatible)`. -/
def structFieldAnyCompatF : Nat → String → Ty → List (String × Ty) → Bool
  | 0, _, _, _ => false
  | _, _, _, [] => false
  | fuel+1, name, ty, (n2, t2) :: rest =>
      (n2 == name && typeCompatibleF fuel ty t2) || structFieldAnyCompatF fuel name ty rest

end

/-- `Checker::type_compatible`, with the always-sufficient fuel budget. -/
def typeCompatible (expected actual : Ty) : Bool :=
  typeCompatibleF (expected.size + actual.size) expected actual

mutual

/-- `Checker::resolve_type` (reads `type_aliases` and the scope, mutates
nothing). -/
def resolveType (st : Checker) : TypeExpr → Ty
  | .named name _ =>
    match name with
    | "str" => .str
    | "num" => .num
    | "int" => .int
    | "bool" => .bool
    | "nil" => .nil
    | "any" => .any
    | _ =>
      match st.typeAliases.lookup name with
      | some alias_ => alias_
      | none =>
        match st.scope.lookup name with
        | some sym => sym.ty
        | none => .unknown
  | .array inner _ => .array (resolveType st inner)
  | .map k v _ => .map (resolveType st k) (resolveType st v)
  | .nullable inner _ => .nullable (resolveType st inner)
  | .union a b _ => .union (resolveType st a) (resolveType st b)
  | .function params ret _ => .function (resolveTypeList st params) (resolveType st ret)
  | .object fields _ => .structT "anonymous" (resolveTypeFields st fields)
  | .promise inner _ => .promise (resolveType st inner)

def resolveTypeList (st : Checker) : List TypeExpr → List Ty
  | [] => []
  | t :: ts => resolveType st t :: resolveTypeList st ts

def resolveTypeFields (st : Checker) : List (String × TypeExpr) → List (String × Ty)
  | [] => []
  | (n, t) :: fs => (n, resolveType st t) :: resolveTypeFields st fs

end

/-- Optional type annotation resolved, defaulting to `any`
(the `p.ty.map(resolve).unwrap_or(Type::Any)` idiom). -/
def resolveOptTy (st : Checker) (oty : Option TypeExpr) : Ty :=
  match oty with
  | some t => resolveType st t
  | none => .any

/-- Parameter types of a function declaration as registered
(`register_fn_decl` first map). -/
def fnParamTypes (st : Checker) (params : List Param) : List Ty :=
  params.map fun p => resolveOptTy st p.ty

/-- `Checker::register_fn_decl`: binds the function name to its type; an
async function's return type is wrapped in `Promise`.  The `bool` result of
`Scope::define` is ignored. -/
def registerFnDecl (st : Checker) (f : FnDecl) : Checker :=
  let paramTypes := fnParamTypes st f.params
  let retType0 :=
    match f.returnType with
    | some t => resolveType st t
    | none => .nil
  let retType := if f.isAsync then .promise retType0 else retType0
  let (scope', _) := st.scope.define f.name ⟨.function paramTypes retType, false⟩
  { st with scope := scope' }

/-- `Checker::register_struct_decl` (define result ignored). -/
def registerStructDecl (st : Checker) (s : StructDecl) : Checker :=
  let fields := s.fields.map fun f => (f.name, resolveType st f.ty)
  let (scope', _) := st.scope.define s.name ⟨.structT s.name fields, false⟩
  { st with scope := scope' }

/-- `Checker::register_enum_decl` (define result ignored). -/
def registerEnumDecl (st : Checker) (e : EnumDecl) : Checker :=
  let variants := e.variants.map fun v =>
    (v.name, v.fields.map fun f => (f.name, resolveType st f.ty))
  let (scope', _) := st.scope.define e.name ⟨.enumT e.name variants, false⟩
  { st with scope := scope' }

/-- `Checker::register_type_alias` (`HashMap::insert`, silently overwrites). -/
def registerTypeAlias (st : Checker) (t : TypeAlias) : Checker :=
  { st with typeAliases := (t.name, resolveType st t.ty) :: st.typeAliases }

/-- `Checker::register_extern_fn_decl`: duplicate definition produces a
diagnostic. -/
def registerExternFnDecl (st : Checker) (ef : ExternFnDecl) : Checker :=
  let paramTypes := ef.params.map fun p => resolveOptTy st p.ty
  let retType :=
    match ef.returnType with
    | some t => resolveType st t
    | none => .nil
  let ty := if ef.variadic then Ty.variadicFunction paramTypes retType
            else Ty.function paramTypes retType
  let (scope', ok) := st.scope.define ef.name ⟨ty, false⟩
  let st' := { st with scope := scope' }
  if ok then st'
  else st'.error ("duplicate declaration `" ++ ef.name ++ "`") ef.span

/-- `Checker::register_extern_struct_decl`: fields plus methods-as-function
fields; duplicate definition produces a diagnostic. -/
def registerExternStructDecl (st : Checker) (es : ExternStructDecl) : Checker :=
  let fields := es.fields.map fun f => (f.name, resolveType st f.ty)
  let methodFields := es.methods.map fun m =>
    (m.name, Ty.function (m.params.map fun p => resolveOptTy st p.ty)
      (match m.returnType with | some t => resolveType st t | none => .nil))
  let allFields := fields ++ methodFields
  let (scope', ok) := st.scope.define es.name ⟨.structT es.name allFields, false⟩
  let st' := { st with scope := scope' }
  if ok then st'
  else st'.error ("duplicate declaration `" ++ es.name ++ "`") es.span

/-- `Checker::register_extern_type_decl`: opaque type as empty struct;
duplicate definition produces a diagnostic. -/
def registerExternTypeDecl (st : Checker) (et : ExternTypeDecl) : Checker :=
  let (scope', ok) := st.scope.define et.name ⟨.structT et.name [], false⟩
  let st' := { st with scope := scope' }
  if ok then st'
  else st'.error ("duplicate declaration `" ++ et.name ++ "`") et.span

/-- `Checker::bind_pattern` for enum variants: zip bindings with fields. -/
def bindEnumFields (st : Checker) : List String → List (String × Ty) → Checker
  | b :: bs, (_, ty) :: fs =>
      let (scope', _) := st.scope.define b ⟨ty, false⟩
      bindEnumFields { st with scope := scope' } bs fs
  | _, _ => st

/-- `Checker::bind_pattern` for struct patterns: define each named field whose
type is found. -/
def bindStructFields (st : Checker) (fields : List (String × Ty)) :
    List String → Checker
  | [] => st
  | fieldName :: rest =>
      let st' :=
        match fields.find? (fun p => p.1 == fieldName) with
        | some (_, ty) =>
            let (scope', _) := st.scope.define fieldName ⟨ty, false⟩
            { st with scope := scope' }
        | none => st
      bindStructFields st' fields rest

/-- `Checker::bind_pattern`. -/
def bindPattern (st : Checker) (pattern : Pattern) (subjectTy : Ty) : Checker :=
  match pattern with
  | .ident name _ =>
      let (scope', _) := st.scope.define name ⟨subjectTy, false⟩
      { st with scope := scope' }
  | .enumP ep =>
      (match subjectTy with
       | .enumT _ variants =>
           (match variants.find? (fun p => p.1 == ep.variant) with
            | some (_, fields) => bindEnumFields st ep.bindings fields
            | none => st)
       | _ => st)
  | .structP sp =>
      (match subjectTy with
       | .structT _ fields => bindStructFields st fields sp.fields
       | _ => st)
  | _ => st

/-- The parameter loop of `Checker::check_fn_decl`: missing-annotation
diagnostics plus definitions into the (child) scope. -/
def checkFnParams (st : Checker) : List Param → Checker
  | [] => st
  | p :: rest =>
      let st1 :=
        if p.ty.isNone && p.dflt.isNone then
          st.error ("parameter `" ++ p.name ++ "` requires a type annotation") p.span
        else st
      let ty := resolveOptTy st1 p.ty
      let (scope', _) := st1.scope.define p.name ⟨ty, false⟩
      checkFnParams { st1 with scope := scope' } rest

/-- The parameter fold of the `Expr::Arrow` arm of `check_expr`: resolve each
parameter type (defaulting to `any`), define it, and collect the types. -/
def arrowParamsFold (st : Checker) : List Param → Checker × List Ty
  | [] => (st, [])
  | p :: rest =>
      let ty := resolveOptTy st p.ty
      let (scope', _) := st.scope.define p.name ⟨ty, false⟩
      let (st', tys) := arrowParamsFold { st with scope := scope' } rest
      (st', ty :: tys)

lemma list_sizeOf_pos {α : Type _} [SizeOf α] (l : List α) : 0 < sizeOf l := by
  cases l <;> simp_arith

/-- The arithmetic/comparison result typing of the `Expr::Binary` arm of
`check_expr`, extracted as a pure helper. -/
def binaryResultTy (op : BinaryOp) (leftTy rightTy : Ty) : Ty :=
  match op with
  | .add | .sub | .mul | .div | .mod | .pow =>
    (match leftTy, rightTy with
     | .int, .int => .int
     | .num, .num | .num, .int | .int, .num => .num
     | .str, .str => if op = .add then .str else .any
     | _, _ => .any)
  | .eq | .ne | .lt | .gt | .le | .ge => .bool
  | .and | .or => .bool


mutual

/-- `Checker::check_expr`.  Every function of this mutual block consumes one
unit of fuel on entry and hands the rest to its callees, so the recursion is
structural on the fuel and computations reduce in the kernel.  At fuel 0 the
`Checker × Ty` functions return `(st, unknown)` and the `Checker` functions
return `st` unchanged — outcomes no Rust execution produces; every theorem
and concrete evaluation below supplies enough fuel to avoid them. -/
def checkExpr : Nat → Checker → Expr → Checker × Ty
  | 0, st, _ => (st, .unknown)
  | fuel+1, st, e =>
    match e with
    | .literal l =>
      (st, match l with
        | .int _ _ => .int
        | .float _ _ => .num
        | .str _ _ => .str
        | .bool _ _ => .bool
        | .nil _ => .nil)
    | .ident i =>
      (match st.scope.lookup i.name with
       | some sym => (st, sym.ty)
       | none => (st.error ("undefined variable `" ++ i.name ++ "`") i.span, .unknown))
    | .binary op left right _ =>
      let (st1, leftTy) := checkExpr fuel st left
      let (st2, rightTy) := checkExpr fuel st1 right
      (st2, binaryResultTy op leftTy rightTy)
    | .unary op operand _ =>
      let (st1, inner) := checkExpr fuel st operand
      (st1, match op with | .not => .bool | .neg => inner)
    | .call callee args span => checkCall fuel st callee args span
    | .member object field span => checkMemberAccess fuel st object field span
    | .index object idx _ =>
      let (st1, obj) := checkExpr fuel st object
      let (st2, _) := checkExpr fuel st1 idx
      (st2, match obj with | .array inner => inner | .map _ v => v | _ => .any)
    | .ifE condition thenBlock elseBranch _ =>
      let (st1, _) := checkExpr fuel st condition
      let (st2, thenTy) := checkBlock fuel st1 thenBlock
      (match elseBranch with
       | some eb =>
         let (st3, elseTy) :=
           match eb with
           | .block b => checkBlock fuel st2 b
           | .ifE c2 t2 e2 s2 => checkExpr fuel st2 (.ifE c2 t2 e2 s2)
         if typeCompatible thenTy elseTy then (st3, thenTy) else (st3, .union thenTy elseTy)
       | none => (st2, thenTy))
    | .matchE subject arms span => checkMatch fuel st subject arms span
    | .block b => checkBlock fuel st b
    | .array [] _ => (st, .array .any)
    | .array (first :: rest) _ =>
      let (st1, firstTy) := checkExpr fuel st first
      let st2 := checkExprSeq fuel st1 rest
      (st2, .array firstTy)
    | .object fields _ =>
      let (st1, tys) := checkObjectFields fuel st fields
      (st1, .structT "anonymous" tys)
    | .arrow params body _ _ =>
      let st1 := { st with scope := Scope.child st.scope }
      let (st2, paramTys) := arrowParamsFold st1 params
      let (st3, ret) :=
        match body with
        | .expr e => checkExpr fuel st2 e
        | .block b => checkBlock fuel st2 b
      let st4 := { st3 with scope := st3.scope.parentOrNew }
      (st4, .function paramTys ret)
    | .pipe left right _ =>
      let (st1, _) := checkExpr fuel st left
      let (st2, _) := checkExpr fuel st1 right
      (st2, .any)
    | .optionalChain object _ _ =>
      let (st1, _) := checkExpr fuel st object
      (st1, .any)
    | .nullishCoalesce left right _ =>
      let (st1, _) := checkExpr fuel st left
      let (st2, rightTy) := checkExpr fuel st1 right
      (st2, rightTy)
    | .awaitE inner span =>
      let st1 := if !st.inAsync then
          st.error "await can only be used inside async functions" span
        else st
      let (st2, innerTy) := checkExpr fuel st1 inner
      (match innerTy with
       | .promise p => (st2, p)
       | .any => (st2, innerTy)
       | .unknown => (st2, innerTy)
       | _ => (st2.error ("await requires a Promise, found `" ++ innerTy.toStr ++ "`") span,
               .unknown))
    | .errorPropagate inner _ => checkExpr fuel st inner
    | .assign target value _ span =>
      let (st1, valueTy) := checkExpr fuel st value
      let st2 :=
        match target with
        | .ident i =>
          (match st1.scope.lookup i.name with
           | some sym =>
             if !sym.mutableFlag then
               st1.error ("cannot assign to immutable binding `" ++ i.name ++ "`") span
             else st1
           | none => st1)
        | _ => st1
      (st2, valueTy)
    | .templateString _ _ => (st, .str)
    | .placeholder _ => (st, .any)

/-- `Checker::check_call` (the `CallExpr` fields are passed directly). -/
def checkCall : Nat → Checker → Expr → List Expr → Span → Checker × Ty
  | 0, st, _, _, _ => (st, .unknown)
  | fuel+1, st, callee, args, span =>
    let (st1, calleeTy) := checkExpr fuel st callee
    let st2 := checkExprSeq fuel st1 args
    match calleeTy with
    | .function paramTypes ret =>
      let st3 :=
        if args.length > paramTypes.length then
          st2.error ("expected " ++ toString paramTypes.length ++ " arguments, found "
            ++ toString args.length) span
        else st2
      let st4 := checkArgsAgainst fuel st3 args paramTypes 0 span
      (st4, ret)
    | .variadicFunction paramTypes ret =>
      let fixed := paramTypes.dropLast
      let variadicTy := paramTypes.getLast?.getD Ty.any
      let st3 :=
        if args.length < fixed.length then
          st2.error ("expected at least " ++ toString fixed.length ++ " arguments, found "
            ++ toString args.length) span
        else st2
      let st4 := checkArgsVariadic fuel st3 args fixed variadicTy 0 span
      (st4, ret)
    | _ => (st2, .any)

/-- An expression sequence checked for effect only: the first loop of
`check_call` over the arguments, and the `arr.elements[1..]` loop of the
array-literal arm. -/
def checkExprSeq : Nat → Checker → List Expr → Checker
  | 0, st, _ => st
  | _, st, [] => st
  | fuel+1, st, e :: rest =>
    let (st1, _) := checkExpr fuel st e
    checkExprSeq fuel st1 rest

/-- The `zip(param_types).enumerate()` loop of the `Function` arm of
`check_call`. -/
def checkArgsAgainst : Nat → Checker → List Expr → List Ty → Nat → Span → Checker
  | 0, st, _, _, _, _ => st
  | _, st, [], _, _, _ => st
  | _, st, _ :: _, [], _, _ => st
  | fuel+1, st, arg :: args, p :: ps, i, span =>
    let (st1, argTy) := checkExpr fuel st arg
    let st2 :=
      if !typeCompatible p argTy then
        st1.error ("argument " ++ toString (i+1) ++ ": expected `" ++ p.toStr
          ++ "`, found `" ++ argTy.toStr ++ "`") span
      else st1
    checkArgsAgainst fuel st2 args ps (i+1) span

/-- The enumerated argument loop of the `VariadicFunction` arm of
`check_call`. -/
def checkArgsVariadic : Nat → Checker → List Expr → List Ty → Ty → Nat → Span → Checker
  | 0, st, _, _, _, _, _ => st
  | _, st, [], _, _, _, _ => st
  | fuel+1, st, arg :: args, fixed, variadicTy, i, span =>
    let (st1, argTy) := checkExpr fuel st arg
    let expectedTy := if i < fixed.length then fixed.getD i variadicTy else variadicTy
    let st2 :=
      if !typeCompatible expectedTy argTy then
        st1.error ("argument " ++ toString (i+1) ++ ": expected `" ++ expectedTy.toStr
          ++ "`, found `" ++ argTy.toStr ++ "`") span
      else st1
    checkArgsVariadic fuel st2 args fixed variadicTy (i+1) span

/-- `Checker::check_member_access`. -/
def checkMemberAccess : Nat → Checker → Expr → String → Span → Checker × Ty
  | 0, st, _, _, _ => (st, .unknown)
  | fuel+1, st, object, field, span =>
    let (st1, objTy) := checkExpr fuel st object
    match objTy with
    | .structT name fields =>
      (match fields.find? (fun p => p.1 == field) with
       | some (_, ty) => (st1, ty)
       | none =>
         (st1.error ("field `" ++ field ++ "` does not exist on type `" ++ name ++ "`") span,
          .unknown))
    | _ => (st1, .any)

/-- `Checker::check_match`. -/
def checkMatch : Nat → Checker → Expr → List MatchArm → Span → Checker × Ty
  | 0, st, _, _, _ => (st, .unknown)
  | fuel+1, st, subject, arms, _ =>
    let (st1, subjectTy) := checkExpr fuel st subject
    let (st2, resultTy) := checkMatchArms fuel st1 arms subjectTy none
    (st2, resultTy.getD .nil)

/-- The arm loop of `check_match`. -/
def checkMatchArms : Nat → Checker → List MatchArm → Ty → Option Ty → Checker × Option Ty
  | 0, st, _, _, res => (st, res)
  | _, st, [], _, res => (st, res)
  | fuel+1, st, .mk pattern guard body _ :: rest, subjectTy, res =>
    let st1 := { st with scope := Scope.child st.scope }
    let st2 := bindPattern st1 pattern subjectTy
    let st3 :=
      match guard with
      | some g => (checkExpr fuel st2 g).1
      | none => st2
    let (st4, armTy) := checkExpr fuel st3 body
    let st5 := { st4 with scope := st4.scope.parentOrNew }
    let res' :=
      match res with
      | some existing =>
        if typeCompatible existing armTy then res else some (.union existing armTy)
      | none => some armTy
    checkMatchArms fuel st5 rest subjectTy res'

/-- The field fold of the `Expr::Object` arm of `check_expr`. -/
def checkObjectFields : Nat → Checker → List ObjectField → Checker × List (String × Ty)
  | 0, st, _ => (st, [])
  | _, st, [] => (st, [])
  | fuel+1, st, .mk key value _ :: rest =>
    let (st1, ty) := checkExpr fuel st value
    let (st2, tys) := checkObjectFields fuel st1 rest
    (st2, (key, ty) :: tys)

/-- `Checker::check_block`: child scope, statements, tail expression (or
`nil`), scope restored. -/
def checkBlock : Nat → Checker → Block → Checker × Ty
  | 0, st, _ => (st, .unknown)
  | fuel+1, st, .mk stmts tailExpr _ =>
    let st1 := { st with scope := Scope.child st.scope }
    let st2 := checkStmts fuel st1 stmts
    let (st3, ty) :=
      match tailExpr with
      | some tail => checkExpr fuel st2 tail
      | none => (st2, Ty.nil)
    let st4 := { st3 with scope := st3.scope.parentOrNew }
    (st4, ty)

/-- The statement loop of `check_block`. -/
def checkStmts : Nat → Checker → List Stmt → Checker
  | 0, st, _ => st
  | _, st, [] => st
  | fuel+1, st, s :: rest =>
    let st1 := checkStmt fuel st s
    checkStmts fuel st1 rest

/-- `Checker::check_stmt`; the `Stmt::If` arm re-enters `check_expr` on the
reassembled `if` expression, as the Rust code does via `Expr::If(clone)`. -/
def checkStmt : Nat → Checker → Stmt → Checker
  | 0, st, _ => st
  | fuel+1, st, s =>
    match s with
    | .varDecl v => checkVarDecl fuel st v
    | .exprStmt e _ => (checkExpr fuel st e).1
    | .ret value _ =>
      (match value with
       | some v => (checkExpr fuel st v).1
       | none => st)
    | .ifS condition thenBlock elseBranch span =>
      (checkExpr fuel st (.ifE condition thenBlock elseBranch span)).1
    | .forS binding iter body _ =>
      let (st1, iterTy) := checkExpr fuel st iter
      let elemTy := match iterTy with | .array inner => inner | _ => Ty.any
      let st2 := { st1 with scope := Scope.child st1.scope }
      let (scope', _) := st2.scope.define binding ⟨elemTy, false⟩
      let st3 := { st2 with scope := scope' }
      let (st4, _) := checkBlock fuel st3 body
      { st4 with scope := st4.scope.parentOrNew }
    | .whileS condition body _ =>
      let (st1, _) := checkExpr fuel st condition
      (checkBlock fuel st1 body).1
    | .matchS subject arms span => (checkMatch fuel st subject arms span).1
    | .tryCatch tryBlock catchBinding catchBlock _ =>
      let (st1, _) := checkBlock fuel st tryBlock
      let st2 := { st1 with scope := Scope.child st1.scope }
      let (scope', _) := st2.scope.define catchBinding ⟨Ty.any, false⟩
      let st3 := { st2 with scope := scope' }
      let (st4, _) := checkBlock fuel st3 catchBlock
      { st4 with scope := st4.scope.parentOrNew }

/-- `Checker::check_var_decl`. -/
def checkVarDecl : Nat → Checker → VarDecl → Checker
  | 0, st, _ => st
  | fuel+1, st, .mk kind name ty init span =>
    let (st1, initType) := checkExpr fuel st init
    let st2 :=
      match ty with
      | some tyExpr =>
        let declared := resolveType st1 tyExpr
        if !typeCompatible declared initType then
          st1.error ("type mismatch: expected `" ++ declared.toStr ++ "`, found `"
            ++ initType.toStr ++ "`") span
        else st1
      | none => st1
    let tyR :=
      match ty with
      | some t => resolveType st2 t
      | none => initType
    let mutableFlag := kind = VarKind.mutK
    let (scope', ok) := st2.scope.define name ⟨tyR, mutableFlag⟩
    let st3 := { st2 with scope := scope' }
    if !ok then st3.error ("duplicate binding `" ++ name ++ "`") span else st3

end

/-- `Checker::check_fn_decl`: child scope, parameters, body checked against
the *declared* (unwrapped) return type, scope and async flag restored. -/
def checkFnDecl (fuel : Nat) (st : Checker) (f : FnDecl) : Checker :=
  let st1 := { st with scope := Scope.child st.scope, inAsync := f.isAsync }
  let st2 := checkFnParams st1 f.params
  let declaredRet := f.returnType.map (resolveType st2)
  let (st3, bodyType) := checkBlock fuel st2 f.body
  let st4 :=
    match declaredRet with
    | some expected =>
      if !typeCompatible expected bodyType then
        st3.error ("return type mismatch: expected `" ++ expected.toStr ++ "`, found `"
          ++ bodyType.toStr ++ "`") f.span
      else st3
    | none => st3
  { st4 with inAsync := st.inAsync, scope := st4.scope.parentOrNew }

/-- `Checker::check_dsl_block`: check the capture expressions of inline
content. -/
def checkDslParts (fuel : Nat) (st : Checker) : List DslPart → Checker
  | [] => st
  | .capture e _ :: rest => checkDslParts fuel (checkExpr fuel st e).1 rest
  | .text _ _ :: rest => checkDslParts fuel st rest

def checkDslBlock (fuel : Nat) (st : Checker) (d : DslBlock) : Checker :=
  match d.content with
  | .inline parts => checkDslParts fuel st parts
  | .fileRef _ _ => st

/-- The registration pass of `check_module` for one item. -/
def registerItem (st : Checker) : Item → Checker
  | .fnDecl f => registerFnDecl st f
  | .structDecl s => registerStructDecl st s
  | .enumDecl e => registerEnumDecl st e
  | .typeAlias t => registerTypeAlias st t
  | .externFnDecl ef => registerExternFnDecl st ef
  | .externStructDecl es => registerExternStructDecl st es
  | .externTypeDecl et => registerExternTypeDecl st et
  | _ => st

/-- The body pass of `check_module` for one item. -/
def checkItemBody (fuel : Nat) (st : Checker) : Item → Checker
  | .fnDecl f => checkFnDecl fuel st f
  | .varDecl v => checkVarDecl fuel st v
  | .exprStmt e => (checkExpr fuel st e.expr).1
  | .dslBlock d => checkDslBlock fuel st d
  | _ => st

/-- `Checker::check_module`: registration pass then body pass. -/
def checkModule (fuel : Nat) (st : Checker) (m : Module) : Checker :=
  let st1 := m.items.foldl registerItem st
  m.items.foldl (checkItemBody fuel) st1

/-- `ag_checker::check`: run a fresh checker on a module and return its
diagnostics.  The fuel bounds the `check_expr` recursion depth; any value
larger than the nesting depth of `m` is exact. -/
def check (fuel : Nat) (m : Module) : List Ag.Diagnostic :=
  (checkModule fuel Checker.new m).diagnostics

/-- C8: an assignment whose target is an identifier that is not bound in any
enclosing scope produces no diagnostic at all for the assignment — the
checker's `Assign` arm only consults the scope for a mutability check and
silently skips an unbound target — and the assignment's type is the type of
the assigned value; whereas evaluating the same unbound identifier as a plain
expression reports `undefined variable`. -/
theorem assign_unbound_ident_silent (fuel : Nat) (st : Checker) (name : String)
    (isp vsp : Span) (value : Expr) (op : AssignOp)
    (h1 : (checkExpr fuel st value).1.scope.lookup name = none)
    (h2 : st.scope.lookup name = none) :
    checkExpr (fuel+1) st (.assign (.ident ⟨name, isp⟩) value op vsp)
      = checkExpr fuel st value ∧
    checkExpr (fuel+1) st (.ident ⟨name, isp⟩)
      = (st.error ("undefined variable `" ++ name ++ "`") isp, .unknown) := by
  constructor
  · rcases hp : checkExpr fuel st value with ⟨st1, vt⟩
    rw [hp] at h1
    simp only at h1
    simp [checkExpr, hp, h1]
  · simp [checkExpr, h2]

/-- C8 witness: in an empty checker state, `x = 1` (with `x` unbound) checks
silently to type `int`, while the bare expression `x` reports an undefined
variable. -/
theorem assign_unbound_ident_silent_witness :
    checkExpr 2 Checker.new
        (.assign (.ident ⟨"x", ⟨0,1⟩⟩) (.literal (.int 1 ⟨4,5⟩)) .assign ⟨2,3⟩)
      = checkExpr 1 Checker.new (.literal (.int 1 ⟨4,5⟩)) ∧
    checkExpr 2 Checker.new (.ident ⟨"x", ⟨0,1⟩⟩)
      = (Checker.new.error ("undefined variable `" ++ "x" ++ "`") ⟨0,1⟩, .unknown) :=
  assign_unbound_ident_silent 1 Checker.new "x" ⟨0,1⟩ ⟨2,3⟩
    (.literal (.int 1 ⟨4,5⟩)) .assign rfl rfl

/-- C3 counterexample input: a module declaring `fn f` twice at top level. -/
def dupFnDecl : FnDecl :=
  { name := "f", params := [], returnType := none,
    body := ⟨[], none, ⟨0,0⟩⟩, isPub := false, isAsync := false, span := ⟨0,0⟩ }

def dupFnModule : Module := ⟨[.fnDecl dupFnDecl, .fnDecl dupFnDecl]⟩

/-- C3 counterexample: two top-level declarations of the same name in the same
scope — two `fn f` declarations — produce no diagnostic at all:
`register_fn_decl` discards the `false` returned by `Scope::define`. -/
theorem duplicate_fn_decls_no_diagnostic :
    dupFnModule.items = [.fnDecl dupFnDecl, .fnDecl dupFnDecl] ∧
    dupFnDecl.name = "f" ∧
    check 10 dupFnModule = [] := ⟨rfl, rfl, rfl⟩

/-- C3 (amended): duplicate definitions in the same scope are diagnosed only
on some paths: a variable declaration whose name is already bound in the
current scope gets a `duplicate binding` diagnostic, a duplicate extern
declaration gets a `duplicate declaration` diagnostic, but
`register_fn_decl`, `register_struct_decl` and `register_enum_decl` never
push any diagnostic — a duplicate (non-extern) top-level function, struct or
enum registration is silently dropped. -/
theorem duplicate_definition_diagnostics :
    (∀ fuel st kind name ty init span st1 initTy,
      checkExpr fuel st init = (st1, initTy) →
      st1.scope.containsKey name = true →
      (⟨"duplicate binding `" ++ name ++ "`", span⟩ : Ag.Diagnostic)
        ∈ (checkVarDecl (fuel+1) st (.mk kind name ty init span)).diagnostics) ∧
    (∀ st (ef : ExternFnDecl), st.scope.containsKey ef.name = true →
      (⟨"duplicate declaration `" ++ ef.name ++ "`", ef.span⟩ : Ag.Diagnostic)
        ∈ (registerExternFnDecl st ef).diagnostics) ∧
    (∀ st f, (registerFnDecl st f).diagnostics = st.diagnostics) ∧
    (∀ st s, (registerStructDecl st s).diagnostics = st.diagnostics) ∧
    (∀ st e, (registerEnumDecl st e).diagnostics = st.diagnostics) := by
  refine ⟨?_, ?_, ?_, ?_, ?_⟩
  · intro fuel st kind name ty init span st1 initTy hp hdup
    cases ty with
    | none =>
      simp [checkVarDecl, hp, Scope.define, hdup, Checker.error]
    | some tyExpr =>
      by_cases hc : typeCompatible (resolveType st1 tyExpr) initTy <;>
        simp [checkVarDecl, hp, Scope.define, hdup, Checker.error, hc]
  · intro st ef hdup
    simp [registerExternFnDecl, Scope.define, hdup, Checker.error]
  · intro st f
    simp only [registerFnDecl, Scope.define]
  · intro st s
    simp only [registerStructDecl, Scope.define]
  · intro st e
    simp only [registerEnumDecl, Scope.define]

/-- C3 witness: a duplicate `let x` in a scope already binding `x` gets the
duplicate-binding diagnostic, and a duplicate extern `fetch` gets the
duplicate-declaration diagnostic. -/
theorem duplicate_definition_diagnostics_witness :
    (⟨"duplicate binding `" ++ "x" ++ "`", (⟨5,9⟩ : Span)⟩ : Ag.Diagnostic)
      ∈ (checkVarDecl 2
          ⟨⟨[("x", ⟨.int, false⟩)], none⟩, [], [], false⟩
          (.mk .letK "x" none (.literal (.int 2 ⟨7,8⟩)) ⟨5,9⟩)).diagnostics ∧
    (⟨"duplicate declaration `" ++ "fetch" ++ "`", (⟨3,4⟩ : Span)⟩ : Ag.Diagnostic)
      ∈ (registerExternFnDecl
          ⟨⟨[("fetch", ⟨.any, false⟩)], none⟩, [], [], false⟩
          { name := "fetch", params := [], returnType := none, jsAnnot := none,
            variadic := false, span := ⟨3,4⟩ }).diagnostics :=
  ⟨duplicate_definition_diagnostics.1 1
      ⟨⟨[("x", ⟨.int, false⟩)], none⟩, [], [], false⟩
      .letK "x" none (.literal (.int 2 ⟨7,8⟩)) ⟨5,9⟩
      ⟨⟨[("x", ⟨.int, false⟩)], none⟩, [], [], false⟩ .int rfl rfl,
   duplicate_definition_diagnostics.2.1
      ⟨⟨[("fetch", ⟨.any, false⟩)], none⟩, [], [], false⟩
      { name := "fetch", params := [], returnType := none, jsAnnot := none,
        variadic := false, span := ⟨3,4⟩ } rfl⟩

/-- C4: (registration) an async function declared with return type `T`
registers under its name as `fn(params) -> Promise<T>`; (body pass)
`check_fn_decl` compares the body type against the *unwrapped* declared `T`,
so the return-mismatch diagnostic is governed by compatibility with `T`, not
`Promise<T>`; (await) inside an async context, awaiting an expression of type
`Promise<U>` yields `U` with no new diagnostic. -/
theorem async_fn_promise_wrapping :
    (∀ (st : Checker) (f : FnDecl) (t : TypeExpr),
      f.isAsync = true → f.returnType = some t →
      st.scope.containsKey f.name = false →
      (registerFnDecl st f).scope.lookup f.name
        = some ⟨.function (fnParamTypes st f.params) (.promise (resolveType st t)), false⟩) ∧
    (∀ (fuel : Nat) (st : Checker) (f : FnDecl) (t : TypeExpr) (st3 : Checker) (bodyType : Ty),
      f.returnType = some t →
      checkBlock fuel
          (checkFnParams { st with scope := Scope.child st.scope, inAsync := f.isAsync }
            f.params) f.body
        = (st3, bodyType) →
      checkFnDecl fuel st f
        = (let st2 := checkFnParams { st with scope := Scope.child st.scope, inAsync := f.isAsync } f.params
           let st4 :=
             if !typeCompatible (resolveType st2 t) bodyType then
               st3.error ("return type mismatch: expected `" ++ (resolveType st2 t).toStr
                 ++ "`, found `" ++ bodyType.toStr ++ "`") f.span
             else st3
           { st4 with inAsync := st.inAsync, scope := st4.scope.parentOrNew })) ∧
    (∀ (fuel : Nat) (st : Checker) (inner : Expr) (u : Ty) (st' : Checker) (sp : Span),
      st.inAsync = true →
      checkExpr fuel st inner = (st', .promise u) →
      checkExpr (fuel+1) st (.awaitE inner sp) = (st', u)) := by
  refine ⟨?_, ?_, ?_⟩
  · intro st f t hasync hret hfresh
    simp only [registerFnDecl, hret, hasync, if_true, Scope.define, hfresh,
      Bool.false_eq_true, if_false]
    simp [Scope.lookup, List.lookup]
  · intro fuel st f t st3 bodyType hret hb
    simp [checkFnDecl, hret, hb]
  · intro fuel st inner u st' sp hasync hp
    simp [checkExpr, hasync, hp]

/-- C4 witness: registering `async fn g() -> int { 42 }` in the empty state
binds `g : fn() -> Promise<int>`; its body is accepted against the unwrapped
`int`; and awaiting a `Promise<int>`-typed binding inside an async context
yields `int`. -/
theorem async_fn_promise_wrapping_witness :
    ((registerFnDecl Checker.new
        { name := "g", params := [], returnType := some (.named "int" ⟨0,0⟩),
          body := ⟨[], some (.literal (.int 42 ⟨1,2⟩)), ⟨0,0⟩⟩,
          isPub := false, isAsync := true, span := ⟨0,0⟩ }).scope.lookup "g"
      = some ⟨.function [] (.promise .int), false⟩) ∧
    (checkFnDecl 3 Checker.new
        { name := "g", params := [], returnType := some (.named "int" ⟨0,0⟩),
          body := ⟨[], some (.literal (.int 42 ⟨1,2⟩)), ⟨0,0⟩⟩,
          isPub := false, isAsync := true, span := ⟨0,0⟩ }).diagnostics = [] ∧
    checkExpr 2 { Checker.new with inAsync := true, scope := .mk [("p", ⟨.promise .int, false⟩)] none }
        (.awaitE (.ident ⟨"p", ⟨0,1⟩⟩) ⟨0,2⟩)
      = ({ Checker.new with inAsync := true, scope := .mk [("p", ⟨.promise .int, false⟩)] none }, .int) := by
  refine ⟨?_, by decide, ?_⟩
  · have h := async_fn_promise_wrapping.1 Checker.new
      { name := "g", params := [], returnType := some (.named "int" ⟨0,0⟩),
        body := ⟨[], some (.literal (.int 42 ⟨1,2⟩)), ⟨0,0⟩⟩,
        isPub := false, isAsync := true, span := ⟨0,0⟩ }
      (.named "int" ⟨0,0⟩) rfl rfl rfl
    exact h
  · exact async_fn_promise_wrapping.2.2 1
      { Checker.new with inAsync := true, scope := .mk [("p", ⟨.promise .int, false⟩)] none }
      (.ident ⟨"p", ⟨0,1⟩⟩) .int
      { Checker.new with inAsync := true, scope := .mk [("p", ⟨.promise .int, false⟩)] none } ⟨0,2⟩ rfl rfl

/-- C2 counterexample input: `fn f(a: int, b: int) -> int { a }` called as
`f(1)` — one argument for two parameters. -/
def twoParamFn : FnDecl :=
  { name := "f",
    params := [.mk "a" (some (.named "int" ⟨8,11⟩)) none false ⟨5,11⟩,
               .mk "b" (some (.named "int" ⟨16,19⟩)) none false ⟨13,19⟩],
    returnType := some (.named "int" ⟨24,27⟩),
    body := ⟨[], some (.ident ⟨"a", ⟨30,31⟩⟩), ⟨28,33⟩⟩,
    isPub := false, isAsync := false, span := ⟨0,33⟩ }

def underAppliedArgs : List Expr := [.literal (.int 1 ⟨36,37⟩)]

def underAppliedCallModule : Module :=
  ⟨[.fnDecl twoParamFn,
    .exprStmt ⟨.call (.ident ⟨"f", ⟨34,35⟩⟩) underAppliedArgs ⟨34,38⟩, ⟨34,38⟩⟩]⟩

/-- C2 counterexample: the checker emits no diagnostic at all for a call with
fewer arguments than declared parameters — `check_call` only tests
`args.len() > param_types.len()`, so an under-applied call passes silently,
refuting "a diagnostic whenever the number of arguments differs". -/
theorem call_with_missing_args_no_diagnostic :
    twoParamFn.params.length = 2 ∧
    underAppliedArgs.length = 1 ∧
    check 10 underAppliedCallModule = [] := ⟨rfl, rfl, rfl⟩

/-- The per-argument diagnostics that the zipped argument loop of
`check_call` produces, as a function of the parameter types and the argument
types. -/
def expectedArgDiags : List Ty → List Ty → Nat → Span → List Ag.Diagnostic
  | p :: ps, t :: ts, i, span =>
      (if !typeCompatible p t then
         [⟨"argument " ++ toString (i+1) ++ ": expected `" ++ p.toStr
             ++ "`, found `" ++ t.toStr ++ "`", span⟩]
       else [])
        ++ expectedArgDiags ps ts (i+1) span
  | _, _, _, _ => []

/-- Arguments whose checking is state-independent (e.g. literals) leave the
state of the pre-pass loop unchanged. -/
lemma checkExprSeq_pure (args : List Expr) (ts : List Ty)
    (hargs : List.Forall₂ (fun a t => ∀ s g, checkExpr (g+1) s a = (s, t)) args ts) :
    ∀ g st, checkExprSeq g st args = st := by
  induction hargs with
  | nil => intro g st; cases g <;> rfl
  | cons ha _ ih =>
      intro g st
      cases g with
      | zero => rfl
      | succ g' =>
        cases g' with
        | zero => simp [checkExprSeq, checkExpr, ih]
        | succ g'' => simp [checkExprSeq, ha st g'', ih]

/-- The zipped argument loop appends exactly the per-argument diagnostics. -/
lemma checkArgsAgainst_diags (args : List Expr) (ts : List Ty)
    (hargs : List.Forall₂ (fun a t => ∀ s g, checkExpr (g+1) s a = (s, t)) args ts) :
    ∀ g ps i span st, args.length < g →
      checkArgsAgainst g st args ps i span
        = { st with diagnostics := st.diagnostics ++ expectedArgDiags ps ts i span } := by
  induction hargs with
  | nil =>
      intro g ps i span st hg
      match g, hg with
      | g'+1, _ =>
        cases ps <;> simp [checkArgsAgainst, expectedArgDiags]
  | @cons a t args' ts' ha htail ih =>
      intro g ps i span st hg
      match g, hg with
      | g'+1, hg =>
        have hg' : args'.length < g' := by
          simpa [Nat.succ_lt_succ_iff] using hg
        have hg'' : 0 < g' := Nat.lt_of_le_of_lt (Nat.zero_le _) hg'
        match g', hg', hg'' with
        | g''+1, hg', _ =>
          cases ps with
          | nil => simp [checkArgsAgainst, expectedArgDiags]
          | cons p ps' =>
            rw [checkArgsAgainst]
            rw [ha st g'']
            by_cases hc : typeCompatible p t
            · simp only [hc, Bool.not_true, Bool.false_eq_true, if_false]
              rw [ih (g''+1) ps' (i+1) span st hg']
              simp [expectedArgDiags, hc]
            · have : (!typeCompatible p t) = true := by simp [hc]
              simp only [this, if_true]
              rw [ih (g''+1) ps' (i+1) span _ hg']
              simp [expectedArgDiags, hc, Checker.error, List.append_assoc]

/-- C2 (amended): for a call whose callee checks to a (non-variadic) function
type, the call's type is the declared return type, an arity diagnostic is
emitted exactly when the number of arguments *exceeds* the number of declared
parameters (a call with fewer arguments than parameters produces no arity
diagnostic), and one diagnostic is emitted per argument whose type is not
compatible with the corresponding parameter type.  The arguments are assumed
to check state-independently to the types `ts` (literals do). -/
theorem checkCall_arity_and_argument_diagnostics
    (fuel : Nat) (st st1 : Checker) (callee : Expr) (args : List Expr) (span : Span)
    (ps : List Ty) (ret : Ty) (ts : List Ty)
    (hc : checkExpr fuel st callee = (st1, .function ps ret))
    (hargs : List.Forall₂ (fun a t => ∀ s g, checkExpr (g+1) s a = (s, t)) args ts)
    (hf : args.length < fuel) :
    checkCall (fuel+1) st callee args span
      = ({ st1 with diagnostics := st1.diagnostics
            ++ (if ps.length < args.length then
                  [⟨"expected " ++ toString ps.length ++ " arguments, found "
                      ++ toString args.length, span⟩]
                else [])
            ++ expectedArgDiags ps ts 0 span }, ret) := by
  rw [checkCall]
  rw [hc]
  simp only
  rw [checkExprSeq_pure args ts hargs fuel st1]
  by_cases hlen : args.length > ps.length
  · have hlen' : ps.length < args.length := hlen
    simp only [hlen, if_true]
    rw [checkArgsAgainst_diags args ts hargs fuel ps 0 span _ hf]
    simp [Checker.error, hlen', List.append_assoc]
  · have hlen' : ¬ ps.length < args.length := hlen
    simp only [hlen, if_false]
    rw [checkArgsAgainst_diags args ts hargs fuel ps 0 span _ hf]
    simp [hlen']

/-- C2 witness: with `f : (int) -> int` in scope, `f(1, "x")` gets exactly the
excess-arity diagnostic (both argument checks succeed or are skipped), and the
call's type is `int`. -/
theorem checkCall_arity_and_argument_diagnostics_witness :
    checkCall 4 ⟨.mk [("f", ⟨.function [.int] .int, false⟩)] none, [], [], false⟩
        (.ident ⟨"f", ⟨0,1⟩⟩)
        [.literal (.int 1 ⟨2,3⟩), .literal (.str "x" ⟨5,8⟩)] ⟨0,9⟩
      = (Checker.error ⟨.mk [("f", ⟨.function [.int] .int, false⟩)] none, [], [], false⟩
            ("expected " ++ toString 1 ++ " arguments, found " ++ toString 2) ⟨0,9⟩,
         .int) := by
  have h := checkCall_arity_and_argument_diagnostics 3
    ⟨.mk [("f", ⟨.function [.int] .int, false⟩)] none, [], [], false⟩
    ⟨.mk [("f", ⟨.function [.int] .int, false⟩)] none, [], [], false⟩
    (.ident ⟨"f", ⟨0,1⟩⟩)
    [.literal (.int 1 ⟨2,3⟩), .literal (.str "x" ⟨5,8⟩)] ⟨0,9⟩
    [.int] .int [.int, .str] rfl
    (.cons (fun s g => rfl) (.cons (fun s g => rfl) .nil))
    (by decide)
  rw [h]
  rfl

end AgChk

/-! ## JavaScript AST fragment (the subset of swc_ecma_ast nodes that
ag-codegen constructs) -/

namespace AgJs

/-- swc `VarDeclKind` (only `Const` and `Let` are emitted). -/
inductive VarKind where
  | constK | letK
deriving DecidableEq, Repr

/-- swc `BinaryOp` subset used by the translator. -/
inductive BinOp where
  | add | sub | mul | div | mod | exp
  | eqEqEq | notEqEq | lt | gt | ltEq | gtEq
  | logicalAnd | logicalOr | nullishCoalescing | instanceOf
deriving DecidableEq, Repr

/-- swc `UnaryOp` subset used. -/
inductive UnOp where
  | bang | minus
deriving DecidableEq, Repr

/-- swc `AssignOp` subset used. -/
inductive AssignOp where
  | assign | addAssign | subAssign | mulAssign | divAssign
deriving DecidableEq, Repr

mutual

/-- swc `Expr` subset as constructed by ag-codegen.  `numOfInt` / `numOfFloat`
both stand for `Lit::Num` (an `f64`); the provenance is kept so that integer
literals stay decidable. -/
inductive Expr where
  | ident (name : String)
  | numOfInt (v : Int)
  | numOfFloat (v : Float)
  | strLit (v : String)
  | boolLit (v : Bool)
  | nullLit
  | bin (op : BinOp) (left right : Expr)
  | unary (op : UnOp) (arg : Expr)
  | call (callee : Expr) (args : List Expr)
  | member (obj : Expr) (prop : String)
  | memberComputed (obj : Expr) (prop : Expr)
  | cond (test cons alt : Expr)
  | arrow (params : List Pat) (body : BlockOrExpr) (isAsync : Bool)
  | object (props : List (String × Expr))
  | arrayLit (elems : List Expr)
  | optChainMember (obj : Expr) (prop : String)
  | tpl (quasis : List TplElem) (exprs : List Expr)
  | assign (op : AssignOp) (target : String) (value : Expr)
  | awaitE (arg : Expr)

/-- swc `Pat` subset: plain identifier or identifier with default. -/
inductive Pat where
  | ident (name : String)
  | assignPat (name : String) (dflt : Expr)

/-- swc `BlockStmtOrExpr` for arrow bodies. -/
inductive BlockOrExpr where
  | block (stmts : List Stmt)
  | expr (e : Expr)

/-- swc `TplElement`: cooked text plus the tail flag (raw = cooked here). -/
inductive TplElem where
  | mk (cooked : String) (tail : Bool)

/-- swc `Stmt` subset as constructed by ag-codegen. -/
inductive Stmt where
  | varDecl (kind : VarKind) (name : String) (init : Option Expr)
  | exprStmt (e : Expr)
  | ret (arg : Option Expr)
  | ifS (test : Expr) (cons : Stmt) (alt : Option Stmt)
  | block (stmts : List Stmt)
  | forOf (binding : String) (right : Expr) (body : Stmt)
  | whileS (test : Expr) (body : Stmt)
  | tryS (tryStmts : List Stmt) (catchParam : String) (catchStmts : List Stmt)

end

/-- swc `FnDecl` (+ its `Function`): name, params, body, flags. -/
structure FnDecl where
  name : String
  params : List Pat
  body : List Stmt
  isAsync : Bool
  isGenerator : Bool

/-- swc `ImportSpecifier` subset: named (with optional `imported` alias) or
namespace. -/
inductive ImportSpecifier where
  | named (localName : String) (imported : Option String)
  | namespaceSpec (localName : String)

/-- swc `ModuleItem` subset. -/
inductive ModuleItem where
  | importDecl (specifiers : List ImportSpecifier) (src : String)
  | fnDecl (f : FnDecl)
  | exportFnDecl (f : FnDecl)
  | stmt (s : Stmt)

/-- swc `Module`. -/
structure Module where
  body : List ModuleItem

end AgJs

/-! ## Code generator (crate ag-codegen) -/

namespace AgGen
open Ag

/-- The binary-operator mapping of `translate_binary` (`==`/`!=` become
`===`/`!==`, `Pow` becomes `**`). -/
def mapBinOp : BinaryOp → AgJs.BinOp
  | .add => .add
  | .sub => .sub
  | .mul => .mul
  | .div => .div
  | .mod => .mod
  | .pow => .exp
  | .eq => .eqEqEq
  | .ne => .notEqEq
  | .lt => .lt
  | .gt => .gt
  | .le => .ltEq
  | .ge => .gtEq
  | .and => .logicalAnd
  | .or => .logicalOr

/-- The unary-operator mapping of `translate_unary`. -/
def mapUnOp : UnaryOp → AgJs.UnOp
  | .not => .bang
  | .neg => .minus

/-- The assignment-operator mapping of `translate_assign`. -/
def mapAssignOp : AssignOp → AgJs.AssignOp
  | .assign => .assign
  | .addAssign => .addAssign
  | .subAssign => .subAssign
  | .mulAssign => .mulAssign
  | .divAssign => .divAssign

/-- `matches!(a, Expr::Placeholder(_))`. -/
def isPlaceholder : Expr → Bool
  | .placeholder _ => true
  | _ => false

/-- `translate_literal`. -/
def translateLiteral : Literal → AgJs.Expr
  | .int v _ => .numOfInt v
  | .float v _ => .numOfFloat v
  | .str s _ => .strLit s
  | .bool b _ => .boolLit b
  | .nil _ => .nullLit

/-- `make_iife`: wrap statements in `(() => { … })()`. -/
def makeIife (stmts : List AgJs.Stmt) : AgJs.Expr :=
  .call (.arrow [] (.block stmts) false) []

/-- The fix-up at the end of `translate_template_string` that marks the last
quasi as the tail element. -/
def markLastTail : List AgJs.TplElem → List AgJs.TplElem
  | [] => []
  | [.mk cooked _] => [.mk cooked true]
  | q :: rest => q :: markLastTail rest

mutual

/-- `translate_expr`.  Fuel decreases on each call of this mutual block; the
fuel-0 fallbacks (`ident ""` for expressions, empty lists) are outcomes no
Rust execution produces — every theorem below supplies enough fuel. -/
def translateExpr : Nat → Expr → AgJs.Expr
  | 0, _ => .ident ""
  | fuel+1, e =>
    match e with
    | .literal l => translateLiteral l
    | .ident i => .ident i.name
    | .binary op left right _ =>
        .bin (mapBinOp op) (translateExpr fuel left) (translateExpr fuel right)
    | .unary op operand _ => .unary (mapUnOp op) (translateExpr fuel operand)
    | .call callee args _ => .call (translateExpr fuel callee) (translateExprList fuel args)
    | .member object field _ => .member (translateExpr fuel object) field
    | .index object idx _ =>
        .memberComputed (translateExpr fuel object) (translateExpr fuel idx)
    | .ifE condition thenBlock (some elseBranch) _ =>
        let altExpr :=
          match elseBranch with
          | .block b => blockToExpr fuel b
          | .ifE c2 t2 e2 s2 => translateExpr fuel (.ifE c2 t2 e2 s2)
        .cond (translateExpr fuel condition) (blockToExpr fuel thenBlock) altExpr
    | .ifE condition thenBlock none _ =>
        makeIife [.ifS (translateExpr fuel condition)
          (.block (translateBlockWithImplicitReturn fuel thenBlock)) none]
    | .matchE subject arms _ => translateMatch fuel subject arms
    | .block b => blockToExpr fuel b
    | .array elements _ => .arrayLit (translateExprList fuel elements)
    | .object fields _ => .object (translateObjectProps fuel fields)
    | .arrow params body isAsync span => translateArrow fuel params body isAsync span
    | .pipe left right span => translatePipe fuel left right span
    | .optionalChain object field _ => .optChainMember (translateExpr fuel object) field
    | .nullishCoalesce left right _ =>
        .bin .nullishCoalescing (translateExpr fuel left) (translateExpr fuel right)
    | .awaitE inner _ => .awaitE (translateExpr fuel inner)
    | .errorPropagate inner _ => translateErrorPropagate fuel inner
    | .assign target value op _ => translateAssign fuel target value op
    | .templateString parts _ => translateTemplateString fuel parts
    | .placeholder _ => .ident "undefined"

/-- The argument/element maps of `translate_call` / array literals. -/
def translateExprList : Nat → List Expr → List AgJs.Expr
  | 0, _ => []
  | _, [] => []
  | fuel+1, e :: rest => translateExpr fuel e :: translateExprList fuel rest

/-- The field map of the object-literal arm of `translate_expr`. -/
def translateObjectProps : Nat → List ObjectField → List (String × AgJs.Expr)
  | 0, _ => []
  | _, [] => []
  | fuel+1, .mk key value _ :: rest =>
      (key, translateExpr fuel value) :: translateObjectProps fuel rest

/-- `translate_arrow`: the emitted arrow always carries `is_async: false`,
whatever the AST flag says. -/
def translateArrow (fuel : Nat) (params : List Param) (body : ArrowBody)
    (_isAsync : Bool) (_span : Span) : AgJs.Expr :=
  match fuel with
  | 0 => .ident ""
  | fuel+1 =>
    let jsParams : List AgJs.Pat := params.map fun p => .ident p.name
    let jsBody : AgJs.BlockOrExpr :=
      match body with
      | .expr e => .expr (translateExpr fuel e)
      | .block b => .block (translateBlockWithImplicitReturn fuel b)
    .arrow jsParams jsBody false

/-- `translate_pipe`: a call right-hand side with a wildcard placeholder
receives the translated piped value in every placeholder position; otherwise
the translated right side is called with the translated left as its only
argument. -/
def translatePipe (fuel : Nat) (left right : Expr) (_span : Span) : AgJs.Expr :=
  match fuel with
  | 0 => .ident ""
  | fuel+1 =>
    let leftJs := translateExpr fuel left
    match right with
    | .call callee args span2 =>
      if args.any isPlaceholder then
        .call (translateExpr fuel callee) (translatePipeArgs fuel leftJs args)
      else
        .call (translateExpr fuel (.call callee args span2)) [leftJs]
    | .ident i => .call (translateExpr fuel (.ident i)) [leftJs]
    | other => .call (translateExpr fuel other) [leftJs]

/-- The placeholder-substituting argument map of `translate_pipe`. -/
def translatePipeArgs : Nat → AgJs.Expr → List Expr → List AgJs.Expr
  | 0, _, _ => []
  | _, _, [] => []
  | fuel+1, leftJs, a :: rest =>
      (if isPlaceholder a then leftJs else translateExpr fuel a)
        :: translatePipeArgs fuel leftJs rest

/-- `translate_error_propagate`: `(()=>{ const _tmp = e; if (_tmp instanceof
Error) return _tmp; return _tmp; })()`. -/
def translateErrorPropagate (fuel : Nat) (inner : Expr) : AgJs.Expr :=
  match fuel with
  | 0 => .ident ""
  | fuel+1 =>
    makeIife
      [.varDecl .constK "_tmp" (some (translateExpr fuel inner)),
       .ifS (.bin .instanceOf (.ident "_tmp") (.ident "Error"))
         (.ret (some (.ident "_tmp"))) none,
       .ret (some (.ident "_tmp"))]

/-- `translate_assign`: only identifier targets keep their name; any other
target becomes `_`. -/
def translateAssign (fuel : Nat) (target value : Expr) (op : AssignOp) : AgJs.Expr :=
  match fuel with
  | 0 => .ident ""
  | fuel+1 =>
    .assign (mapAssignOp op)
      (match target with | .ident i => i.name | _ => "_")
      (translateExpr fuel value)

/-- The quasi/expression accumulation loop of `translate_template_string`. -/
def tplLoop :
    Nat → List TemplatePart → List AgJs.TplElem → List AgJs.Expr →
      List AgJs.TplElem × List AgJs.Expr
  | 0, _, quasis, exprs => (quasis, exprs)
  | _, [], quasis, exprs => (quasis, exprs)
  | fuel+1, .str s :: rest, quasis, exprs =>
      tplLoop fuel rest (quasis ++ [.mk s false]) exprs
  | fuel+1, .expr e :: rest, quasis, exprs =>
      let quasis' := if quasis.length == exprs.length then quasis ++ [.mk "" false] else quasis
      tplLoop fuel rest quasis' (exprs ++ [translateExpr fuel e])

/-- `translate_template_string`. -/
def translateTemplateString (fuel : Nat) (parts : List TemplatePart) : AgJs.Expr :=
  match fuel with
  | 0 => .ident ""
  | fuel+1 =>
    let (quasis, exprs) := tplLoop fuel parts [] []
    let quasis2 := if quasis.length == exprs.length then quasis ++ [.mk "" true] else quasis
    .tpl (markLastTail quasis2) exprs

/-- `translate_match`: an IIFE binding the subject to `_match` and chaining
the arms as `if`/`else`. -/
def translateMatch (fuel : Nat) (subject : Expr) (arms : List MatchArm) : AgJs.Expr :=
  match fuel with
  | 0 => .ident ""
  | fuel+1 =>
    let subjectJs := translateExpr fuel subject
    let chain := translateMatchArmsRev fuel arms.reverse none
    makeIife
      ([.varDecl .constK "_match" (some subjectJs)]
        ++ (match chain with | some c => [c] | none => []))

/-- The bottom-up arm fold of `translate_match` (`arms.iter().rev()`): the
accumulator is the else-branch built so far. -/
def translateMatchArmsRev :
    Nat → List MatchArm → Option AgJs.Stmt → Option AgJs.Stmt
  | 0, _, acc => acc
  | _, [], acc => acc
  | fuel+1, .mk pattern guard body _ :: rest, acc =>
      let bodyExpr := translateExpr fuel body
      let returnStmt := AgJs.Stmt.ret (some bodyExpr)
      let (condition, bindings) := translatePatternToCondition fuel pattern "_match"
      let bodyStmts :=
        (bindings.map fun nb => AgJs.Stmt.varDecl .constK nb.1 (some nb.2)) ++ [returnStmt]
      let acc' :=
        match condition with
        | some cond =>
          let cond2 :=
            match guard with
            | some g => AgJs.Expr.bin .logicalAnd cond (translateExpr fuel g)
            | none => cond
          some (AgJs.Stmt.ifS cond2 (.block bodyStmts) acc)
        | none =>
          match guard with
          | some g => some (AgJs.Stmt.ifS (translateExpr fuel g) (.block bodyStmts) acc)
          | none => some (AgJs.Stmt.block bodyStmts)
      translateMatchArmsRev fuel rest acc'

/-- `translate_pattern_to_condition`: optional test plus `const` bindings. -/
def translatePatternToCondition (fuel : Nat) (pattern : Pattern) (subjectVar : String) :
    Option AgJs.Expr × List (String × AgJs.Expr) :=
  match pattern with
  | .literal lit =>
      (some (.bin .eqEqEq (.ident subjectVar) (translateLiteral lit)), [])
  | .ident name _ => (none, [(name, .ident subjectVar)])
  | .wildcard _ => (none, [])
  | .enumP ep =>
      (some (.bin .eqEqEq (.member (.ident subjectVar) "tag") (.strLit ep.variant)),
       ep.bindings.map fun b => (b, .member (.ident subjectVar) b))
  | .structP sp =>
      (none, sp.fields.map fun f => (f, .member (.ident subjectVar) f))
  | .range lo hi _ =>
      match fuel with
      | 0 => (some (.ident ""), [])
      | fuel+1 =>
        (some (.bin .logicalAnd
          (.bin .gtEq (.ident subjectVar) (translateExpr fuel lo))
          (.bin .ltEq (.ident subjectVar) (translateExpr fuel hi))), [])

/-- `translate_block` (tail expression as a plain expression statement). -/
def translateBlock (fuel : Nat) (b : Block) : List AgJs.Stmt :=
  match fuel, b with
  | 0, _ => []
  | fuel+1, .mk stmts tailExpr _ =>
    translateStmtList fuel stmts
      ++ (match tailExpr with
          | some tail => [.exprStmt (translateExpr fuel tail)]
          | none => [])

/-- `translate_block_with_implicit_return` (tail expression as `return`). -/
def translateBlockWithImplicitReturn (fuel : Nat) (b : Block) : List AgJs.Stmt :=
  match fuel, b with
  | 0, _ => []
  | fuel+1, .mk stmts tailExpr _ =>
    translateStmtList fuel stmts
      ++ (match tailExpr with
          | some tail => [.ret (some (translateExpr fuel tail))]
          | none => [])

/-- The statement map of `translate_block`. -/
def translateStmtList : Nat → List Stmt → List AgJs.Stmt
  | 0, _ => []
  | _, [] => []
  | fuel+1, s :: rest => translateStmt fuel s :: translateStmtList fuel rest

/-- `translate_stmt`. -/
def translateStmt : Nat → Stmt → AgJs.Stmt
  | 0, _ => .block []
  | fuel+1, s =>
    match s with
    | .varDecl v => translateVarDeclStmt fuel v
    | .exprStmt e _ => .exprStmt (translateExpr fuel e)
    | .ret value _ => .ret (value.map (translateExpr fuel))
    | .ifS condition thenBlock elseBranch _ =>
        translateIfStmt fuel condition thenBlock elseBranch
    | .forS binding iter body _ =>
        .forOf binding (translateExpr fuel iter) (.block (translateBlock fuel body))
    | .whileS condition body _ =>
        .whileS (translateExpr fuel condition) (.block (translateBlock fuel body))
    | .matchS subject arms _ => .exprStmt (translateMatch fuel subject arms)
    | .tryCatch tryBlock catchBinding catchBlock _ =>
        .tryS (translateBlock fuel tryBlock) catchBinding (translateBlock fuel catchBlock)

/-- `translate_if_stmt` (nested `else if` recursion on the flattened
`ElseBranch::If` fields). -/
def translateIfStmt (fuel : Nat) (condition : Expr) (thenBlock : Block)
    (elseBranch : Option ElseBranch) : AgJs.Stmt :=
  match fuel with
  | 0 => .block []
  | fuel+1 =>
    let alt :=
      match elseBranch with
      | some (.block b) => some (AgJs.Stmt.block (translateBlock fuel b))
      | some (.ifE c2 t2 e2 _) => some (translateIfStmt fuel c2 t2 e2)
      | none => none
    .ifS (translateExpr fuel condition) (.block (translateBlock fuel thenBlock)) alt

/-- `translate_var_decl_stmt`: `let` lowers to `const`, `mut` to `let`,
`const` to `const`. -/
def translateVarDeclStmt (fuel : Nat) (v : VarDecl) : AgJs.Stmt :=
  match fuel, v with
  | 0, _ => .block []
  | fuel+1, .mk kind name _ init _ =>
    let jsKind :=
      match kind with
      | .letK => AgJs.VarKind.constK
      | .mutK => AgJs.VarKind.letK
      | .constK => AgJs.VarKind.constK
    .varDecl jsKind name (some (translateExpr fuel init))

/-- `block_to_expr`: a statement-free block with a tail is just its tail
expression; anything else becomes an IIFE. -/
def blockToExpr (fuel : Nat) (b : Block) : AgJs.Expr :=
  match fuel with
  | 0 => .ident ""
  | fuel+1 =>
    match b with
    | .mk [] (some tail) _ => translateExpr fuel tail
    | _ => makeIife (translateBlockWithImplicitReturn fuel b)

end

/-- `translate_fn_decl`: parameter defaults become assignment patterns, the
body gets an implicit return, `is_async` is propagated from the AST,
`is_generator` is always false. -/
def translateFnDecl (fuel : Nat) (f : FnDecl) : AgJs.FnDecl :=
  { name := f.name
    params := f.params.map fun p =>
      match p.dflt with
      | some d => .assignPat p.name (translateExpr fuel d)
      | none => .ident p.name
    body := translateBlockWithImplicitReturn fuel f.body
    isAsync := f.isAsync
    isGenerator := false }

/-- `translate_import`: `import * as alias` for a namespace import, otherwise
one named specifier per imported name (alias as `imported`). -/
def translateImport (imp : Import) : AgJs.ModuleItem :=
  match imp.namespaceAlias with
  | some a => .importDecl [.namespaceSpec a] imp.path
  | none =>
      .importDecl (imp.names.map fun n => .named n.name n.aliasName) imp.path

/-- `translate_item_into`, as the list of module items the call pushes:
struct, enum, type-alias and extern declarations push nothing. -/
def translateItemInto (fuel : Nat) : Item → List AgJs.ModuleItem
  | .fnDecl f =>
      if f.isPub then [.exportFnDecl (translateFnDecl fuel f)]
      else [.fnDecl (translateFnDecl fuel f)]
  | .varDecl v => [.stmt (translateVarDeclStmt fuel v)]
  | .importI imp => [translateImport imp]
  | .structDecl _ => []
  | .enumDecl _ => []
  | .typeAlias _ => []
  | .externFnDecl _ => []
  | .externStructDecl _ => []
  | .externTypeDecl _ => []
  | .exprStmt e => [.stmt (.exprStmt (translateExpr fuel e.expr))]
  | .dslBlock _ => []

/-- `HashSet<String>::insert` on the insertion-ordered list model. -/
def insertSet (set : List String) (x : String) : List String :=
  if x ∈ set then set else set ++ [x]

mutual

/-- `collect_idents_expr` (the `_ => {}` arm covers literals and
placeholders). -/
def collectIdentsExpr : Nat → Expr → List String → List String
  | 0, _, set => set
  | fuel+1, e, set =>
    match e with
    | .ident id => insertSet set id.name
    | .binary _ left right _ =>
        collectIdentsExpr fuel right (collectIdentsExpr fuel left set)
    | .unary _ operand _ => collectIdentsExpr fuel operand set
    | .call callee args _ =>
        collectIdentsExprList fuel args (collectIdentsExpr fuel callee set)
    | .member object _ _ => collectIdentsExpr fuel object set
    | .index object idx _ =>
        collectIdentsExpr fuel idx (collectIdentsExpr fuel object set)
    | .ifE condition thenBlock elseBranch _ =>
        let s2 := collectIdentsBlock fuel thenBlock (collectIdentsExpr fuel condition set)
        match elseBranch with
        | none => s2
        | some (.block b) => collectIdentsBlock fuel b s2
        | some (.ifE c2 t2 e2 sp) => collectIdentsExpr fuel (.ifE c2 t2 e2 sp) s2
    | .matchE subject arms _ =>
        collectIdentsArms fuel arms (collectIdentsExpr fuel subject set)
    | .block b => collectIdentsBlock fuel b set
    | .array elements _ => collectIdentsExprList fuel elements set
    | .object fields _ => collectIdentsFields fuel fields set
    | .arrow _ body _ _ =>
        match body with
        | .expr inner => collectIdentsExpr fuel inner set
        | .block b => collectIdentsBlock fuel b set
    | .pipe left right _ =>
        collectIdentsExpr fuel right (collectIdentsExpr fuel left set)
    | .optionalChain object _ _ => collectIdentsExpr fuel object set
    | .nullishCoalesce left right _ =>
        collectIdentsExpr fuel right (collectIdentsExpr fuel left set)
    | .awaitE inner _ => collectIdentsExpr fuel inner set
    | .errorPropagate inner _ => collectIdentsExpr fuel inner set
    | .assign target value _ _ =>
        collectIdentsExpr fuel value (collectIdentsExpr fuel target set)
    | .templateString parts _ => collectIdentsTplParts fuel parts set
    | .literal _ => set
    | .placeholder _ => set

/-- The argument/element loops of `collect_idents_expr`. -/
def collectIdentsExprList : Nat → List Expr → List String → List String
  | 0, _, set => set
  | _, [], set => set
  | fuel+1, e :: rest, set =>
      collectIdentsExprList fuel rest (collectIdentsExpr fuel e set)

/-- The object-field loop of `collect_idents_expr` (values only). -/
def collectIdentsFields : Nat → List ObjectField → List String → List String
  | 0, _, set => set
  | _, [], set => set
  | fuel+1, .mk _ value _ :: rest, set =>
      collectIdentsFields fuel rest (collectIdentsExpr fuel value set)

/-- The match-arm loop of `collect_idents_expr` (body then guard; patterns
are not visited). -/
def collectIdentsArms : Nat → List MatchArm → List String → List String
  | 0, _, set => set
  | _, [], set => set
  | fuel+1, .mk _ guard body _ :: rest, set =>
      let s1 := collectIdentsExpr fuel body set
      let s2 := match guard with
                | some g => collectIdentsExpr fuel g s1
                | none => s1
      collectIdentsArms fuel rest s2

/-- The template-part loop of `collect_idents_expr` (expression parts only). -/
def collectIdentsTplParts : Nat → List TemplatePart → List String → List String
  | 0, _, set => set
  | _, [], set => set
  | fuel+1, .str _ :: rest, set => collectIdentsTplParts fuel rest set
  | fuel+1, .expr e :: rest, set =>
      collectIdentsTplParts fuel rest (collectIdentsExpr fuel e set)

/-- One statement of `collect_idents_block` (`Stmt::If` / `Stmt::Match`
re-enter `collect_idents_expr` on the reconstructed expression). -/
def collectIdentsStmt : Nat → Stmt → List String → List String
  | 0, _, set => set
  | fuel+1, s, set =>
    match s with
    | .varDecl (.mk _ _ _ init _) => collectIdentsExpr fuel init set
    | .exprStmt e _ => collectIdentsExpr fuel e set
    | .ret (some v) _ => collectIdentsExpr fuel v set
    | .ret none _ => set
    | .ifS c t eb sp => collectIdentsExpr fuel (.ifE c t eb sp) set
    | .forS _ iter body _ =>
        collectIdentsBlock fuel body (collectIdentsExpr fuel iter set)
    | .whileS c body _ =>
        collectIdentsBlock fuel body (collectIdentsExpr fuel c set)
    | .matchS subject arms sp =>
        collectIdentsExpr fuel (.matchE subject arms sp) set
    | .tryCatch tryBlock _ catchBlock _ =>
        collectIdentsBlock fuel catchBlock (collectIdentsBlock fuel tryBlock set)

/-- The statement loop of `collect_idents_block`. -/
def collectIdentsStmts : Nat → List Stmt → List String → List String
  | 0, _, set => set
  | _, [], set => set
  | fuel+1, s :: rest, set =>
      collectIdentsStmts fuel rest (collectIdentsStmt fuel s set)

/-- `collect_idents_block`: statements, then the tail expression. -/
def collectIdentsBlock : Nat → Block → List String → List String
  | 0, _, set => set
  | fuel+1, .mk stmts tailExpr _, set =>
      let s1 := collectIdentsStmts fuel stmts set
      match tailExpr with
      | some tail => collectIdentsExpr fuel tail s1
      | none => s1

end

/-- The capture loop of the DSL arm of `collect_referenced_idents`. -/
def collectIdentsDslParts (fuel : Nat) : List DslPart → List String → List String
  | [], set => set
  | .text _ _ :: rest, set => collectIdentsDslParts fuel rest set
  | .capture e _ :: rest, set =>
      collectIdentsDslParts fuel rest (collectIdentsExpr fuel e set)

/-- `collect_referenced_idents`. -/
def collectReferencedIdents (fuel : Nat) (item : Item) (set : List String) :
    List String :=
  match item with
  | .fnDecl f => collectIdentsBlock fuel f.body set
  | .varDecl (.mk _ _ _ init _) => collectIdentsExpr fuel init set
  | .exprStmt e => collectIdentsExpr fuel e.expr set
  | .dslBlock dsl =>
      match dsl.content with
      | .inline parts => collectIdentsDslParts fuel parts set
      | .fileRef _ _ => set
  | _ => set

/-- `JsExternInfo`. -/
structure JsExternInfo where
  module : String
  jsName : Option String
deriving DecidableEq, Repr

/-- `HashMap::insert` on the insertion-ordered association-list model:
replace the first binding of the key in place, or append a new one. -/
def insertAssoc : List (String × JsExternInfo) → String → JsExternInfo →
    List (String × JsExternInfo)
  | [], k, v => [(k, v)]
  | (k', v') :: rest, k, v =>
      if k' = k then (k, v) :: rest else (k', v') :: insertAssoc rest k v

/-- The `@js`-annotation entry an item contributes to `js_externs`, if any
(extern declarations whose annotation carries a module path). -/
def jsExternEntry : Item → Option (String × JsExternInfo)
  | .externFnDecl ef =>
      match ef.jsAnnot with
      | some ann =>
          match ann.module with
          | some m => some (ef.name, ⟨m, ann.jsName⟩)
          | none => none
      | none => none
  | .externStructDecl es =>
      match es.jsAnnot with
      | some ann =>
          match ann.module with
          | some m => some (es.name, ⟨m, ann.jsName⟩)
          | none => none
      | none => none
  | .externTypeDecl et =>
      match et.jsAnnot with
      | some ann =>
          match ann.module with
          | some m => some (et.name, ⟨m, ann.jsName⟩)
          | none => none
      | none => none
  | _ => none

/-- The first pass of `translate_module`: build `js_externs`. -/
def collectJsExternsFrom (acc : List (String × JsExternInfo)) :
    List Item → List (String × JsExternInfo)
  | [] => acc
  | i :: rest =>
      collectJsExternsFrom
        (match jsExternEntry i with
         | some (k, v) => insertAssoc acc k v
         | none => acc) rest

/-- `js_externs` of a module's items. -/
def jsExternsOf (items : List Item) : List (String × JsExternInfo) :=
  collectJsExternsFrom [] items

/-- The referenced-identifier pass of `translate_module`. -/
def referencedOf (fuel : Nat) (items : List Item) : List String :=
  items.foldl (fun set i => collectReferencedIdents fuel i set) []

/-- `HashMap::entry(k).or_default().push(v)` on the insertion-ordered model. -/
def addEntry : List (String × List (String × Option String)) → String →
    String × Option String → List (String × List (String × Option String))
  | [], k, v => [(k, [v])]
  | (k', vs) :: rest, k, v =>
      if k' = k then (k', vs ++ [v]) :: rest else (k', vs) :: addEntry rest k v

/-- The grouping pass of `translate_module`: bucket each referenced annotated
extern under its module path. -/
def buildModuleImports (externs : List (String × JsExternInfo))
    (referenced : List String) : List (String × List (String × Option String)) :=
  externs.foldl
    (fun m kv =>
      if kv.1 ∈ referenced then addEntry m kv.2.module (kv.1, kv.2.jsName) else m)
    []

/-- `module_imports[&module_path]` (first binding of the key, `[]` if
absent). -/
def lookupEntries : List (String × List (String × Option String)) → String →
    List (String × Option String)
  | [], _ => []
  | (k', vs) :: rest, k => if k' = k then vs else lookupEntries rest k

/-- `module_imports` of a module's items. -/
def moduleImportsOf (fuel : Nat) (items : List Item) :
    List (String × List (String × Option String)) :=
  buildModuleImports (jsExternsOf items) (referencedOf fuel items)

/-- `sorted_modules`: the bucket keys, sorted. -/
def sortedModulesOf (fuel : Nat) (items : List Item) : List String :=
  ((moduleImportsOf fuel items).map Prod.fst).mergeSort fun a b => decide (a ≤ b)

/-- The merged import statements `translate_module` emits at the top of the
body: one `import` per module path, one named specifier per grouped extern. -/
def importItemsOf (fuel : Nat) (items : List Item) : List AgJs.ModuleItem :=
  (sortedModulesOf fuel items).map fun mp =>
    .importDecl
      ((lookupEntries (moduleImportsOf fuel items) mp).map fun nv =>
        .named nv.1 nv.2)
      mp

/-- `CodegenError`. -/
structure CodegenError where
  message : String
  span : Span
deriving DecidableEq, Repr

/-- A registered DSL handler (`Box<dyn DslHandler>` is outside this crate:
modelled as an abstract function from the block to items-or-error). -/
def DslHandler : Type :=
  Ag.DslBlock → Except String (List AgJs.ModuleItem)

/-- The second pass of `translate_module`: translate the items in order; a
DSL block dispatches to its registered handler, a missing handler or a
handler error aborts with a `CodegenError`. -/
def translateItems (fuel : Nat) (handlers : List (String × DslHandler)) :
    List Item → Except CodegenError (List AgJs.ModuleItem)
  | [] => .ok []
  | .dslBlock dsl :: rest =>
      match handlers.lookup dsl.kind with
      | some h =>
          match h dsl with
          | .ok items => (translateItems fuel handlers rest).map (items ++ ·)
          | .error msg => .error ⟨msg, dsl.span⟩
      | none =>
          .error ⟨"no handler registered for DSL kind `" ++ dsl.kind ++ "`", dsl.span⟩
  | item :: rest =>
      (translateItems fuel handlers rest).map (translateItemInto fuel item ++ ·)

/-- `Translator::translate_module`: merged imports first, then the translated
items. -/
def translateModule (fuel : Nat) (handlers : List (String × DslHandler))
    (m : Module) : Except CodegenError AgJs.Module :=
  match translateItems fuel handlers m.items with
  | .ok items => .ok ⟨importItemsOf fuel m.items ++ items⟩
  | .error e => .error e

end AgGen

namespace AgGen
open Ag

/-- With fuel covering the argument list, the placeholder-substitution map
preserves the argument count. -/
theorem translatePipeArgs_length (leftJs : AgJs.Expr) :
    ∀ (args : List Expr) (fuel : Nat), args.length ≤ fuel →
      (translatePipeArgs fuel leftJs args).length = args.length
  | [], 0, _ => rfl
  | [], _+1, _ => rfl
  | _ :: rest, fuel+1, h => by
      simp [translatePipeArgs,
        translatePipeArgs_length leftJs rest fuel (Nat.le_of_succ_le_succ h)]

/-- Position-wise description of the placeholder-substitution map: a
placeholder argument becomes the translated piped value, any other argument
its own translation. -/
theorem translatePipeArgs_get (leftJs : AgJs.Expr) :
    ∀ (args : List Expr) (fuel k : Nat), k < args.length → args.length ≤ fuel →
      (translatePipeArgs fuel leftJs args)[k]?
        = some (if isPlaceholder (args.getD k (.placeholder ⟨0,0⟩)) = true
                then leftJs
                else translateExpr (fuel - 1 - k) (args.getD k (.placeholder ⟨0,0⟩)))
  | [], _, k, hk, _ => absurd hk (by simp)
  | a :: rest, fuel+1, 0, _, _ => by
      simp [translatePipeArgs]
  | a :: rest, fuel+1, k+1, hk, hf => by
      have ih := translatePipeArgs_get leftJs rest fuel k
        (Nat.lt_of_succ_lt_succ hk) (Nat.le_of_succ_le_succ hf)
      simpa [translatePipeArgs, Nat.succ_sub_one, Nat.sub_sub, Nat.add_comm] using ih

/-- **C6.** Pipe lowering: `a |> f` with an identifier right side, and
`a |> f(…)` without a wildcard placeholder, both emit the call of the
translated right side with the translated left as the single argument; when
the right side is a call containing placeholders the emitted call keeps the
callee and the argument order and substitutes the translated piped value at
every placeholder position, translating the other arguments in place. -/
theorem translatePipe_lowering (fuel : Nat) (left : Expr) (span : Span) :
    (∀ i, translatePipe (fuel+1) left (.ident i) span
        = .call (translateExpr fuel (.ident i)) [translateExpr fuel left])
  ∧ (∀ callee args span2, args.any isPlaceholder = false →
      translatePipe (fuel+1) left (.call callee args span2) span
        = .call (translateExpr fuel (.call callee args span2)) [translateExpr fuel left])
  ∧ (∀ callee args span2, args.any isPlaceholder = true → args.length ≤ fuel →
      translatePipe (fuel+1) left (.call callee args span2) span
        = .call (translateExpr fuel callee)
            (translatePipeArgs fuel (translateExpr fuel left) args)
      ∧ (translatePipeArgs fuel (translateExpr fuel left) args).length = args.length
      ∧ ∀ k, k < args.length →
          (translatePipeArgs fuel (translateExpr fuel left) args)[k]?
            = some (if isPlaceholder (args.getD k (.placeholder ⟨0,0⟩)) = true
                    then translateExpr fuel left
                    else translateExpr (fuel - 1 - k)
                      (args.getD k (.placeholder ⟨0,0⟩)))) := by
  refine ⟨fun i => rfl, fun callee args span2 h => ?_, fun callee args span2 h hf => ?_⟩
  · simp [translatePipe, h]
  · exact ⟨by simp [translatePipe, h],
      translatePipeArgs_length _ args fuel hf,
      fun k hk => translatePipeArgs_get _ args fuel k hk hf⟩

/-- Concrete instances of the pipe lowering: `5 |> double` emits
`double(5)` and `a |> f(x, _)` emits `f(x, a)`. -/
theorem translatePipe_lowering_witness :
    translatePipe 2 (.literal (.int 5 ⟨9,10⟩)) (.ident ⟨"double", ⟨14,20⟩⟩) ⟨9,20⟩
      = .call (.ident "double") [.numOfInt 5]
  ∧ translatePipe 3 (.ident ⟨"a",⟨0,1⟩⟩)
      (.call (.ident ⟨"f",⟨5,6⟩⟩) [.ident ⟨"x",⟨7,8⟩⟩, .placeholder ⟨10,11⟩] ⟨5,12⟩)
      ⟨0,12⟩
      = .call (.ident "f") [.ident "x", .ident "a"] := by
  constructor
  · have h := (translatePipe_lowering 1 (.literal (.int 5 ⟨9,10⟩)) ⟨9,20⟩).1
      ⟨"double", ⟨14,20⟩⟩
    rw [h]
    rfl
  · have h := ((translatePipe_lowering 2 (.ident ⟨"a",⟨0,1⟩⟩) ⟨0,12⟩).2.2
      (.ident ⟨"f",⟨5,6⟩⟩) [.ident ⟨"x",⟨7,8⟩⟩, .placeholder ⟨10,11⟩] ⟨5,12⟩
      (by decide) (by decide)).1
    rw [h]
    rfl

/-- **C9.** `translate_arrow` emits an arrow whose async flag is `false`
whatever the AST's `is_async` flag says, while `translate_fn_decl`
propagates the declaration's `is_async` flag into the emitted function. -/
theorem arrow_async_erased_fn_async_kept (fuel : Nat) (params : List Param)
    (body : ArrowBody) (isAsync : Bool) (span : Span) (f : FnDecl) :
    (∃ jsParams jsBody, translateArrow (fuel+1) params body isAsync span
        = .arrow jsParams jsBody false)
  ∧ translateExpr (fuel+1) (.arrow params body isAsync span)
      = translateArrow fuel params body isAsync span
  ∧ (translateFnDecl fuel f).isAsync = f.isAsync := by
  refine ⟨?_, rfl, rfl⟩
  cases body with
  | expr e => exact ⟨_, _, rfl⟩
  | block b => exact ⟨_, _, rfl⟩

end AgGen

namespace AgGen
open Ag

/-- Looking a key up after `addEntry`: the touched key gains the new value at
the end of its bucket, every other key is unchanged. -/
theorem lookupEntries_addEntry :
    ∀ (m : List (String × List (String × Option String))) (k : String)
      (v : String × Option String) (k' : String),
      lookupEntries (addEntry m k v) k'
        = if k = k' then lookupEntries m k' ++ [v] else lookupEntries m k'
  | [], k, v, k' => by
      by_cases h : k = k' <;> simp [addEntry, lookupEntries, h]
  | (k₀, vs) :: rest, k, v, k' => by
      by_cases h₀ : k₀ = k
      · subst h₀
        by_cases h' : k₀ = k' <;>
          simp [addEntry, lookupEntries, h', lookupEntries_addEntry rest]
      · by_cases h' : k₀ = k'
        · subst h'
          have : ¬ k = k₀ := fun h => h₀ h.symm
          simp [addEntry, lookupEntries, h₀, this]
        · simp [addEntry, lookupEntries, h₀, h',
            lookupEntries_addEntry rest k v k']

/-- `addEntry` key set: unchanged when the key is present, appended
otherwise. -/
theorem keys_addEntry :
    ∀ (m : List (String × List (String × Option String))) (k : String)
      (v : String × Option String),
      (addEntry m k v).map Prod.fst
        = if k ∈ m.map Prod.fst then m.map Prod.fst else m.map Prod.fst ++ [k]
  | [], k, v => by simp [addEntry]
  | (k₀, vs) :: rest, k, v => by
      by_cases h₀ : k₀ = k
      · subst h₀; simp [addEntry]
      · have : ¬ k = k₀ := fun h => h₀ h.symm
        by_cases hm : k ∈ rest.map Prod.fst <;>
          simp [addEntry, h₀, this, hm, keys_addEntry rest k v]

/-- `addEntry` keeps the bucket keys duplicate-free. -/
theorem nodup_keys_addEntry (m : List (String × List (String × Option String)))
    (k : String) (v : String × Option String)
    (h : (m.map Prod.fst).Nodup) : ((addEntry m k v).map Prod.fst).Nodup := by
  rw [keys_addEntry]
  by_cases hm : k ∈ m.map Prod.fst
  · simpa [hm] using h
  · rw [if_neg hm]
    exact h.append (List.nodup_singleton k)
      (fun a ha hb => hm ((List.mem_singleton.mp hb) ▸ ha))

/-- A nonempty bucket lookup means the key is among the bucket keys. -/
theorem mem_keys_of_mem_lookupEntries :
    ∀ (m : List (String × List (String × Option String))) (k : String)
      (nv : String × Option String),
      nv ∈ lookupEntries m k → k ∈ m.map Prod.fst
  | [], k, nv, h => by simp [lookupEntries] at h
  | (k₀, vs) :: rest, k, nv, h => by
      by_cases h₀ : k₀ = k
      · simp [h₀]
      · simp [lookupEntries, h₀] at h
        simpa [h₀] using Or.inr (mem_keys_of_mem_lookupEntries rest k nv h)

/-- Membership in a bucket of the grouping fold of `translate_module`: an
entry `(n, jn)` sits under module path `mp` exactly when it was already in
the accumulator or `js_externs` maps `n` to `(mp, jn)` and `n` is
referenced. -/
theorem mem_lookupEntries_buildFold (refs : List String) (n mp : String)
    (jn : Option String) :
    ∀ (ex : List (String × JsExternInfo))
      (acc : List (String × List (String × Option String))),
      ((n, jn) ∈ lookupEntries
          (ex.foldl
            (fun m kv =>
              if kv.1 ∈ refs then addEntry m kv.2.module (kv.1, kv.2.jsName) else m)
            acc) mp
        ↔ (n, jn) ∈ lookupEntries acc mp
          ∨ ((n, ⟨mp, jn⟩) ∈ ex ∧ n ∈ refs))
  | [], acc => by simp
  | (n₀, ⟨m₀, j₀⟩) :: rest, acc => by
      by_cases h₀ : n₀ ∈ refs
      · simp only [List.foldl_cons, h₀, if_true]
        rw [mem_lookupEntries_buildFold refs n mp jn rest _,
          lookupEntries_addEntry]
        by_cases hm : m₀ = mp
        · rw [if_pos hm]
          constructor
          · rintro (h | ⟨h, hr⟩)
            · rcases List.mem_append.mp h with h | h
              · exact Or.inl h
              · have hn : n = n₀ := congrArg Prod.fst (List.mem_singleton.mp h)
                have hj : jn = j₀ := congrArg Prod.snd (List.mem_singleton.mp h)
                exact Or.inr ⟨by rw [hn, hj, ← hm]; exact List.mem_cons_self _ _,
                  by rw [hn]; exact h₀⟩
            · exact Or.inr ⟨List.mem_cons_of_mem _ h, hr⟩
          · rintro (h | ⟨h, hr⟩)
            · exact Or.inl (List.mem_append_left _ h)
            · rcases List.mem_cons.mp h with h | h
              · have hn : n = n₀ := congrArg Prod.fst h
                have hj : jn = j₀ := congrArg (fun p => p.2.jsName) h
                exact Or.inl (List.mem_append_right _
                  (by rw [hn, hj]; exact List.mem_singleton_self _))
              · exact Or.inr ⟨h, hr⟩
        · rw [if_neg hm]
          constructor
          · rintro (h | ⟨h, hr⟩)
            · exact Or.inl h
            · exact Or.inr ⟨List.mem_cons_of_mem _ h, hr⟩
          · rintro (h | ⟨h, hr⟩)
            · exact Or.inl h
            · rcases List.mem_cons.mp h with h | h
              · exact absurd (congrArg (fun p => p.2.module) h).symm hm
              · exact Or.inr ⟨h, hr⟩
      · simp only [List.foldl_cons, h₀, if_false]
        rw [mem_lookupEntries_buildFold refs n mp jn rest _]
        constructor
        · rintro (h | ⟨h, hr⟩)
          · exact Or.inl h
          · exact Or.inr ⟨List.mem_cons_of_mem _ h, hr⟩
        · rintro (h | ⟨h, hr⟩)
          · exact Or.inl h
          · rcases List.mem_cons.mp h with h | h
            · have hn : n = n₀ := congrArg Prod.fst h
              exact absurd (hn ▸ hr) h₀
            · exact Or.inr ⟨h, hr⟩

/-- The grouping fold keeps the bucket keys duplicate-free. -/
theorem nodup_keys_buildFold (refs : List String) :
    ∀ (ex : List (String × JsExternInfo))
      (acc : List (String × List (String × Option String))),
      (acc.map Prod.fst).Nodup →
      ((ex.foldl
          (fun m kv =>
            if kv.1 ∈ refs then addEntry m kv.2.module (kv.1, kv.2.jsName) else m)
          acc).map Prod.fst).Nodup
  | [], acc, h => h
  | kv :: rest, acc, h => by
      rw [List.foldl_cons]
      refine nodup_keys_buildFold refs rest _ ?_
      by_cases hr : kv.1 ∈ refs
      · simpa [hr] using nodup_keys_addEntry acc kv.2.module (kv.1, kv.2.jsName) h
      · simpa [hr] using h

/-- Bucket membership for `module_imports` of a module. -/
theorem mem_lookupEntries_moduleImportsOf (fuel : Nat) (items : List Item)
    (n mp : String) (jn : Option String) :
    (n, jn) ∈ lookupEntries (moduleImportsOf fuel items) mp
      ↔ (n, ⟨mp, jn⟩) ∈ jsExternsOf items ∧ n ∈ referencedOf fuel items := by
  have h := mem_lookupEntries_buildFold (referencedOf fuel items) n mp jn
    (jsExternsOf items) []
  simpa [moduleImportsOf, buildModuleImports, lookupEntries] using h

/-- The sorted module list contains exactly the bucket keys. -/
theorem mem_sortedModulesOf (fuel : Nat) (items : List Item) (mp : String) :
    mp ∈ sortedModulesOf fuel items ↔ mp ∈ (moduleImportsOf fuel items).map Prod.fst :=
  (List.mergeSort_perm ((moduleImportsOf fuel items).map Prod.fst) _).mem_iff

/-- The sorted module list has no duplicates. -/
theorem nodup_sortedModulesOf (fuel : Nat) (items : List Item) :
    (sortedModulesOf fuel items).Nodup :=
  (List.mergeSort_perm _ _).nodup_iff.mpr
    (nodup_keys_buildFold (referencedOf fuel items) (jsExternsOf items) []
      (by simp))

end AgGen

namespace AgGen
open Ag

/-- A small module used to instantiate the import-synthesis theorem: a
referenced annotated extern (`fetch` from "node-fetch"), an unreferenced
annotated extern, an unannotated extern, an erased struct, and a top-level
call of `fetch`. -/
def c5Items : List Item :=
  [ .externFnDecl ⟨"fetch", [], none, some ⟨some "node-fetch", none, ⟨0,0⟩⟩, false, ⟨0,0⟩⟩,
    .externFnDecl ⟨"unused", [], none, some ⟨some "node-fetch", some "u", ⟨0,0⟩⟩, false, ⟨0,0⟩⟩,
    .externFnDecl ⟨"glob", [], none, none, false, ⟨0,0⟩⟩,
    .structDecl ⟨"S", [], ⟨0,0⟩⟩,
    .exprStmt ⟨.call (.ident ⟨"fetch", ⟨1,2⟩⟩) [] ⟨1,3⟩, ⟨1,3⟩⟩ ]

/-- **C5.** Struct, enum, type-alias and extern declarations push zero module
items; the emitted body is the synthesized imports followed by the item
translations; every emitted import specifier is a named specifier coming
from a referenced `@js`-annotated extern of that import's module path; every
referenced annotated extern yields a named specifier in the import of its
module path; and no module path gets more than one import statement. -/
theorem translateModule_erasure_and_import_synthesis
    (fuel : Nat) (handlers : List (String × DslHandler)) (m : Module) :
    (∀ s, translateItemInto fuel (.structDecl s) = [])
  ∧ (∀ e, translateItemInto fuel (.enumDecl e) = [])
  ∧ (∀ t, translateItemInto fuel (.typeAlias t) = [])
  ∧ (∀ e, translateItemInto fuel (.externFnDecl e) = [])
  ∧ (∀ e, translateItemInto fuel (.externStructDecl e) = [])
  ∧ (∀ e, translateItemInto fuel (.externTypeDecl e) = [])
  ∧ (∀ jsm, translateModule fuel handlers m = .ok jsm →
      ∃ rest, translateItems fuel handlers m.items = .ok rest
        ∧ jsm.body = importItemsOf fuel m.items ++ rest)
  ∧ (∀ specs mp, AgJs.ModuleItem.importDecl specs mp ∈ importItemsOf fuel m.items →
      ∀ sp ∈ specs, ∃ n jn, sp = .named n jn
        ∧ (n, ⟨mp, jn⟩) ∈ jsExternsOf m.items ∧ n ∈ referencedOf fuel m.items)
  ∧ (∀ n mp jn, (n, ⟨mp, jn⟩) ∈ jsExternsOf m.items →
      n ∈ referencedOf fuel m.items →
      ∃ specs, AgJs.ModuleItem.importDecl specs mp ∈ importItemsOf fuel m.items
        ∧ AgJs.ImportSpecifier.named n jn ∈ specs)
  ∧ (sortedModulesOf fuel m.items).Nodup := by
  refine ⟨fun _ => rfl, fun _ => rfl, fun _ => rfl, fun _ => rfl, fun _ => rfl,
    fun _ => rfl, ?_, ?_, ?_, nodup_sortedModulesOf fuel m.items⟩
  · intro jsm hok
    cases hitems : translateItems fuel handlers m.items with
    | ok rest =>
        refine ⟨rest, rfl, ?_⟩
        rw [translateModule, hitems] at hok
        cases hok
        rfl
    | error e =>
        rw [translateModule, hitems] at hok
        cases hok
  · intro specs mp hmem sp hsp
    rcases List.mem_map.mp hmem with ⟨mp', hmp', heq⟩
    have hspecs : specs = (lookupEntries (moduleImportsOf fuel m.items) mp').map
        (fun nv => AgJs.ImportSpecifier.named nv.1 nv.2) :=
      (AgJs.ModuleItem.importDecl.injEq _ _ _ _).mp heq.symm |>.1
    have hmpeq : mp = mp' := (AgJs.ModuleItem.importDecl.injEq _ _ _ _).mp heq.symm |>.2
    rw [hspecs] at hsp
    rcases List.mem_map.mp hsp with ⟨nv, hnv, hspec⟩
    have hc := (mem_lookupEntries_moduleImportsOf fuel m.items nv.1 mp' nv.2).mp
      (by simpa using hnv)
    exact ⟨nv.1, nv.2, hspec.symm, hmpeq ▸ hc.1, hc.2⟩
  · intro n mp jn hex href
    have hb : (n, jn) ∈ lookupEntries (moduleImportsOf fuel m.items) mp :=
      (mem_lookupEntries_moduleImportsOf fuel m.items n mp jn).mpr ⟨hex, href⟩
    have hk : mp ∈ (moduleImportsOf fuel m.items).map Prod.fst :=
      mem_keys_of_mem_lookupEntries _ mp (n, jn) hb
    have hs : mp ∈ sortedModulesOf fuel m.items :=
      (mem_sortedModulesOf fuel m.items mp).mpr hk
    refine ⟨(lookupEntries (moduleImportsOf fuel m.items) mp).map
        (fun nv => AgJs.ImportSpecifier.named nv.1 nv.2), ?_, ?_⟩
    · exact List.mem_map.mpr ⟨mp, hs, rfl⟩
    · exact List.mem_map.mpr ⟨(n, jn), hb, rfl⟩

/-- Instantiation of the erasure and import-synthesis theorem on `c5Items`:
the struct declaration emits nothing, and the referenced annotated extern
`fetch` yields a named specifier in the "node-fetch" import. -/
theorem translateModule_erasure_and_import_synthesis_witness :
    translateItemInto 3 (.structDecl { name := "S", fields := [], span := ⟨0,0⟩ }) = []
  ∧ ∃ specs, AgJs.ModuleItem.importDecl specs "node-fetch" ∈ importItemsOf 3 c5Items
      ∧ AgJs.ImportSpecifier.named "fetch" none ∈ specs :=
  ⟨(translateModule_erasure_and_import_synthesis 3 [] ⟨c5Items⟩).1 _,
   (translateModule_erasure_and_import_synthesis 3 [] ⟨c5Items⟩).2.2.2.2.2.2.2.2.1
     "fetch" "node-fetch" none (by decide) (by decide)⟩

end AgGen

/-! ## Parser (crate ag-parser), over the token stream of crate ag-lexer -/

namespace AgParse
open Ag

/-- ag-lexer `TokenKind` (constructors renamed to Lean-compatible
identifiers; `identT` / `errorT` carry their payloads). -/
inductive TokenKind where
  | fnKw | letKw | constKw | mutKw | ifKw | elseKw | forKw | inKw | ofKw
  | whileKw | matchKw | retKw | yieldKw | awaitKw | asyncKw | importKw
  | exportKw | fromKw | asKw | typeKw | structKw | enumKw | implKw | pubKw
  | selfKw | trueKw | falseKw | nilKw | useKw | withKw | onKw | underscore
  | tryKw | catchKw | externKw
  | identT (s : String)
  | intLit (s : String)
  | floatLit (s : String)
  | strLit (s : String)
  | tplNoSub (s : String)
  | tplHead (s : String)
  | tplMiddle (s : String)
  | tplTail (s : String)
  | plus | minus | star | slash | percent | starStar | eqEq | bangEq
  | lt | gt | ltEq | gtEq | ampAmp | pipePipe | bang | pipe | pipeGt
  | questionQuestion | questionDot | eq | plusEq | minusEq | starEq
  | slashEq | fatArrow | thinArrow | colonColon | atSign | dotDot | dotDotDot
  | lbrace | rbrace | lparen | rparen | lbracket | rbracket | comma
  | semi | colon | dot | question
  | lineComment (s : String)
  | blockComment (s : String)
  | docComment (s : String)
  | dslBlockStart | dslBlockEnd
  | dslText (s : String)
  | dslCaptureStart | dslCaptureEnd
  | eof
  | errorT (s : String)

/-- `std::mem::discriminant`: a distinct number per constructor, payloads
ignored. -/
def TokenKind.tag : TokenKind → Nat
  | .fnKw => 0 | .letKw => 1 | .constKw => 2 | .mutKw => 3 | .ifKw => 4
  | .elseKw => 5 | .forKw => 6 | .inKw => 7 | .ofKw => 8 | .whileKw => 9
  | .matchKw => 10 | .retKw => 11 | .yieldKw => 12 | .awaitKw => 13
  | .asyncKw => 14 | .importKw => 15 | .exportKw => 16 | .fromKw => 17
  | .asKw => 18 | .typeKw => 19 | .structKw => 20 | .enumKw => 21
  | .implKw => 22 | .pubKw => 23 | .selfKw => 24 | .trueKw => 25
  | .falseKw => 26 | .nilKw => 27 | .useKw => 28 | .withKw => 29
  | .onKw => 30 | .underscore => 31 | .tryKw => 32 | .catchKw => 33
  | .externKw => 34
  | .identT _ => 35 | .intLit _ => 36 | .floatLit _ => 37 | .strLit _ => 38
  | .tplNoSub _ => 39 | .tplHead _ => 40 | .tplMiddle _ => 41 | .tplTail _ => 42
  | .plus => 43 | .minus => 44 | .star => 45 | .slash => 46 | .percent => 47
  | .starStar => 48 | .eqEq => 49 | .bangEq => 50 | .lt => 51 | .gt => 52
  | .ltEq => 53 | .gtEq => 54 | .ampAmp => 55 | .pipePipe => 56 | .bang => 57
  | .pipe => 58 | .pipeGt => 59 | .questionQuestion => 60 | .questionDot => 61
  | .eq => 62 | .plusEq => 63 | .minusEq => 64 | .starEq => 65 | .slashEq => 66
  | .fatArrow => 67 | .thinArrow => 68 | .colonColon => 69 | .atSign => 70
  | .dotDot => 71 | .dotDotDot => 72
  | .lbrace => 73 | .rbrace => 74 | .lparen => 75 | .rparen => 76
  | .lbracket => 77 | .rbracket => 78 | .comma => 79 | .semi => 80
  | .colon => 81 | .dot => 82 | .question => 83
  | .lineComment _ => 84 | .blockComment _ => 85 | .docComment _ => 86
  | .dslBlockStart => 87 | .dslBlockEnd => 88 | .dslText _ => 89
  | .dslCaptureStart => 90 | .dslCaptureEnd => 91
  | .eof => 92 | .errorT _ => 93

/-- Rust `Debug` escaping of a string payload (`{:?}` on `String`): quotes,
backslashes and the common control characters; other characters are kept
as-is. -/
def rustDebugStr (s : String) : String :=
  "\"" ++ String.join (s.data.map fun c =>
    if c = '"' then "\\\""
    else if c = '\\' then "\\\\"
    else if c = '\n' then "\\n"
    else if c = '\t' then "\\t"
    else if c = '\r' then "\\r"
    else String.singleton c) ++ "\""

/-- `format!("{:?}", kind)` — the derived `Debug` rendering of `TokenKind`
(Rust constructor names). -/
def TokenKind.debugStr : TokenKind → String
  | .fnKw => "Fn" | .letKw => "Let" | .constKw => "Const" | .mutKw => "Mut"
  | .ifKw => "If" | .elseKw => "Else" | .forKw => "For" | .inKw => "In"
  | .ofKw => "Of" | .whileKw => "While" | .matchKw => "Match" | .retKw => "Ret"
  | .yieldKw => "Yield" | .awaitKw => "Await" | .asyncKw => "Async"
  | .importKw => "Import" | .exportKw => "Export" | .fromKw => "From"
  | .asKw => "As" | .typeKw => "Type" | .structKw => "Struct"
  | .enumKw => "Enum" | .implKw => "Impl" | .pubKw => "Pub"
  | .selfKw => "SelfKw" | .trueKw => "True" | .falseKw => "False"
  | .nilKw => "Nil" | .useKw => "Use" | .withKw => "With" | .onKw => "On"
  | .underscore => "Underscore" | .tryKw => "Try" | .catchKw => "Catch"
  | .externKw => "Extern"
  | .identT s => "Ident(" ++ rustDebugStr s ++ ")"
  | .intLit s => "IntLiteral(" ++ rustDebugStr s ++ ")"
  | .floatLit s => "FloatLiteral(" ++ rustDebugStr s ++ ")"
  | .strLit s => "StringLiteral(" ++ rustDebugStr s ++ ")"
  | .tplNoSub s => "TemplateNoSub(" ++ rustDebugStr s ++ ")"
  | .tplHead s => "TemplateHead(" ++ rustDebugStr s ++ ")"
  | .tplMiddle s => "TemplateMiddle(" ++ rustDebugStr s ++ ")"
  | .tplTail s => "TemplateTail(" ++ rustDebugStr s ++ ")"
  | .plus => "Plus" | .minus => "Minus" | .star => "Star" | .slash => "Slash"
  | .percent => "Percent" | .starStar => "StarStar" | .eqEq => "EqEq"
  | .bangEq => "BangEq" | .lt => "Lt" | .gt => "Gt" | .ltEq => "LtEq"
  | .gtEq => "GtEq" | .ampAmp => "AmpAmp" | .pipePipe => "PipePipe"
  | .bang => "Bang" | .pipe => "Pipe" | .pipeGt => "PipeGt"
  | .questionQuestion => "QuestionQuestion" | .questionDot => "QuestionDot"
  | .eq => "Eq" | .plusEq => "PlusEq" | .minusEq => "MinusEq"
  | .starEq => "StarEq" | .slashEq => "SlashEq" | .fatArrow => "FatArrow"
  | .thinArrow => "ThinArrow" | .colonColon => "ColonColon" | .atSign => "At"
  | .dotDot => "DotDot" | .dotDotDot => "DotDotDot"
  | .lbrace => "LBrace" | .rbrace => "RBrace" | .lparen => "LParen"
  | .rparen => "RParen" | .lbracket => "LBracket" | .rbracket => "RBracket"
  | .comma => "Comma" | .semi => "Semi" | .colon => "Colon" | .dot => "Dot"
  | .question => "Question"
  | .lineComment s => "LineComment(" ++ rustDebugStr s ++ ")"
  | .blockComment s => "BlockComment(" ++ rustDebugStr s ++ ")"
  | .docComment s => "DocComment(" ++ rustDebugStr s ++ ")"
  | .dslBlockStart => "DslBlockStart" | .dslBlockEnd => "DslBlockEnd"
  | .dslText s => "DslText(" ++ rustDebugStr s ++ ")"
  | .dslCaptureStart => "DslCaptureStart" | .dslCaptureEnd => "DslCaptureEnd"
  | .eof => "Eof"
  | .errorT s => "Error(" ++ rustDebugStr s ++ ")"

/-- ag-lexer `Token`. -/
structure Token where
  kind : TokenKind
  span : Span
  text : String

/-- Parser state: token stream, cursor, accumulated diagnostics (the
`source` field only feeds the DSL sub-lexer, which is abstracted by
`DslHook` below). -/
structure PState where
  tokens : List Token
  pos : Nat
  diagnostics : List Diagnostic

/-- The token used where the Rust code indexes `tokens[min(pos, len-1)]`
on an empty vector (Rust would panic; the parser entry point always
receives at least the `Eof` token, so this default is never observable). -/
def defaultToken : Token := ⟨.eof, ⟨0,0⟩, ""⟩

/-- `Parser::peek`: the kind at the cursor, `Eof` past the end. -/
def peekK (s : PState) : TokenKind :=
  match s.tokens[s.pos]? with
  | some t => t.kind
  | none => .eof

/-- `Parser::peek_token`. -/
def peekToken (s : PState) : Token :=
  s.tokens.getD (min s.pos (s.tokens.length - 1)) defaultToken

/-- `Parser::at`: discriminant comparison. -/
def atK (s : PState) (k : TokenKind) : Bool :=
  (peekK s).tag == k.tag

/-- `Parser::advance`: return the clamped current token; step the cursor if
not yet past the end. -/
def advanceT (s : PState) : Token × PState :=
  (peekToken s, if s.pos < s.tokens.length then { s with pos := s.pos + 1 } else s)

/-- `Parser::current_span`. -/
def currentSpan (s : PState) : Span := (peekToken s).span

/-- Append one diagnostic. -/
def pushDiag (s : PState) (msg : String) (sp : Span) : PState :=
  { s with diagnostics := s.diagnostics ++ [⟨msg, sp⟩] }

/-- `Parser::error`: diagnostic at the current token's span. -/
def perror (s : PState) (msg : String) : PState :=
  pushDiag s msg (currentSpan s)

/-- Payload of an `Ident` token, if any. -/
def identPayload? : TokenKind → Option String
  | .identT s => some s
  | _ => none

/-- Payload of a `StringLiteral` token, if any. -/
def strLitPayload? : TokenKind → Option String
  | .strLit s => some s
  | _ => none

/-- Payload of an `IntLiteral` token, if any. -/
def intLitPayload? : TokenKind → Option String
  | .intLit s => some s
  | _ => none

/-- Payload of a `FloatLiteral` token, if any. -/
def floatLitPayload? : TokenKind → Option String
  | .floatLit s => some s
  | _ => none

/-- Payloads of the four template-string token kinds, if any. -/
def tplNoSubPayload? : TokenKind → Option String
  | .tplNoSub s => some s
  | _ => none

def tplHeadPayload? : TokenKind → Option String
  | .tplHead s => some s
  | _ => none

def tplMiddlePayload? : TokenKind → Option String
  | .tplMiddle s => some s
  | _ => none

def tplTailPayload? : TokenKind → Option String
  | .tplTail s => some s
  | _ => none

/-- `matches!(self.peek(), TokenKind::Comma)` + conditional advance, the
recurring separator skip. -/
def skipComma (s : PState) : PState :=
  if atK s .comma then (advanceT s).2 else s

/-- `Parser::expect`. -/
def expectT (s : PState) (k : TokenKind) : Option Token × PState :=
  if atK s k then
    let (tok, s') := advanceT s
    (some tok, s')
  else
    (none, pushDiag s ("expected " ++ k.debugStr ++ ", found " ++ (peekK s).debugStr)
      (currentSpan s))

/-- `Parser::expect_ident`. -/
def expectIdent (s : PState) : Option String × PState :=
  match identPayload? (peekK s) with
  | some _ =>
      let (tok, s') := advanceT s
      (match identPayload? tok.kind with
       | some name => (some name, s')
       | none => (none, s'))
  | none =>
      (none, pushDiag s ("expected identifier, found " ++ (peekK s).debugStr)
        (currentSpan s))

/-- The loop body of `Parser::synchronize`, fueled (the loop advances the
cursor every iteration that does not break, so `tokens.length - pos + 1`
fuel always suffices). -/
def synchronizeF : Nat → PState → PState
  | 0, s => s
  | fuel+1, s =>
    if atK s .eof then s
    else if atK s .semi then (advanceT s).2
    else if atK s .rbrace then s
    else if atK s .fnKw || atK s .letKw || atK s .mutKw || atK s .constKw
        || atK s .structKw || atK s .enumKw || atK s .typeKw || atK s .importKw
        || atK s .pubKw || atK s .forKw || atK s .whileKw || atK s .tryKw
        || atK s .ifKw || atK s .matchKw || atK s .retKw || atK s .atSign
        || atK s .externKw then s
    else synchronizeF fuel (advanceT s).2

/-- `Parser::synchronize`. -/
def synchronize (s : PState) : PState :=
  synchronizeF (s.tokens.length - s.pos + 1) s

/-- `s.parse::<i64>().unwrap_or(0)` on a lexer `IntLiteral` payload (a
nonempty digit string; out-of-range values fall back to 0 like the Rust
overflow error does). -/
def intLitVal (s : String) : Int :=
  match s.toNat? with
  | some n => if n ≤ 9223372036854775807 then (n : Int) else 0
  | none => 0

/-- Digits of a string prefix, with the rest. -/
def takeDigits : List Char → List Char × List Char
  | [] => ([], [])
  | c :: rest =>
      if c.isDigit then
        let (ds, r) := takeDigits rest
        (c :: ds, r)
      else ([], c :: rest)

/-- `s.parse::<f64>().unwrap_or(0.0)` on a lexer `FloatLiteral` payload
(`digits[.digits][eE[+-]digits]`), via correctly-rounded decimal
scientific conversion. -/
def floatLitVal (s : String) : Float :=
  let (intDs, r1) := takeDigits s.data
  let (fracDs, r2) :=
    match r1 with
    | '.' :: rest => takeDigits rest
    | _ => ([], r1)
  let (expSign, expDs, rest) :=
    match r2 with
    | 'e' :: '-' :: rest => (true, (takeDigits rest).1, (takeDigits rest).2)
    | 'e' :: '+' :: rest => (false, (takeDigits rest).1, (takeDigits rest).2)
    | 'e' :: rest => (false, (takeDigits rest).1, (takeDigits rest).2)
    | 'E' :: '-' :: rest => (true, (takeDigits rest).1, (takeDigits rest).2)
    | 'E' :: '+' :: rest => (false, (takeDigits rest).1, (takeDigits rest).2)
    | 'E' :: rest => (false, (takeDigits rest).1, (takeDigits rest).2)
    | _ => (false, [], r2)
  if intDs.isEmpty ∨ ¬ rest.isEmpty then 0.0
  else
    let mantissa := (String.mk (intDs ++ fracDs)).toNat?.getD 0
    let expVal : Int := (if expSign then -(((String.mk expDs).toNat?.getD 0 : Int))
      else ((String.mk expDs).toNat?.getD 0 : Int)) - fracDs.length
    if 0 ≤ expVal then Float.ofScientific mantissa false expVal.toNat
    else Float.ofScientific mantissa true (-expVal).toNat

end AgParse

namespace AgParse
open Ag

/-- Parser result: `none` is fuel exhaustion (no Rust counterpart), inner
`none` is the Rust `None` return, always with the final state. -/
abbrev PRes (α : Type) : Type := Option (Option α × PState)

/-- Rust `?` on a primitive (non-fueled) `Option`-returning step. -/
def andThen {α β : Type} (r : Option α × PState)
    (f : α → PState → PRes β) : PRes β :=
  match r with
  | (some a, s) => f a s
  | (none, s) => some (none, s)

/-- Rust `?` on a fueled parser call: fuel exhaustion propagates. -/
def bindP {α β : Type} (r : PRes α) (f : α → PState → PRes β) : PRes β :=
  match r with
  | none => none
  | some (none, s) => some (none, s)
  | some (some a, s) => f a s

/-- `Parser::parse_string_literal`. -/
def parseStringLiteral (s : PState) : Option String × PState :=
  match strLitPayload? (peekK s) with
  | some _ =>
      let (tok, s') := advanceT s
      (match strLitPayload? tok.kind with
       | some v => (some v, s')
       | none => (none, perror s' "expected string literal"))
  | none => (none, perror s "expected string literal")

/-- The named-import loop of `Parser::parse_import`. -/
def parseImportNames : Nat → PState → List ImportName → PRes (List ImportName)
  | 0, _, _ => none
  | fuel+1, s, names =>
    if atK s .rbrace || atK s .eof then some (some names, s)
    else
      let nameSpan := currentSpan s
      andThen (expectIdent s) fun name s =>
      if atK s .asKw then
        let s := (advanceT s).2
        andThen (expectIdent s) fun a s =>
        parseImportNames fuel (skipComma s) (names ++ [⟨name, some a, nameSpan⟩])
      else
        parseImportNames fuel (skipComma s) (names ++ [⟨name, none, nameSpan⟩])

/-- `Parser::parse_import`. -/
def parseImport (fuel : Nat) (s : PState) : PRes Import :=
  let start := currentSpan s
  let s := (advanceT s).2
  if atK s .star then
      let s := (advanceT s).2
      andThen (expectT s .asKw) fun _ s =>
      andThen (expectIdent s) fun a s =>
      andThen (expectT s .fromKw) fun _ s =>
      andThen (parseStringLiteral s) fun path s =>
      let endSp := currentSpan s
      some (some ⟨[], path, some a, ⟨start.start, endSp.stop⟩⟩, s)
  else
      andThen (expectT s .lbrace) fun _ s =>
      bindP (parseImportNames fuel s []) fun names s =>
      andThen (expectT s .rbrace) fun _ s =>
      andThen (expectT s .fromKw) fun _ s =>
      andThen (parseStringLiteral s) fun path s =>
      let endSp := currentSpan s
      some (some ⟨names, path, none, ⟨start.start, endSp.stop⟩⟩, s)

/-- `Parser::parse_js_annotation`. -/
def parseJsAnnot (s : PState) : Option JsAnnot × PState :=
  let start := currentSpan s
  let s := (advanceT s).2
  match expectIdent s with
  | (none, s) => (none, s)
  | (some name, s) =>
    if name == "js" then
      match expectT s .lparen with
      | (none, s) => (none, s)
      | (some _, s) =>
        match parseStringLiteral s with
        | (none, s) => (none, s)
        | (some module, s) =>
          if atK s .comma then
              let s := (advanceT s).2
              match expectIdent s with
              | (none, s) => (none, s)
              | (some key, s) =>
                if key == "name" then
                  match expectT s .eq with
                  | (none, s) => (none, s)
                  | (some _, s) =>
                    match parseStringLiteral s with
                    | (none, s) => (none, s)
                    | (some jn, s) =>
                      match expectT s .rparen with
                      | (none, s) => (none, s)
                      | (some _, s) =>
                        let endSp := currentSpan s
                        (some ⟨some module, some jn, ⟨start.start, endSp.stop⟩⟩, s)
                else (none, perror s "expected `name` in @js annotation")
          else
              match expectT s .rparen with
              | (none, s) => (none, s)
              | (some _, s) =>
                let endSp := currentSpan s
                (some ⟨some module, none, ⟨start.start, endSp.stop⟩⟩, s)
    else (none, perror s "expected `js` after `@`")

/-- The inline branch of `parse_dsl_block` runs a raw-mode sub-lexer over the
source text and a sub-parser over its capture tokens; that machinery lives in
ag-lexer and is outside the token-stream fragment embedded here, so it is
abstracted as a hook from the state, DSL kind, block name and start span to
the produced block (or failure) and resulting state.  Every theorem below
holds for an arbitrary hook. -/
def DslHook : Type := PState → String → Ident → Span → Option DslBlock × PState

/-- `Parser::parse_dsl_block` (`from` file references in full; inline blocks
via the hook). -/
def parseDslBlock (hook : DslHook) (s : PState) : Option DslBlock × PState :=
  let start := currentSpan s
  let s := (advanceT s).2
  match identPayload? (peekK s) with
  | some _ =>
    let (tok, s) := advanceT s
    (match identPayload? tok.kind with
     | some kind =>
      let nameSpan := currentSpan s
      (match identPayload? (peekK s) with
       | some _ =>
        let (tok2, s) := advanceT s
        (match identPayload? tok2.kind with
         | some name =>
          let nameIdent : Ident := ⟨name, nameSpan⟩
          if atK s .fromKw then
              let s := (advanceT s).2
              let pathSpan := currentSpan s
              match strLitPayload? (peekK s) with
              | some _ =>
                  let (tok3, s) := advanceT s
                  (match strLitPayload? tok3.kind with
                   | some path =>
                      (some ⟨kind, nameIdent, .fileRef path pathSpan,
                        ⟨start.start, tok3.span.stop⟩⟩, s)
                   | none => (none, s))
              | none => (none, perror s "expected string literal after `from`")
          else hook s kind nameIdent start
         | none => (none, s))
       | none => (none, perror s ("expected DSL block name after `@" ++ kind ++ "`")))
     | none => (none, s))
  | none => (none, perror s "expected identifier after `@`")

mutual

/-- `Parser::parse_type`: primary, optional postfix `?`, optional `| T`. -/
def parseType : Nat → PState → PRes TypeExpr
  | 0, _ => none
  | fuel+1, s =>
    bindP (parseTypePrimary fuel s) fun ty s =>
    let p :=
      if atK s .question then
        let sp := currentSpan s
        (TypeExpr.nullable ty sp, (advanceT s).2)
      else (ty, s)
    if atK p.2 .pipe then
      let sp := currentSpan p.2
      let s := (advanceT p.2).2
      bindP (parseType fuel s) fun right s =>
      some (some (.union p.1 right sp), s)
    else some (some p.1, p.2)

/-- `Parser::parse_type_primary` (array, map/object with backtracking probe,
function, named/Promise, `nil`).  The Rust `match` on the peeked kind is
rendered as a chain of discriminant tests over the same disjoint arms. -/
def parseTypePrimary : Nat → PState → PRes TypeExpr
  | 0, _ => none
  | fuel+1, s =>
    let start := currentSpan s
    if atK s .lbracket then
      let s := (advanceT s).2
      bindP (parseType fuel s) fun inner s =>
      andThen (expectT s .rbracket) fun _ s =>
      let endSp := currentSpan s
      some (some (.array inner ⟨start.start, endSp.stop⟩), s)
    else if atK s .lbrace then
      let s := (advanceT s).2
      match identPayload? (peekK s) with
      | some name =>
          let isTypeName := name == "str" || name == "int" || name == "num"
            || name == "bool" || name == "nil" || name == "any"
          let saved := s.pos
          (match parseType fuel s with
           | none => none
           | some (some kt, s) =>
              if atK s .colon then
                let s := (advanceT s).2
                (match parseType fuel s with
                 | none => none
                 | some (some vt, s) =>
                    if atK s .rbrace then
                      if isTypeName then
                        let s := (advanceT s).2
                        let endSp := currentSpan s
                        some (some (.map kt vt ⟨start.start, endSp.stop⟩), s)
                      else
                        let s := (advanceT s).2
                        let endSp := currentSpan s
                        some (some (.object [(name, vt)]
                          ⟨start.start, endSp.stop⟩), s)
                    else parseObjectTypeRest fuel { s with pos := saved } start []
                 | some (none, s) =>
                    parseObjectTypeRest fuel { s with pos := saved } start [])
              else parseObjectTypeRest fuel { s with pos := saved } start []
           | some (none, s) =>
              parseObjectTypeRest fuel { s with pos := saved } start [])
      | none => parseObjectTypeRest fuel s start []
    else if atK s .lparen then
      let s := (advanceT s).2
      bindP (parseFnTypeParams fuel s []) fun params s =>
      andThen (expectT s .rparen) fun _ s =>
      andThen (expectT s .thinArrow) fun _ s =>
      bindP (parseType fuel s) fun ret s =>
      let endSp := currentSpan s
      some (some (.function params ret ⟨start.start, endSp.stop⟩), s)
    else
      match identPayload? (peekK s) with
      | some _ =>
          let (tok, s) := advanceT s
          (match identPayload? tok.kind with
           | some name =>
              if name == "Promise" && atK s .lt then
                let s := (advanceT s).2
                bindP (parseType fuel s) fun inner s =>
                andThen (expectT s .gt) fun _ s =>
                let endSp := currentSpan s
                some (some (.promise inner ⟨tok.span.start, endSp.stop⟩), s)
              else some (some (.named name tok.span), s)
           | none => some (none, s))
      | none =>
          if atK s .nilKw then
            let (tok, s) := advanceT s
            some (some (.named "nil" tok.span), s)
          else some (none, perror s "expected type")

/-- The object-type field loop plus closing brace of `parse_type_primary`
(the per-field span the Rust code computes is dropped with `TypeField`
spans in this embedding). -/
def parseObjectTypeRest : Nat → PState → Span → List (String × TypeExpr) →
    PRes TypeExpr
  | 0, _, _, _ => none
  | fuel+1, s, start, fields =>
    if atK s .rbrace || atK s .eof then
      andThen (expectT s .rbrace) fun _ s =>
      let endSp := currentSpan s
      some (some (.object fields ⟨start.start, endSp.stop⟩), s)
    else
      andThen (expectIdent s) fun fname s =>
      andThen (expectT s .colon) fun _ s =>
      bindP (parseType fuel s) fun ftype s =>
      parseObjectTypeRest fuel (skipComma s) start (fields ++ [(fname, ftype)])

/-- The parameter loop of the function-type arm of `parse_type_primary`. -/
def parseFnTypeParams : Nat → PState → List TypeExpr → PRes (List TypeExpr)
  | 0, _, _ => none
  | fuel+1, s, params =>
    if atK s .rparen || atK s .eof then some (some params, s)
    else
      bindP (parseType fuel s) fun t s =>
      parseFnTypeParams fuel (skipComma s) (params ++ [t])

end

end AgParse

namespace AgParse
open Ag

/-- The assignment-operator arms of the infix handling in
`Parser::parse_expr`. -/
def assignOpOf : TokenKind → Option Ag.AssignOp
  | .eq => some .assign
  | .plusEq => some .addAssign
  | .minusEq => some .subAssign
  | .starEq => some .mulAssign
  | .slashEq => some .divAssign
  | _ => none

/-- The binary-operator mapping at the bottom of `Parser::parse_expr`. -/
def binOpOf : TokenKind → Option Ag.BinaryOp
  | .plus => some .add
  | .minus => some .sub
  | .star => some .mul
  | .slash => some .div
  | .percent => some .mod
  | .starStar => some .pow
  | .eqEq => some .eq
  | .bangEq => some .ne
  | .lt => some .lt
  | .gt => some .gt
  | .ltEq => some .le
  | .gtEq => some .ge
  | .ampAmp => some .and
  | .pipePipe => some .or
  | _ => none

/-- The infix binding-power table of `Parser::parse_expr`: binding power and
right-associativity of the peeked operator, `none` to leave the loop. -/
def infixBp (s : PState) : Option (Nat × Bool) :=
  if atK s .eq then some (2, true)
  else if atK s .plusEq || atK s .minusEq || atK s .starEq || atK s .slashEq then
    some (2, true)
  else if atK s .pipeGt then some (4, false)
  else if atK s .questionQuestion then some (6, false)
  else if atK s .pipePipe then some (8, false)
  else if atK s .ampAmp then some (10, false)
  else if atK s .eqEq || atK s .bangEq then some (12, false)
  else if atK s .lt || atK s .gt || atK s .ltEq || atK s .gtEq then some (14, false)
  else if atK s .plus || atK s .minus then some (16, false)
  else if atK s .star || atK s .slash || atK s .percent then some (18, false)
  else if atK s .starStar then some (20, true)
  else none

mutual

/-- `Parser::parse_expr`: a prefix operand, then the Pratt loop. -/
def parseExpr : Nat → PState → Nat → PRes Expr
  | 0, _, _ => none
  | fuel+1, s, minBp =>
    bindP (parsePrefix fuel s) fun lhs s =>
    parseExprLoop fuel s lhs minBp

/-- The postfix/infix loop of `Parser::parse_expr`. -/
def parseExprLoop : Nat → PState → Expr → Nat → PRes Expr
  | 0, _, _, _ => none
  | fuel+1, s, lhs, minBp =>
    if atK s .dot then
      let span := currentSpan s
      let s := (advanceT s).2
      andThen (expectIdent s) fun field s =>
      parseExprLoop fuel s (.member lhs field span) minBp
    else if atK s .questionDot then
      let span := currentSpan s
      let s := (advanceT s).2
      andThen (expectIdent s) fun field s =>
      parseExprLoop fuel s (.optionalChain lhs field span) minBp
    else if atK s .colonColon then
      let span := currentSpan s
      let s := (advanceT s).2
      andThen (expectIdent s) fun field s =>
      parseExprLoop fuel s (.member lhs field span) minBp
    else if atK s .lparen then
      let span := currentSpan s
      let s := (advanceT s).2
      bindP (parseCallArgs fuel s []) fun args s =>
      andThen (expectT s .rparen) fun _ s =>
      let endSp := currentSpan s
      parseExprLoop fuel s (.call lhs args ⟨span.start, endSp.stop⟩) minBp
    else if atK s .lbracket then
      let span := currentSpan s
      let s := (advanceT s).2
      bindP (parseExpr fuel s 0) fun idx s =>
      andThen (expectT s .rbracket) fun _ s =>
      let endSp := currentSpan s
      parseExprLoop fuel s (.index lhs idx ⟨span.start, endSp.stop⟩) minBp
    else if atK s .question then
      if 24 < minBp then some (some lhs, s)
      else
        let span := currentSpan s
        let s := (advanceT s).2
        parseExprLoop fuel s (.errorPropagate lhs span) minBp
    else
      match infixBp s with
      | none => some (some lhs, s)
      | some (opBp, isRight) =>
        if opBp < minBp then some (some lhs, s)
        else
          let nextBp := if isRight then opBp else opBp + 1
          let opSpan := currentSpan s
          let (opTok, s) := advanceT s
          match assignOpOf opTok.kind with
          | some aop =>
              bindP (parseExpr fuel s nextBp) fun rhs s =>
              parseExprLoop fuel s (.assign lhs rhs aop opSpan) minBp
          | none =>
              bindP (parseExpr fuel s nextBp) fun rhs s =>
              if opTok.kind.tag == TokenKind.pipeGt.tag then
                parseExprLoop fuel s (.pipe lhs rhs opSpan) minBp
              else if opTok.kind.tag == TokenKind.questionQuestion.tag then
                parseExprLoop fuel s (.nullishCoalesce lhs rhs opSpan) minBp
              else
                match binOpOf opTok.kind with
                | some op => parseExprLoop fuel s (.binary op lhs rhs opSpan) minBp
                | none => some (some lhs, s)

/-- The call-argument loop of the `LParen` postfix arm. -/
def parseCallArgs : Nat → PState → List Expr → PRes (List Expr)
  | 0, _, _ => none
  | fuel+1, s, args =>
    if atK s .rparen || atK s .eof then some (some args, s)
    else
      bindP (parseExpr fuel s 0) fun a s =>
      parseCallArgs fuel (skipComma s) (args ++ [a])

/-- `Parser::parse_prefix`. -/
def parsePrefix : Nat → PState → PRes Expr
  | 0, _ => none
  | fuel+1, s =>
    if atK s .bang then
      let span := currentSpan s
      let s := (advanceT s).2
      bindP (parseExpr fuel s 22) fun operand s =>
      some (some (.unary .not operand span), s)
    else if atK s .minus then
      let span := currentSpan s
      let s := (advanceT s).2
      bindP (parseExpr fuel s 22) fun operand s =>
      some (some (.unary .neg operand span), s)
    else if atK s .awaitKw then
      let span := currentSpan s
      let s := (advanceT s).2
      bindP (parseExpr fuel s 22) fun e s =>
      some (some (.awaitE e span), s)
    else parsePrimary fuel s

/-- `Parser::parse_primary`.  The `LParen` arm backtracks: `()` not followed
by `=>` re-consumes the `)` and yields `Literal::Nil` at the `(` span. -/
def parsePrimary : Nat → PState → PRes Expr
  | 0, _ => none
  | fuel+1, s =>
    let start := currentSpan s
    match intLitPayload? (peekK s) with
    | some litS =>
        let s := (advanceT s).2
        some (some (.literal (.int (intLitVal litS) start)), s)
    | none =>
    match floatLitPayload? (peekK s) with
    | some litS =>
        let s := (advanceT s).2
        some (some (.literal (.float (floatLitVal litS) start)), s)
    | none =>
    match strLitPayload? (peekK s) with
    | some v =>
        let s := (advanceT s).2
        some (some (.literal (.str v start)), s)
    | none =>
    if atK s .trueKw then
      some (some (.literal (.bool true start)), (advanceT s).2)
    else if atK s .falseKw then
      some (some (.literal (.bool false start)), (advanceT s).2)
    else if atK s .nilKw then
      some (some (.literal (.nil start)), (advanceT s).2)
    else if atK s .underscore then
      some (some (.placeholder start), (advanceT s).2)
    else
    match identPayload? (peekK s) with
    | some _ =>
        let (tok, s) := advanceT s
        (match identPayload? tok.kind with
         | some name => some (some (.ident ⟨name, tok.span⟩), s)
         | none => some (none, s))
    | none =>
    if atK s .lparen then
      let s1 := (advanceT s).2
      if atK s1 .rparen then
        let saved := s1.pos
        let s2 := (advanceT s1).2
        if atK s2 .fatArrow then
          let s3 := (advanceT s2).2
          parseArrowBody fuel s3 [] start
        else
          let s4 : PState := { s2 with pos := saved }
          let s5 := (advanceT s4).2
          some (some (.literal (.nil start)), s5)
      else
        let saved := s1.pos
        match tryParseArrowParams fuel s1 [] with
        | none => none
        | some (some params, s2) =>
            if atK s2 .fatArrow then
              let s3 := (advanceT s2).2
              parseArrowBody fuel s3 params start
            else
              bindP (parseExpr fuel { s2 with pos := saved } 0) fun e s =>
              andThen (expectT s .rparen) fun _ s =>
              some (some e, s)
        | some (none, s2) =>
            bindP (parseExpr fuel { s2 with pos := saved } 0) fun e s =>
            andThen (expectT s .rparen) fun _ s =>
            some (some e, s)
    else if atK s .lbracket then
      let s := (advanceT s).2
      bindP (parseArrayElems fuel s []) fun elements s =>
      andThen (expectT s .rbracket) fun _ s =>
      let endSp := currentSpan s
      some (some (.array elements ⟨start.start, endSp.stop⟩), s)
    else if atK s .lbrace then
      let saved := s.pos
      let s1 := (advanceT s).2
      if atK s1 .rbrace then
        let s2 := (advanceT s1).2
        let endSp := currentSpan s2
        some (some (.block ⟨[], none, ⟨start.start, endSp.stop⟩⟩), s2)
      else
        match identPayload? (peekK s1) with
        | some _ =>
            let s2 := (advanceT s1).2
            if atK s2 .colon then
              let s3 : PState := { s2 with pos := saved + 1 }
              bindP (parseObjectLitFields fuel s3 []) fun fields s =>
              andThen (expectT s .rbrace) fun _ s =>
              let endSp := currentSpan s
              some (some (.object fields ⟨start.start, endSp.stop⟩), s)
            else
              bindP (parseBlock fuel { s2 with pos := saved }) fun b s =>
              some (some (.block b), s)
        | none =>
            bindP (parseBlock fuel { s1 with pos := saved }) fun b s =>
            some (some (.block b), s)
    else if atK s .ifKw then parseIfExpr fuel s
    else if atK s .matchKw then parseMatchExpr fuel s
    else
    match tplNoSubPayload? (peekK s) with
    | some v =>
        let s := (advanceT s).2
        some (some (.templateString [.str v] start), s)
    | none =>
    match tplHeadPayload? (peekK s) with
    | some h =>
        let s := (advanceT s).2
        let parts0 : List TemplatePart := if h == "" then [] else [.str h]
        bindP (parseTemplateLoop fuel s parts0) fun parts s =>
        let endSp := currentSpan s
        some (some (.templateString parts ⟨start.start, endSp.stop⟩), s)
    | none =>
        some (none, perror s ("unexpected token " ++ (peekK s).debugStr))

/-- The element loop of the array-literal arm of `parse_primary`. -/
def parseArrayElems : Nat → PState → List Expr → PRes (List Expr)
  | 0, _, _ => none
  | fuel+1, s, elements =>
    if atK s .rbracket || atK s .eof then some (some elements, s)
    else
      bindP (parseExpr fuel s 0) fun e s =>
      parseArrayElems fuel (skipComma s) (elements ++ [e])

/-- The field loop of the object-literal arm of `parse_primary`. -/
def parseObjectLitFields : Nat → PState → List ObjectField → PRes (List ObjectField)
  | 0, _, _ => none
  | fuel+1, s, fields =>
    if atK s .rbrace || atK s .eof then some (some fields, s)
    else
      let fstart := currentSpan s
      andThen (expectIdent s) fun key s =>
      andThen (expectT s .colon) fun _ s =>
      bindP (parseExpr fuel s 0) fun value s =>
      let fend := currentSpan s
      parseObjectLitFields fuel (skipComma s)
        (fields ++ [.mk key value ⟨fstart.start, fend.stop⟩])

/-- `Parser::try_parse_arrow_params`: returns `none` without a diagnostic on
shape mismatch; failed type/default probes keep their diagnostics. -/
def tryParseArrowParams : Nat → PState → List Param → PRes (List Param)
  | 0, _, _ => none
  | fuel+1, s, params =>
    if atK s .rparen || atK s .eof then
      if atK s .rparen then some (some params, (advanceT s).2)
      else some (none, s)
    else
      let start := currentSpan s
      match identPayload? (peekK s) with
      | none => some (none, s)
      | some _ =>
        let (tok, s) := advanceT s
        match identPayload? tok.kind with
        | none => some (none, s)
        | some name =>
          match (if atK s .colon then parseType fuel (advanceT s).2
                 else some (none, s) : PRes TypeExpr) with
          | none => none
          | some (ty, s) =>
            match (if atK s .eq then parseExpr fuel (advanceT s).2 0
                   else some (none, s) : PRes Expr) with
            | none => none
            | some (dflt, s) =>
              let endSp := currentSpan s
              tryParseArrowParams fuel (skipComma s)
                (params ++ [.mk name ty dflt false ⟨start.start, endSp.stop⟩])

/-- `Parser::parse_arrow_body`.  The Rust struct literal does not set
`ArrowExpr::is_async` (there is no async-arrow syntax); the flag is `false`
here. -/
def parseArrowBody : Nat → PState → List Param → Span → PRes Expr
  | 0, _, _, _ => none
  | fuel+1, s, params, start =>
    if atK s .lbrace then
      bindP (parseBlock fuel s) fun b s =>
      let endSp := currentSpan s
      some (some (.arrow params (.block b) false ⟨start.start, endSp.stop⟩), s)
    else
      bindP (parseExpr fuel s 0) fun e s =>
      let endSp := currentSpan s
      some (some (.arrow params (.expr e) false ⟨start.start, endSp.stop⟩), s)

/-- `Parser::parse_if_expr` (a non-`if` expression after `else if` would
yield else-branch `None`, mirroring the Rust `if let`). -/
def parseIfExpr : Nat → PState → PRes Expr
  | 0, _ => none
  | fuel+1, s =>
    let start := currentSpan s
    let s := (advanceT s).2
    bindP (parseExpr fuel s 0) fun condition s =>
    bindP (parseBlock fuel s) fun thenBlock s =>
    if atK s .elseKw then
      let s := (advanceT s).2
      if atK s .ifKw then
        bindP (parseIfExpr fuel s) fun ifExpr s =>
        let eb : Option ElseBranch :=
          match ifExpr with
          | .ifE c t e sp => some (.ifE c t e sp)
          | _ => none
        let endSp := currentSpan s
        some (some (.ifE condition thenBlock eb ⟨start.start, endSp.stop⟩), s)
      else
        bindP (parseBlock fuel s) fun b s =>
        let endSp := currentSpan s
        some (some (.ifE condition thenBlock (some (.block b))
          ⟨start.start, endSp.stop⟩), s)
    else
      let endSp := currentSpan s
      some (some (.ifE condition thenBlock none ⟨start.start, endSp.stop⟩), s)

/-- `Parser::parse_match_expr`. -/
def parseMatchExpr : Nat → PState → PRes Expr
  | 0, _ => none
  | fuel+1, s =>
    let start := currentSpan s
    let s := (advanceT s).2
    bindP (parseExpr fuel s 0) fun subject s =>
    andThen (expectT s .lbrace) fun _ s =>
    bindP (parseMatchArms fuel s []) fun arms s =>
    andThen (expectT s .rbrace) fun _ s =>
    let endSp := currentSpan s
    some (some (.matchE subject arms ⟨start.start, endSp.stop⟩), s)

/-- The arm loop of `parse_match_expr`. -/
def parseMatchArms : Nat → PState → List MatchArm → PRes (List MatchArm)
  | 0, _, _ => none
  | fuel+1, s, arms =>
    if atK s .rbrace || atK s .eof then some (some arms, s)
    else
      let armStart := currentSpan s
      bindP (parsePattern fuel s) fun pattern s =>
      bindP (if atK s .ifKw then
               bindP (parseExpr fuel (advanceT s).2 0) fun g s =>
                 some (some (some g), s)
             else (some (some none, s) : PRes (Option Expr))) fun guard s =>
      andThen (expectT s .fatArrow) fun _ s =>
      bindP (parseExpr fuel s 0) fun body s =>
      let armEnd := currentSpan s
      parseMatchArms fuel (skipComma s)
        (arms ++ [.mk pattern guard body ⟨armStart.start, armEnd.stop⟩])

/-- `Parser::parse_pattern`. -/
def parsePattern : Nat → PState → PRes Pattern
  | 0, _ => none
  | fuel+1, s =>
    let start := currentSpan s
    match intLitPayload? (peekK s) with
    | some litS =>
        let s := (advanceT s).2
        let val := intLitVal litS
        if atK s .dotDot then
          let s := (advanceT s).2
          bindP (parseExpr fuel s 0) fun endE s =>
          let endSpan := currentSpan s
          some (some (.range (.literal (.int val start)) endE
            ⟨start.start, endSpan.stop⟩), s)
        else some (some (.literal (.int val start)), s)
    | none =>
    match floatLitPayload? (peekK s) with
    | some litS =>
        some (some (.literal (.float (floatLitVal litS) start)), (advanceT s).2)
    | none =>
    match strLitPayload? (peekK s) with
    | some v =>
        some (some (.literal (.str v start)), (advanceT s).2)
    | none =>
    if atK s .trueKw then
      some (some (.literal (.bool true start)), (advanceT s).2)
    else if atK s .falseKw then
      some (some (.literal (.bool false start)), (advanceT s).2)
    else if atK s .nilKw then
      some (some (.literal (.nil start)), (advanceT s).2)
    else if atK s .underscore then
      some (some (.wildcard start), (advanceT s).2)
    else if atK s .lbrace then
      let s := (advanceT s).2
      bindP (parseStructPatFields fuel s []) fun fields s =>
      andThen (expectT s .rbrace) fun _ s =>
      let endSp := currentSpan s
      some (some (.structP ⟨fields, ⟨start.start, endSp.stop⟩⟩), s)
    else
    match identPayload? (peekK s) with
    | some name0 =>
        let s := (advanceT s).2
        if atK s .colonColon then
          let s := (advanceT s).2
          andThen (expectIdent s) fun variant s =>
          bindP (if atK s .lparen then
                   let s := (advanceT s).2
                   bindP (parseEnumPatBinds fuel s []) fun binds s =>
                   andThen (expectT s .rparen) fun _ s =>
                   some (some binds, s)
                 else (some (some [], s) : PRes (List String))) fun bindings s =>
          let endSp := currentSpan s
          some (some (.enumP ⟨name0, variant, bindings,
            ⟨start.start, endSp.stop⟩⟩), s)
        else if atK s .dotDot then
          let s := (advanceT s).2
          bindP (parseExpr fuel s 0) fun endE s =>
          let endSpan := currentSpan s
          some (some (.range (.ident ⟨name0, start⟩) endE
            ⟨start.start, endSpan.stop⟩), s)
        else some (some (.ident name0 start), s)
    | none => some (none, perror s "expected pattern")

/-- The field loop of the struct-pattern arm of `parse_pattern`. -/
def parseStructPatFields : Nat → PState → List String → PRes (List String)
  | 0, _, _ => none
  | fuel+1, s, fields =>
    if atK s .rbrace || atK s .eof then some (some fields, s)
    else
      andThen (expectIdent s) fun f s =>
      parseStructPatFields fuel (skipComma s) (fields ++ [f])

/-- The binding loop of the enum-pattern arm of `parse_pattern`. -/
def parseEnumPatBinds : Nat → PState → List String → PRes (List String)
  | 0, _, _ => none
  | fuel+1, s, binds =>
    if atK s .rparen || atK s .eof then some (some binds, s)
    else
      andThen (expectIdent s) fun b s =>
      parseEnumPatBinds fuel (skipComma s) (binds ++ [b])

/-- The `${}`-expression loop of `Parser::parse_template_string`, after the
head has been pushed. -/
def parseTemplateLoop : Nat → PState → List TemplatePart → PRes (List TemplatePart)
  | 0, _, _ => none
  | fuel+1, s, parts =>
    bindP (parseExpr fuel s 0) fun e s =>
    let parts := parts ++ [TemplatePart.expr e]
    match tplTailPayload? (peekK s) with
    | some t =>
        let parts := if t == "" then parts else parts ++ [.str t]
        some (some parts, (advanceT s).2)
    | none =>
    match tplMiddlePayload? (peekK s) with
    | some m =>
        let parts := if m == "" then parts else parts ++ [.str m]
        parseTemplateLoop fuel (advanceT s).2 parts
    | none =>
        some (some parts, perror s "expected template continuation")

/-- `Parser::parse_block`. -/
def parseBlock : Nat → PState → PRes Block
  | 0, _ => none
  | fuel+1, s =>
    let start := currentSpan s
    andThen (expectT s .lbrace) fun _ s =>
    match parseBlockStmts fuel s [] none with
    | none => none
    | some ((stmts, tail), s) =>
      andThen (expectT s .rbrace) fun _ s =>
      let endSp := currentSpan s
      some (some (.mk stmts tail ⟨start.start, endSp.stop⟩), s)

/-- The statement loop of `parse_block`: failed declarations synchronize,
failed statements of other kinds are skipped, a trailing expression before
`}` becomes the tail. -/
def parseBlockStmts : Nat → PState → List Stmt → Option Expr →
    Option ((List Stmt × Option Expr) × PState)
  | 0, _, _, _ => none
  | fuel+1, s, stmts, tail =>
    if atK s .rbrace || atK s .eof then some ((stmts, tail), s)
    else if atK s .letKw || atK s .mutKw || atK s .constKw then
      match parseVarDecl fuel s with
      | none => none
      | some (some d, s) => parseBlockStmts fuel s (stmts ++ [.varDecl d]) tail
      | some (none, s) => parseBlockStmts fuel (synchronize s) stmts tail
    else if atK s .retKw then
      match parseRet fuel s with
      | none => none
      | some (some rv, s) =>
          let s := if atK s .semi then (advanceT s).2 else s
          parseBlockStmts fuel s (stmts ++ [.ret rv.1 rv.2]) tail
      | some (none, s) => parseBlockStmts fuel s stmts tail
    else if atK s .forKw then
      match parseFor fuel s with
      | none => none
      | some (some f, s) =>
          parseBlockStmts fuel s (stmts ++ [.forS f.1 f.2.1 f.2.2.1 f.2.2.2]) tail
      | some (none, s) => parseBlockStmts fuel s stmts tail
    else if atK s .whileKw then
      match parseWhile fuel s with
      | none => none
      | some (some w, s) =>
          parseBlockStmts fuel s (stmts ++ [.whileS w.1 w.2.1 w.2.2]) tail
      | some (none, s) => parseBlockStmts fuel s stmts tail
    else if atK s .tryKw then
      match parseTryCatch fuel s with
      | none => none
      | some (some tc, s) =>
          parseBlockStmts fuel s (stmts ++ [.tryCatch tc.1 tc.2.1 tc.2.2.1 tc.2.2.2]) tail
      | some (none, s) => parseBlockStmts fuel s stmts tail
    else
      match parseExpr fuel s 0 with
      | none => none
      | some (some e, s) =>
          if atK s .semi then
            let s := (advanceT s).2
            let sp := currentSpan s
            parseBlockStmts fuel s (stmts ++ [.exprStmt e sp]) tail
          else if atK s .rbrace then
            parseBlockStmts fuel s stmts (some e)
          else
            let sp := currentSpan s
            parseBlockStmts fuel s (stmts ++ [.exprStmt e sp]) tail
      | some (none, s) => parseBlockStmts fuel (synchronize s) stmts tail

/-- `Parser::parse_var_decl`. -/
def parseVarDecl : Nat → PState → PRes VarDecl
  | 0, _ => none
  | fuel+1, s =>
    let start := currentSpan s
    let kindOpt : Option VarKind :=
      if atK s .letKw then some .letK
      else if atK s .mutKw then some .mutK
      else if atK s .constKw then some .constK
      else none
    match kindOpt with
    | none => some (none, s)
    | some kind =>
      let s := (advanceT s).2
      andThen (expectIdent s) fun name s =>
      match (if atK s .colon then parseType fuel (advanceT s).2
             else some (none, s) : PRes TypeExpr) with
      | none => none
      | some (tyProbe, sAfterTy) =>
        if atK s .colon && tyProbe.isNone then some (none, sAfterTy)
        else
        let ty := tyProbe
        let s := sAfterTy
        andThen (expectT s .eq) fun _ s =>
        bindP (parseExpr fuel s 0) fun init s =>
        let s := if atK s .semi then (advanceT s).2 else s
        let endSp := currentSpan s
        some (some (.mk kind name ty init ⟨start.start, endSp.stop⟩), s)

/-- `Parser::parse_ret`: the flattened `ReturnStmt` (value, span). -/
def parseRet : Nat → PState → PRes (Option Expr × Span)
  | 0, _ => none
  | fuel+1, s =>
    let start := currentSpan s
    let s := (advanceT s).2
    bindP (if atK s .semi || atK s .rbrace || atK s .eof then
             (some (some none, s) : PRes (Option Expr))
           else
             bindP (parseExpr fuel s 0) fun v s =>
             some (some (some v), s)) fun value s =>
    let endSp := currentSpan s
    some (some (value, ⟨start.start, endSp.stop⟩), s)

/-- `Parser::parse_for`: the flattened `ForStmt` fields. -/
def parseFor : Nat → PState → PRes (String × Expr × Block × Span)
  | 0, _ => none
  | fuel+1, s =>
    let start := currentSpan s
    let s := (advanceT s).2
    andThen (expectIdent s) fun binding s =>
    andThen (expectT s .inKw) fun _ s =>
    bindP (parseExpr fuel s 0) fun iter s =>
    bindP (parseBlock fuel s) fun body s =>
    some (some (binding, iter, body, ⟨start.start, body.span.stop⟩), s)

/-- `Parser::parse_while`: the flattened `WhileStmt` fields. -/
def parseWhile : Nat → PState → PRes (Expr × Block × Span)
  | 0, _ => none
  | fuel+1, s =>
    let start := currentSpan s
    let s := (advanceT s).2
    bindP (parseExpr fuel s 0) fun condition s =>
    bindP (parseBlock fuel s) fun body s =>
    some (some (condition, body, ⟨start.start, body.span.stop⟩), s)

/-- `Parser::parse_try_catch`: the flattened `TryCatchStmt` fields. -/
def parseTryCatch : Nat → PState → PRes (Block × String × Block × Span)
  | 0, _ => none
  | fuel+1, s =>
    let start := currentSpan s
    let s := (advanceT s).2
    bindP (parseBlock fuel s) fun tryBlock s =>
    andThen (expectT s .catchKw) fun _ s =>
    andThen (expectIdent s) fun catchBinding s =>
    bindP (parseBlock fuel s) fun catchBlock s =>
    some (some (tryBlock, catchBinding, catchBlock,
      ⟨start.start, catchBlock.span.stop⟩), s)

end

end AgParse

namespace AgParse
open Ag

/-- Rust `if cond { Some(sub_parse()?) } else { None }`: run the thunk when
the condition holds, propagating its failure; otherwise `None` without
touching the state. -/
def optStep {α : Type} (cond : Bool) (run : Unit → PRes α) (s : PState) :
    PRes (Option α) :=
  if cond then bindP (run ()) (fun v s => some (some (some v), s))
  else some (some none, s)

/-- The parameter loop of `Parser::parse_params`. -/
def parseParams : Nat → PState → List Param → PRes (List Param)
  | 0, _, _ => none
  | fuel+1, s, params =>
    if atK s .rparen || atK s .eof then some (some params, s)
    else
      let start := currentSpan s
      andThen (expectIdent s) fun name s =>
      bindP (optStep (atK s .colon) (fun _ => parseType fuel (advanceT s).2) s) fun ty s =>
      bindP (optStep (atK s .eq) (fun _ => parseExpr fuel (advanceT s).2 0) s) fun dflt s =>
      let endSp := currentSpan s
      parseParams fuel (skipComma s)
        (params ++ [.mk name ty dflt false ⟨start.start, endSp.stop⟩])

/-- `Parser::parse_fn_decl`. -/
def parseFnDecl (fuel : Nat) (s : PState) (isPub : Bool) : PRes FnDecl :=
  let start := currentSpan s
  let p := if atK s .asyncKw then (true, (advanceT s).2) else (false, s)
  let isAsync := p.1
  let s := p.2
  andThen (expectT s .fnKw) fun _ s =>
  andThen (expectIdent s) fun name s =>
  andThen (expectT s .lparen) fun _ s =>
  bindP (parseParams fuel s []) fun params s =>
  andThen (expectT s .rparen) fun _ s =>
  bindP (optStep (atK s .thinArrow) (fun _ => parseType fuel (advanceT s).2) s)
    fun returnType s =>
  bindP (parseBlock fuel s) fun body s =>
  some (some ⟨name, params, returnType, body, isPub, isAsync,
    ⟨start.start, body.span.stop⟩⟩, s)

/-- The field loop of `Parser::parse_struct_decl` (including the optional
`T?` postfix and default value). -/
def parseStructFields : Nat → PState → List Field → PRes (List Field)
  | 0, _, _ => none
  | fuel+1, s, fields =>
    if atK s .rbrace || atK s .eof then some (some fields, s)
    else
      let fstart := currentSpan s
      andThen (expectIdent s) fun fname s =>
      andThen (expectT s .colon) fun _ s =>
      bindP (parseType fuel s) fun ftype s =>
      let p :=
        if atK s .question then
          (TypeExpr.nullable ftype ⟨fstart.start, (currentSpan s).stop⟩, (advanceT s).2)
        else (ftype, s)
      let ftype := p.1
      let s := p.2
      bindP (optStep (atK s .eq) (fun _ => parseExpr fuel (advanceT s).2 0) s) fun dflt s =>
      let fend := currentSpan s
      parseStructFields fuel (skipComma s)
        (fields ++ [⟨fname, ftype, dflt, ⟨fstart.start, fend.stop⟩⟩])

/-- `Parser::parse_struct_decl`. -/
def parseStructDecl (fuel : Nat) (s : PState) : PRes StructDecl :=
  let start := currentSpan s
  let s := (advanceT s).2
  andThen (expectIdent s) fun name s =>
  andThen (expectT s .lbrace) fun _ s =>
  bindP (parseStructFields fuel s []) fun fields s =>
  andThen (expectT s .rbrace) fun _ s =>
  let endSp := currentSpan s
  some (some ⟨name, fields, ⟨start.start, endSp.stop⟩⟩, s)

/-- The variant-field loop of `Parser::parse_enum_decl`. -/
def parseEnumVFields : Nat → PState → List Field → PRes (List Field)
  | 0, _, _ => none
  | fuel+1, s, vfields =>
    if atK s .rparen || atK s .eof then some (some vfields, s)
    else
      let fstart := currentSpan s
      andThen (expectIdent s) fun fname s =>
      andThen (expectT s .colon) fun _ s =>
      bindP (parseType fuel s) fun ftype s =>
      let fend := currentSpan s
      parseEnumVFields fuel (skipComma s)
        (vfields ++ [⟨fname, ftype, none, ⟨fstart.start, fend.stop⟩⟩])

/-- The variant loop of `Parser::parse_enum_decl`. -/
def parseEnumVariants : Nat → PState → List Variant → PRes (List Variant)
  | 0, _, _ => none
  | fuel+1, s, variants =>
    if atK s .rbrace || atK s .eof then some (some variants, s)
    else
      let vstart := currentSpan s
      andThen (expectIdent s) fun vname s =>
      bindP (if atK s .lparen then
               let s := (advanceT s).2
               bindP (parseEnumVFields fuel s []) fun fs s =>
               andThen (expectT s .rparen) fun _ s =>
               some (some fs, s)
             else (some (some [], s) : PRes (List Field))) fun fields s =>
      let vend := currentSpan s
      parseEnumVariants fuel (skipComma s)
        (variants ++ [⟨vname, fields, ⟨vstart.start, vend.stop⟩⟩])

/-- `Parser::parse_enum_decl`. -/
def parseEnumDecl (fuel : Nat) (s : PState) : PRes EnumDecl :=
  let start := currentSpan s
  let s := (advanceT s).2
  andThen (expectIdent s) fun name s =>
  andThen (expectT s .lbrace) fun _ s =>
  bindP (parseEnumVariants fuel s []) fun variants s =>
  andThen (expectT s .rbrace) fun _ s =>
  let endSp := currentSpan s
  some (some ⟨name, variants, ⟨start.start, endSp.stop⟩⟩, s)

/-- `Parser::parse_type_alias`. -/
def parseTypeAlias (fuel : Nat) (s : PState) : PRes TypeAlias :=
  let start := currentSpan s
  let s := (advanceT s).2
  andThen (expectIdent s) fun name s =>
  andThen (expectT s .eq) fun _ s =>
  bindP (parseType fuel s) fun ty s =>
  let endSp := currentSpan s
  some (some ⟨name, ty, ⟨start.start, endSp.stop⟩⟩, s)

/-- The parameter loop of `Parser::parse_extern_params` (a variadic
parameter must be last and ends the loop). -/
def parseExternParams : Nat → PState → List Param → Bool → PRes (List Param × Bool)
  | 0, _, _, _ => none
  | fuel+1, s, params, variadic =>
    if atK s .rparen || atK s .eof then some (some (params, variadic), s)
    else
      let start := currentSpan s
      let p := if atK s .dotDotDot then (true, (advanceT s).2) else (false, s)
      let isVariadic := p.1
      let s := p.2
      andThen (expectIdent s) fun name s =>
      bindP (optStep (atK s .colon) (fun _ => parseType fuel (advanceT s).2) s) fun ty s =>
      bindP (optStep (atK s .eq) (fun _ => parseExpr fuel (advanceT s).2 0) s) fun dflt s =>
      let endSp := currentSpan s
      let params := params ++ [.mk name ty dflt isVariadic ⟨start.start, endSp.stop⟩]
      if isVariadic then
        let s :=
          if atK s .comma then
            let s := (advanceT s).2
            if !(atK s .rparen || atK s .eof) then
              perror s "variadic parameter must be the last parameter"
            else s
          else s
        some (some (params, true), s)
      else parseExternParams fuel (skipComma s) params variadic

/-- `Parser::parse_extern_fn_decl`. -/
def parseExternFnDecl (fuel : Nat) (s : PState) (start : Span)
    (jsAnnot : Option JsAnnot) : PRes ExternFnDecl :=
  let s := (advanceT s).2
  andThen (expectIdent s) fun name s =>
  andThen (expectT s .lparen) fun _ s =>
  bindP (parseExternParams fuel s [] false) fun pv s =>
  andThen (expectT s .rparen) fun _ s =>
  bindP (optStep (atK s .thinArrow) (fun _ => parseType fuel (advanceT s).2) s)
    fun returnType s =>
  if atK s .lbrace then
    some (none, perror s "extern functions must not have a body")
  else
    let endSp := currentSpan s
    some (some ⟨name, pv.1, returnType, jsAnnot, pv.2,
      ⟨start.start, endSp.stop⟩⟩, s)

/-- The field/method loop of `Parser::parse_extern_struct_decl`. -/
def parseExternStructMembers : Nat → PState → List Field → List MethodSignature →
    PRes (List Field × List MethodSignature)
  | 0, _, _, _ => none
  | fuel+1, s, fields, methods =>
    if atK s .rbrace || atK s .eof then some (some (fields, methods), s)
    else if atK s .fnKw then
      let mstart := currentSpan s
      let s := (advanceT s).2
      andThen (expectIdent s) fun mname s =>
      andThen (expectT s .lparen) fun _ s =>
      bindP (parseParams fuel s []) fun mparams s =>
      andThen (expectT s .rparen) fun _ s =>
      bindP (optStep (atK s .thinArrow) (fun _ => parseType fuel (advanceT s).2) s)
        fun mret s =>
      if atK s .lbrace then
        some (none, perror s "extern struct methods must not have a body")
      else
        let mend := currentSpan s
        parseExternStructMembers fuel (skipComma s) fields
          (methods ++ [⟨mname, mparams, mret, ⟨mstart.start, mend.stop⟩⟩])
    else
      let fstart := currentSpan s
      andThen (expectIdent s) fun fname s =>
      andThen (expectT s .colon) fun _ s =>
      bindP (parseType fuel s) fun ftype s =>
      let fend := currentSpan s
      parseExternStructMembers fuel (skipComma s)
        (fields ++ [⟨fname, ftype, none, ⟨fstart.start, fend.stop⟩⟩]) methods

/-- `Parser::parse_extern_struct_decl`. -/
def parseExternStructDecl (fuel : Nat) (s : PState) (start : Span)
    (jsAnnot : Option JsAnnot) : PRes ExternStructDecl :=
  let s := (advanceT s).2
  andThen (expectIdent s) fun name s =>
  andThen (expectT s .lbrace) fun _ s =>
  bindP (parseExternStructMembers fuel s [] []) fun fm s =>
  andThen (expectT s .rbrace) fun _ s =>
  let endSp := currentSpan s
  some (some ⟨name, fm.1, fm.2, jsAnnot, ⟨start.start, endSp.stop⟩⟩, s)

/-- `Parser::parse_extern_type_decl`. -/
def parseExternTypeDecl (s : PState) (start : Span) (jsAnnot : Option JsAnnot) :
    PRes ExternTypeDecl :=
  let s := (advanceT s).2
  andThen (expectIdent s) fun name s =>
  let endSp := currentSpan s
  some (some ⟨name, jsAnnot, ⟨start.start, endSp.stop⟩⟩, s)

/-- `Parser::parse_extern_item`. -/
def parseExternItem (fuel : Nat) (s : PState) (jsAnnot : Option JsAnnot) :
    PRes Item :=
  let start := currentSpan s
  let s := (advanceT s).2
  if atK s .fnKw then
    bindP (parseExternFnDecl fuel s start jsAnnot) fun e s =>
    some (some (.externFnDecl e), s)
  else if atK s .structKw then
    bindP (parseExternStructDecl fuel s start jsAnnot) fun e s =>
    some (some (.externStructDecl e), s)
  else if atK s .typeKw then
    bindP (parseExternTypeDecl s start jsAnnot) fun e s =>
    some (some (.externTypeDecl e), s)
  else some (none, perror s "expected `fn`, `struct`, or `type` after `extern`")

/-- `Parser::parse_js_annotated_extern`. -/
def parseJsAnnotatedExtern (fuel : Nat) (s : PState) : PRes Item :=
  andThen (parseJsAnnot s) fun ann s =>
  if atK s .externKw then parseExternItem fuel s (some ann)
  else some (none, perror s "@js annotation can only be applied to extern declarations")

/-- `Parser::parse_item`. -/
def parseItem (hook : DslHook) (fuel : Nat) (s : PState) : PRes Item :=
  let dsl := fun (s : PState) =>
    andThen (parseDslBlock hook s) fun d s => some (some (Item.dslBlock d), s)
  if atK s .importKw then
    bindP (parseImport fuel s) fun i s => some (some (.importI i), s)
  else if atK s .letKw || atK s .mutKw || atK s .constKw then
    bindP (parseVarDecl fuel s) fun v s => some (some (.varDecl v), s)
  else if atK s .fnKw || atK s .asyncKw then
    bindP (parseFnDecl fuel s false) fun f s => some (some (.fnDecl f), s)
  else if atK s .pubKw then
    let s := (advanceT s).2
    if atK s .fnKw || atK s .asyncKw then
      bindP (parseFnDecl fuel s true) fun f s => some (some (.fnDecl f), s)
    else some (none, perror s "expected `fn` after `pub`")
  else if atK s .structKw then
    bindP (parseStructDecl fuel s) fun d s => some (some (.structDecl d), s)
  else if atK s .enumKw then
    bindP (parseEnumDecl fuel s) fun d s => some (some (.enumDecl d), s)
  else if atK s .typeKw then
    bindP (parseTypeAlias fuel s) fun t s => some (some (.typeAlias t), s)
  else if atK s .externKw then parseExternItem fuel s none
  else if atK s .atSign then
    match s.tokens[s.pos + 1]? with
    | some t =>
        (match identPayload? t.kind with
         | some name => if name == "js" then parseJsAnnotatedExtern fuel s else dsl s
         | none => dsl s)
    | none => dsl s
  else if atK s .forKw || atK s .whileKw || atK s .tryKw || atK s .retKw then
    let span := currentSpan s
    bindP (if atK s .forKw then
             bindP (parseFor fuel s) fun f s =>
               some (some (Stmt.forS f.1 f.2.1 f.2.2.1 f.2.2.2), s)
           else if atK s .whileKw then
             bindP (parseWhile fuel s) fun w s =>
               some (some (Stmt.whileS w.1 w.2.1 w.2.2), s)
           else if atK s .tryKw then
             bindP (parseTryCatch fuel s) fun tc s =>
               some (some (Stmt.tryCatch tc.1 tc.2.1 tc.2.2.1 tc.2.2.2), s)
           else
             bindP (parseRet fuel s) fun r s =>
             let s := if atK s .semi then (advanceT s).2 else s
             some (some (Stmt.ret r.1 r.2), s)) fun stmt s =>
    some (some (.exprStmt ⟨.block ⟨[stmt], none, span⟩, span⟩), s)
  else
    bindP (parseExpr fuel s 0) fun e s =>
    let span := currentSpan s
    let s := if atK s .semi then (advanceT s).2 else s
    some (some (.exprStmt ⟨e, span⟩), s)

/-- The item loop of `Parser::parse_module`: a failed item synchronizes and
the loop re-enters at the same or a later token. -/
def parseModuleLoop (hook : DslHook) : Nat → PState → List Item →
    Option (Module × PState)
  | 0, _, _ => none
  | fuel+1, s, items =>
    if atK s .eof then some (⟨items⟩, s)
    else
      match parseItem hook fuel s with
      | none => none
      | some (some item, s) => parseModuleLoop hook fuel s (items ++ [item])
      | some (none, s) => parseModuleLoop hook fuel (synchronize s) items

/-- `Parser::parse_module` on a token stream. -/
def parseModule (hook : DslHook) (fuel : Nat) (s : PState) :
    Option (Module × PState) :=
  parseModuleLoop hook fuel s []

end AgParse

namespace AgParse
open Ag

/-- The token stream the lexer produces for the one-character source `"}"`:
a stray closing brace, then `Eof`. -/
def strayRBraceTokens : List Token :=
  [⟨.rbrace, ⟨0,1⟩, "\x7d"⟩, ⟨.eof, ⟨1,1⟩, ""⟩]

/-- On the stray-brace stream, `parse_primary` falls through every literal,
identifier and bracket arm to the default arm: one "unexpected token RBrace"
diagnostic at the brace, no token consumed. -/
theorem parsePrimary_strayRBrace (n : Nat) (ds : List Diagnostic) :
    parsePrimary (n+1) ⟨strayRBraceTokens, 0, ds⟩
      = some (none, ⟨strayRBraceTokens, 0,
          ds ++ [⟨"unexpected token RBrace", ⟨0,1⟩⟩]⟩) := by
  simp [parsePrimary, atK, peekK, peekToken, currentSpan, perror, pushDiag,
    strayRBraceTokens, intLitPayload?, floatLitPayload?, strLitPayload?,
    identPayload?, tplNoSubPayload?, tplHeadPayload?, TokenKind.tag,
    TokenKind.debugStr, defaultToken]

/-- `parse_prefix` forwards the stray-brace failure of `parse_primary`. -/
theorem parsePrefix_strayRBrace (n : Nat) (ds : List Diagnostic) :
    parsePrefix (n+2) ⟨strayRBraceTokens, 0, ds⟩
      = some (none, ⟨strayRBraceTokens, 0,
          ds ++ [⟨"unexpected token RBrace", ⟨0,1⟩⟩]⟩) := by
  have h := parsePrimary_strayRBrace n ds
  simp [parsePrefix, atK, peekK, strayRBraceTokens, TokenKind.tag]
  exact h

/-- `parse_expr` forwards the stray-brace failure. -/
theorem parseExpr_strayRBrace (n : Nat) (ds : List Diagnostic) :
    parseExpr (n+3) ⟨strayRBraceTokens, 0, ds⟩ 0
      = some (none, ⟨strayRBraceTokens, 0,
          ds ++ [⟨"unexpected token RBrace", ⟨0,1⟩⟩]⟩) := by
  have h := parsePrefix_strayRBrace n ds
  simp [parseExpr, h, bindP]

/-- `parse_item` on the stray brace dispatches to its expression arm, which
fails with one diagnostic and leaves the cursor on the brace. -/
theorem parseItem_strayRBrace (hook : DslHook) (n : Nat) (ds : List Diagnostic) :
    parseItem hook (n+3) ⟨strayRBraceTokens, 0, ds⟩
      = some (none, ⟨strayRBraceTokens, 0,
          ds ++ [⟨"unexpected token RBrace", ⟨0,1⟩⟩]⟩) := by
  have h := parseExpr_strayRBrace n ds
  simp only [strayRBraceTokens] at h
  simp [parseItem, atK, peekK, strayRBraceTokens, TokenKind.tag, h, bindP]

/-- One stray `}` at top level starves every fuel budget: `parse_item` fails
on `}` without consuming it, and `synchronize` breaks at `}` without
consuming it either, so `parse_module`'s loop re-reads the same token
forever. -/
theorem parseModuleLoop_strayRBrace_diverges (hook : DslHook) :
    ∀ (fuel : Nat) (ds : List Diagnostic) (items : List Item),
      parseModuleLoop hook fuel ⟨strayRBraceTokens, 0, ds⟩ items = none
  | 0, _, _ => rfl
  | 1, _, _ => rfl
  | 2, _, _ => rfl
  | 3, _, _ => rfl
  | n+4, ds, items => by
      have hitem := parseItem_strayRBrace hook n ds
      have hsync : synchronize ⟨strayRBraceTokens, 0,
          ds ++ [⟨"unexpected token RBrace", ⟨0,1⟩⟩]⟩
          = ⟨strayRBraceTokens, 0,
              ds ++ [⟨"unexpected token RBrace", ⟨0,1⟩⟩]⟩ := rfl
      have ih := parseModuleLoop_strayRBrace_diverges hook (n+3)
        (ds ++ [⟨"unexpected token RBrace", ⟨0,1⟩⟩]) items
      simp only [strayRBraceTokens] at hitem hsync ih ⊢
      rw [parseModuleLoop]
      simp [atK, peekK, TokenKind.tag, hitem, hsync, ih]

/-- **C1.** The parser does not terminate on every token stream: on the
stream of the source `"}"` both the item loop (from any diagnostics/items
state) and `parse_module` itself diverge — no fuel budget suffices, because
the failing item neither consumes the brace nor lets `synchronize` move past
it. -/
theorem parser_termination_refuted (hook : DslHook) (fuel : Nat)
    (ds : List Diagnostic) (items : List Item) :
    parseModuleLoop hook fuel ⟨strayRBraceTokens, 0, ds⟩ items = none
  ∧ parseModule hook fuel ⟨strayRBraceTokens, 0, []⟩ = none :=
  ⟨parseModuleLoop_strayRBrace_diverges hook fuel ds items,
   parseModuleLoop_strayRBrace_diverges hook fuel [] []⟩

end AgParse

namespace AgParse
open Ag

/-- **C10.** In expression position, `(` `)` not followed by `=>` parses
successfully as the nil literal: `parse_primary` consumes exactly the two
parenthesis tokens, emits no diagnostic (the state keeps its diagnostics and
only the cursor moves), and yields `Literal::Nil` at the `(` token's span. -/
theorem unit_parens_nil_literal (fuel : Nat) (s : PState) (lpTok rpTok : Token)
    (h1 : s.tokens[s.pos]? = some lpTok) (h2 : lpTok.kind = .lparen)
    (h3 : s.tokens[s.pos + 1]? = some rpTok) (h4 : rpTok.kind = .rparen)
    (h5 : (peekK { s with pos := s.pos + 2 }).tag ≠ TokenKind.fatArrow.tag) :
    parsePrimary (fuel+1) s
      = some (some (.literal (.nil lpTok.span)), { s with pos := s.pos + 2 }) := by
  have hlt : s.pos < s.tokens.length := (List.getElem?_eq_some.mp h1).1
  have hlt2 : s.pos + 1 < s.tokens.length := (List.getElem?_eq_some.mp h3).1
  have hmin : min s.pos (s.tokens.length - 1) = s.pos := Nat.min_eq_left (by omega)
  have hpt : peekToken s = lpTok := by
    rw [peekToken, hmin, List.getD_eq_getElem?_getD, h1]
    rfl
  have hpk : peekK s = .lparen := by simp [peekK, h1, h2]
  have hpk1 : peekK { s with pos := s.pos + 1 } = .rparen := by
    simp [peekK, h3, h4]
  have hfa : atK { s with pos := s.pos + 2 } TokenKind.fatArrow = false := by
    simp only [atK]
    exact beq_eq_false_iff_ne.mpr h5
  have hadd : s.pos + 1 + 1 = s.pos + 2 := rfl
  have hIntP : intLitPayload? (peekK s) = none := by rw [hpk]; rfl
  have hFloatP : floatLitPayload? (peekK s) = none := by rw [hpk]; rfl
  have hStrP : strLitPayload? (peekK s) = none := by rw [hpk]; rfl
  have hIdentP : identPayload? (peekK s) = none := by rw [hpk]; rfl
  have hTrue : atK s .trueKw = false := by simp [atK, hpk, TokenKind.tag]
  have hFalse : atK s .falseKw = false := by simp [atK, hpk, TokenKind.tag]
  have hNil : atK s .nilKw = false := by simp [atK, hpk, TokenKind.tag]
  have hUnd : atK s .underscore = false := by simp [atK, hpk, TokenKind.tag]
  have hLp : atK s .lparen = true := by simp [atK, hpk, TokenKind.tag]
  have hRp : atK { s with pos := s.pos + 1 } .rparen = true := by
    simp [atK, hpk1, TokenKind.tag]
  simp [parsePrimary, hadd, hIntP, hFloatP, hStrP, hIdentP, hTrue, hFalse,
    hNil, hUnd, hLp, hRp, hfa, currentSpan, hpt, advanceT, hlt, hlt2]

end AgParse

namespace AgParse
open Ag

/-- The token stream of `let x = ()`. -/
def letUnitTokens : List Token :=
  [⟨.letKw, ⟨0,3⟩, "let"⟩, ⟨.identT "x", ⟨4,5⟩, "x"⟩, ⟨.eq, ⟨6,7⟩, "="⟩,
   ⟨.lparen, ⟨8,9⟩, "("⟩, ⟨.rparen, ⟨9,10⟩, ")"⟩, ⟨.eof, ⟨10,10⟩, ""⟩]

/-- Instantiation on `let x = ()`: `parse_primary` at the `(` yields the nil
literal, and the whole module parses to one variable declaration with
initializer `Literal::Nil` and zero diagnostics. -/
theorem unit_parens_nil_literal_witness :
    parsePrimary 10 ⟨letUnitTokens, 3, []⟩
      = some (some (.literal (.nil ⟨8,9⟩)), ⟨letUnitTokens, 5, []⟩)
  ∧ parseModule (fun s _ _ _ => (none, s)) 20 ⟨letUnitTokens, 0, []⟩
      = some (⟨[.varDecl (.mk .letK "x" none (.literal (.nil ⟨8,9⟩)) ⟨0,10⟩)]⟩,
          ⟨letUnitTokens, 5, []⟩) := by
  constructor
  · exact unit_parens_nil_literal 9 ⟨letUnitTokens, 3, []⟩
      ⟨.lparen, ⟨8,9⟩, "("⟩ ⟨.rparen, ⟨9,10⟩, ")"⟩ rfl rfl rfl rfl (by decide)
  · rfl

end AgParse
